import Mathlib

/-!
# Ingest pipeline of the trace server (`server/server.cpp`), the
# ingest-from-file tool (`xml2trace/main.cpp`), trace points and macros
# (`core/tracelib.h`, `hooklib/tracelib.h`) and the filter and the model
# of the GUI (`gui/entryfilter.cpp`, `gui/entryitemmodel.cpp`)

A shallow embedding of `Server::handleIncomingData`,
`Server::handleTraceEntryXMLData`, `deserializeTraceEntry` and
`Server::storeEntry`, with the properties of the framing of a read into
entry slices, of the decoding of an entry and of its storage in the
relational store; of `fromXml` and `main` of the tool, with the data
handed to the XML handler and the exit codes; of the constructor of
`TracePoint`, the action codes of `TracePointSet` and the instrumentation
macros; and of `EntryFilter` and the suspension of `EntryItemModel`.

Conventions of the embedding.
* A `QByteArray` is a list of bytes, a byte being its numeric value.
* An `int` position is a natural number; `-1` ("not found") is `none`.
* The `while` loop of `handleIncomingData` runs on fuel; the theorems show
  that the fuel `size + 1` given by `handleIncomingData` is never used up.
* The text of an SQL statement is put together as in the source, with
  `formatValue` and the chained calls of `QString::arg`; a later `arg` of
  the chain looks for its place marker in the text inserted before it as
  well. The statement is executed for what its text says: a text that is
  the template with a literal in the place of each place marker denotes the
  relational operation on the values of these literals; the effect of any
  other text is left open (`none`). A table is the list of its rows in
  insertion order, `none` when it is left open.
* The null string is written `NULL` by `formatValue`, and a comparison with
  `NULL` is never true. A numeral below `2^63` is read by the engine as an
  INTEGER, any other as a REAL.
* A place marker of `arg` is looked for among the ASCII digits; after a `%`
  before a character outside ASCII, and for a number at a marker written
  with `L`, the result of `arg` is left open. A `QDateTime` is written as
  its ISO date, the local time of the server taken to be UTC.
* Row ids are natural numbers: neither the 64 bit range of the engine nor
  the `unsigned int` through which the source reads an id (`toUInt`) is
  modelled, both being the identity on ids below `2^32`.
* `assert` is taken as active: a failed assertion ends the process, which
  is the result `none`.
* Classes that are not among the sources (`GetOpt`, `XmlContentHandler`,
  the database behind `queryForEntries`) enter as inputs: the values they
  leave, or the answers they give.
* A macro is the function from its arguments and the place of its use to
  what its expansion does; the build switch `TRACELIB_DISABLE_TRACE_CODE`
  is the argument `disabled`.
* A `QString` of an entry is an `Option String`, `none` being the null
  string (the text of a missing child, a missing attribute); the other
  strings are `String`s. A counter of the GUI is a natural number without
  an upper bound.
-/

namespace Tracer

/-! ## Bytes and the framing sentinel -/

/-- One byte of a `QByteArray`, as its numeric value. -/
abbrev Byte := Nat

/-- The bytes of a string literal of the source (ASCII text). -/
def bytes (s : String) : List Byte := s.toList.map Char.toNat

/-- The literal `"<traceentry "` searched by `handleIncomingData`, with its
trailing space: `<` is 60, the space is 32. -/
def sentinel : List Byte := [60, 116, 114, 97, 99, 101, 101, 110, 116, 114, 121, 32]

/-- Search of `needle` in `rest`, the part of the haystack that starts at
position `i`: the first position at which `needle` is a prefix of what
remains. -/
def indexOfAux (needle : List Byte) : List Byte → Nat → Option Nat
  | [], i => if needle = [] then some i else none
  | b :: bs, i => if needle <+: b :: bs then some i else indexOfAux needle bs (i + 1)

/-- `QByteArray::indexOf(const char *str, int from)` for `from ≥ 0`: the
position of the first occurrence of `needle` at or after `start`, `none`
(the `-1` of Qt) when there is none or when `start` is beyond the size. -/
def indexOf (hay needle : List Byte) (start : Nat) : Option Nat :=
  if hay.length < start then none else indexOfAux needle (hay.drop start) start

/-- `QByteArray::fromRawData(xmlData.data() + p, n)`: the `n` bytes of
`xmlData` from position `p` on. -/
def fromRawData (xmlData : List Byte) (p n : Nat) : List Byte :=
  (xmlData.drop p).take n

/-- The `while ( q != -1 )` loop of `Server::handleIncomingData` together
with the call that follows it, for a handler `handle` of the slices acting
on a state `σ`. `p` and `q` are the variables of the source; `none` is
returned when the fuel is used up. -/
def handleIncomingDataLoop {σ : Type} (handle : σ → List Byte → σ)
    (xmlData : List Byte) : Nat → Nat → Option Nat → σ → Option σ
  | 0, _, _, _ => none
  | _ + 1, p, none, st =>
      some (handle st (fromRawData xmlData p (xmlData.length - p)))
  | fuel + 1, p, some q, st =>
      handleIncomingDataLoop handle xmlData fuel q
        (indexOf xmlData sentinel (q + 1))
        (handle st (fromRawData xmlData p (q - p)))

/-- `Server::handleIncomingData` for the bytes `xmlData` returned by
`client->readAll()`, with `handle` standing for
`handleTraceEntryXMLData`. -/
def handleIncomingDataWith {σ : Type} (handle : σ → List Byte → σ)
    (xmlData : List Byte) (st : σ) : Option σ :=
  handleIncomingDataLoop handle xmlData (xmlData.length + 1) 0
    (indexOf xmlData sentinel 1) st

/-- The slices that `handleIncomingData` hands to
`handleTraceEntryXMLData`, in the order of the calls. -/
def handedSlices (xmlData : List Byte) : Option (List (List Byte)) :=
  handleIncomingDataWith (fun calls data => calls ++ [data]) xmlData []

/-- The framing of a buffer, stated on the buffer alone: with no sentinel
from position 1 on the buffer is one slice; otherwise the first slice ends
at the first such position `q` and the rest of the buffer is framed in the
same way. `handleIncomingData` is shown to hand over exactly these
slices. -/
inductive Framed : List Byte → List (List Byte) → Prop
  | last {buf : List Byte} : indexOf buf sentinel 1 = none → Framed buf [buf]
  | cut {buf : List Byte} {q : Nat} {sl : List (List Byte)} :
      indexOf buf sentinel 1 = some q → Framed (buf.drop q) sl →
      Framed buf (buf.take q :: sl)

/-- The slices handed to the decoder over the successive reads of one
connection, after the calls `calls` made before: `handleIncomingData` runs
once for each read, on the bytes of that read alone (`xmlData` is a local
of the function, the server keeps no bytes between two reads). -/
def handedSlicesOfReads : List (List Byte) → List (List Byte) → Option (List (List Byte))
  | [], calls => some calls
  | r :: rs, calls =>
      (handleIncomingDataWith (fun calls data => calls ++ [data]) r calls).bind
        (handedSlicesOfReads rs)

/-! ## The DOM handed over by the XML parser -/

/-- A node of a parsed document (`QDomNode`, never null): an element with
its attributes and child nodes, character data (a text node or, with
`cdata`, a CDATA section), or a node of another kind (comment, processing
instruction, ...) with its node name. A null `QDomNode` or `QDomElement` of
the source is `none` of `Option QDomNode`. -/
inductive QDomNode where
  | element (tagName : String) (attributes : List (String × String))
      (children : List QDomNode)
  | characterData (cdata : Bool) (data : String)
  | other (nodeName : String)
deriving Repr

/-- `QDomNode::nodeName()`. -/
def QDomNode.nodeName : QDomNode → String
  | .element tagName _ _ => tagName
  | .characterData false _ => "#text"
  | .characterData true _ => "#cdata-section"
  | .other nodeName => nodeName

mutual
/-- What a node adds to `QDomElement::text()` of an element above it: the
data of text and CDATA nodes, in document order, through the elements. -/
def QDomNode.innerText : QDomNode → String
  | .element _ _ cs => innerTextOfNodes cs
  | .characterData _ d => d
  | .other _ => ""
/-- The `innerText` of a list of sibling nodes. -/
def innerTextOfNodes : List QDomNode → String
  | [] => ""
  | c :: cs => c.innerText ++ innerTextOfNodes cs
end

/-- `QDomNode::toElement()`: the node when it is an element, null
otherwise. -/
def toElement : Option QDomNode → Option QDomNode
  | some (.element t a cs) => some (.element t a cs)
  | _ => none

/-- The child nodes of an element, as walked by `firstChild()` and
`nextSibling()`; a null element has none. -/
def childNodes : Option QDomNode → List QDomNode
  | some (.element _ _ cs) => cs
  | _ => []

/-- `QDomNode::namedItem(name)`: the first direct child whose node name is
`name`, null when there is none. -/
def namedItem (n : Option QDomNode) (name : String) : Option QDomNode :=
  (childNodes n).find? (fun c => c.nodeName = name)

/-- A `QString` of the server: `none` is the null string `QString()`,
`some ""` the empty string that is not null. The two are equal for `==`
and for the conversions to numbers, and are told apart by `formatValue`. -/
abbrev QString : Type := Option String

/-- The characters of a `QString`, none for the null string. -/
def str (q : QString) : String := q.getD ""

/-- `QDomElement::attribute(name)`: the value of the attribute, the null
string (the default value `QString()`) when the element is null or has no
such attribute. -/
def elementAttribute : Option QDomNode → String → QString
  | some (.element _ attrs _), name => (attrs.find? (fun a => a.1 = name)).map (fun a => a.2)
  | _, _ => none

/-- `QDomElement::text()`: the text of the element, which is empty and not
null for an element without text, and the null string for a null
element. -/
def text : Option QDomNode → QString
  | some n => some n.innerText
  | none => none

/-! ## Conversions of `QString` to numbers -/

/-- The value of a non-empty run of decimal digits, read after the value
`acc` of the digits before it. -/
def digitsValue : List Char → Nat → Option Nat
  | [], _ => none
  | [c], acc => if c.isDigit then some (acc * 10 + (c.toNat - 48)) else none
  | c :: d :: cs, acc =>
      if c.isDigit then digitsValue (d :: cs) (acc * 10 + (c.toNat - 48)) else none

/-- White space for the conversions of Qt (`QChar::isSpace` on the
characters up to U+00A0): the space, the controls 9 to 13, U+0085 and
U+00A0. -/
def isSpace (c : Char) : Bool :=
  c.toNat = 32 || (9 ≤ c.toNat && c.toNat ≤ 13) || c.toNat = 133 || c.toNat = 160

/-- The characters without the white space at both ends. -/
def trimmed (cs : List Char) : List Char :=
  ((cs.dropWhile isSpace).reverse.dropWhile isSpace).reverse

/-- The number written by a `QString` for the unsigned conversions of Qt:
white space around it is skipped, a `+` may precede the digits. -/
def unsignedValue (s : String) : Option Nat :=
  match trimmed s.toList with
  | '+' :: cs => digitsValue cs 0
  | cs => digitsValue cs 0

/-- `QString::toUInt()`: 0 when the text is no number or exceeds
`UINT_MAX`. -/
def toUInt (s : String) : Nat :=
  match unsignedValue s with
  | some v => if v < 2 ^ 32 then v else 0
  | none => 0

/-- `QString::toULong()` with a 64 bit `unsigned long`. -/
def toULong (s : String) : Nat :=
  match unsignedValue s with
  | some v => if v < 2 ^ 64 then v else 0
  | none => 0

/-! ## Trace entries (`TraceEntry`, `Variable`, `StackFrame` of the server) -/

/-- `Variable::Type`: the enumerator `StringType` that the source names, or
another value of the enumeration. -/
inductive VariableType where
  | StringType
  | other (value : Nat)
deriving DecidableEq, Repr

structure Variable where
  name : QString
  type : VariableType
  value : QString
deriving DecidableEq, Repr

structure StackFrame where
  module : QString
  function : QString
  functionOffset : Nat
  sourceFile : QString
  lineNumber : Nat
deriving DecidableEq, Repr

/-- The fields of `TraceEntry` that `deserializeTraceEntry` fills and
`storeEntry` reads; `timestamp` is the `QDateTime` by its seconds since the
epoch. -/
structure TraceEntry where
  pid : Nat
  tid : Nat
  timestamp : Nat
  processName : QString
  verbosity : Nat
  type : Nat
  path : QString
  lineno : Nat
  function : QString
  message : QString
  «variables» : List Variable
  backtrace : List StackFrame
deriving DecidableEq, Repr

/-- The body of the loop over the children of `<variables>`: the
`Variable` built from one child node. The `type` field of the fresh
`Variable var;` is assigned only for the type string `"string"`;
`unassigned` is the value it holds otherwise. -/
def deserializeVariable (unassigned : VariableType) (n : QDomNode) : Variable :=
  let varElement := toElement (some n)
  { name := elementAttribute varElement "name"
    type := if elementAttribute varElement "type" = some "string" then
              VariableType.StringType
            else unassigned
    value := text varElement }

/-- The body of the loop over the children of `<backtrace>`. -/
def deserializeFrame (n : QDomNode) : StackFrame :=
  let frameElement := toElement (some n)
  let functionElement := toElement (namedItem frameElement "function")
  let locationElement := toElement (namedItem frameElement "location")
  { module := text (toElement (namedItem frameElement "module"))
    function := text functionElement
    functionOffset := toUInt (str (elementAttribute functionElement "offset"))
    sourceFile := text locationElement
    lineNumber := toUInt (str (elementAttribute locationElement "lineno")) }

/-- `deserializeTraceEntry( const QDomElement &e )`. The two `while` loops
visit every child node of `<variables>` and of `<backtrace>`, which is a
`map` over the children (none for a null element). -/
def deserializeTraceEntry (unassigned : VariableType) (e : Option QDomNode) : TraceEntry :=
  { pid := toUInt (str (elementAttribute e "pid"))
    tid := toUInt (str (elementAttribute e "tid"))
    timestamp := toUInt (str (elementAttribute e "time"))
    processName := text (toElement (namedItem e "processname"))
    verbosity := toUInt (str (text (toElement (namedItem e "verbosity"))))
    type := toUInt (str (text (toElement (namedItem e "type"))))
    path := text (toElement (namedItem e "location"))
    lineno := toULong (str (elementAttribute (toElement (namedItem e "location")) "lineno"))
    function := text (toElement (namedItem e "function"))
    message := text (toElement (namedItem e "message"))
    «variables» :=
      (childNodes (toElement (namedItem e "variables"))).map (deserializeVariable unassigned)
    backtrace :=
      (childNodes (toElement (namedItem e "backtrace"))).map deserializeFrame }

/-! ## The wire format of an entry -/

/-- The first child node of `e` named `name` is an element, and its text
is `t`. -/
def HasChildText (e : QDomNode) (name : String) (t : QString) : Prop :=
  ∃ (attrs : List (String × String)) (cs : List QDomNode),
    namedItem (some e) name = some (.element name attrs cs) ∧
      some (innerTextOfNodes cs) = t

/-- The element `e` is a well-formed `<traceentry>` for the scalar fields
of `x`, in the wire format of the spec: the attributes `pid`, `tid` and
`time` (Unix seconds) are the decimal numerals of the unsigned values, the
children `<processname>`, `<function>` and `<message>` hold the texts,
`<verbosity>` and `<type>` the decimal numerals of the numbers, and
`<location lineno="...">` the path, with the line as its attribute. -/
def EncodesScalars (e : QDomNode) (x : TraceEntry) : Prop :=
  elementAttribute (some e) "pid" = some (toString x.pid) ∧ x.pid < 2 ^ 32 ∧
  elementAttribute (some e) "tid" = some (toString x.tid) ∧ x.tid < 2 ^ 32 ∧
  elementAttribute (some e) "time" = some (toString x.timestamp) ∧ x.timestamp < 2 ^ 32 ∧
  HasChildText e "processname" x.processName ∧
  HasChildText e "verbosity" (some (toString x.verbosity)) ∧ x.verbosity < 2 ^ 32 ∧
  HasChildText e "type" (some (toString x.type)) ∧ x.type < 2 ^ 32 ∧
  (∃ (attrs : List (String × String)) (cs : List QDomNode),
    namedItem (some e) "location" = some (.element "location" attrs cs) ∧
    some (innerTextOfNodes cs) = x.path ∧
    elementAttribute (some (.element "location" attrs cs)) "lineno"
      = some (toString x.lineno)) ∧
  x.lineno < 2 ^ 64 ∧
  HasChildText e "function" x.function ∧
  HasChildText e "message" x.message

/-- The element of the scenario "single log hit" of the spec, the code of
the type `Log` taken as 1: no `<variables>`, no `<backtrace>`. -/
def scenario1Element : QDomNode :=
  .element "traceentry" [("pid", "2524"), ("tid", "468"), ("time", "1283529656")]
    [.element "processname" [] [.characterData false "hello_instrumented"],
     .element "verbosity" [] [.characterData false "1"],
     .element "type" [] [.characterData false "1"],
     .element "location" [("lineno", "8")] [.characterData false "main.cpp"],
     .element "function" [] [.characterData false "int main()"],
     .element "message" [] [.characterData false "main() entered"]]

/-- The entry of the scenario "single log hit". -/
def scenario1Entry : TraceEntry :=
  { pid := 2524, tid := 468, timestamp := 1283529656,
    processName := some "hello_instrumented", verbosity := 1, type := 1,
    path := some "main.cpp", lineno := 8, function := some "int main()",
    message := some "main() entered", «variables» := [], backtrace := [] }

/-- An element whose `<variables>` holds a comment before its one
`<variable>` and whose `<backtrace>` holds a comment after its one
`<frame>`. -/
def commentedElement : QDomNode :=
  .element "traceentry" []
    [.element "variables" []
      [.other "#comment",
       .element "variable" [("name", "name"), ("type", "string")]
         [.characterData false "Max"]],
     .element "backtrace" []
      [.element "frame" []
        [.element "module" [] [.characterData false "hello.exe"],
         .element "function" [("offset", "12")] [.characterData false "f()"],
         .element "location" [("lineno", "4")] [.characterData false "main.cpp"]],
       .other "#comment"]]

/-- A `<variable>` element of a type other than `string`. -/
def intVariableElement : QDomNode :=
  .element "variable" [("name", "count"), ("type", "int")] [.characterData false "5"]

/-! ## The texts of the SQL statements -/

/-- The apostrophe, which delimits a text in SQL. -/
def apostrophe : Char := Char.ofNat 39

/-- `Server::formatValue( v )` for a `QString`, which is
`QSqlDriver::formatValue` on a field of type string: `NULL` for the null
string, otherwise the text between apostrophes, each apostrophe of the text
doubled. -/
def formatValue (v : QString) : List Char :=
  match v with
  | none => "NULL".toList
  | some s =>
      apostrophe :: s.toList.flatMap (fun c => if c = apostrophe then [c, c] else [c])
        ++ [apostrophe]

/-- A number in two digits at least. -/
def twoDigits (n : Nat) : String :=
  if n < 10 then "0" ++ toString n else toString n

/-- A year in four digits at least. -/
def fourDigits (n : Nat) : String :=
  if n < 10 then "000" ++ toString n
  else if n < 100 then "00" ++ toString n
  else if n < 1000 then "0" ++ toString n
  else toString n

/-- `QDateTime::toString( Qt::ISODate )` of `QDateTime::fromTime_t( seconds )`,
the local time of the server taken to be UTC: `yyyy-MM-ddTHH:mm:ss`, the
date being that of the day `seconds / 86400` after 1970-01-01 in the
Gregorian calendar. -/
def isoDate (seconds : Nat) : String :=
  let z := seconds / 86400 + 719468
  let era := z / 146097
  let doe := z % 146097
  let yoe := (doe + doe / 36524 - doe / 1460 - doe / 146096) / 365
  let doy := doe + yoe / 100 - (365 * yoe + yoe / 4)
  let mp := (5 * doy + 2) / 153
  let day := doy + 1 - (153 * mp + 2) / 5
  let month := if mp < 10 then mp + 3 else mp - 9
  let year := yoe + era * 400 + (if month ≤ 2 then 1 else 0)
  let rest := seconds % 86400
  fourDigits year ++ "-" ++ twoDigits month ++ "-" ++ twoDigits day ++ "T"
    ++ twoDigits (rest / 3600) ++ ":" ++ twoDigits (rest % 3600 / 60) ++ ":"
    ++ twoDigits (rest % 60)

/-- `Server::formatValue( v )` for the `QDateTime` of an entry, which is
valid: its ISO date between apostrophes. -/
def formatValueDateTime (seconds : Nat) : List Char :=
  apostrophe :: (isoDate seconds).toList ++ [apostrophe]

/-- A piece of a text as `QString::arg` scans it: a character, or a place
marker `%n`, `%nn`, `%Ln` or `%Lnn` with its number and its own
characters. -/
inductive Piece where
  | char (c : Char)
  | marker (number : Nat) (locale : Bool) (source : List Char)
deriving DecidableEq, Repr

/-- Where the scan for place markers stands: in plain text, after a `%`,
after `%L`, or after the first digit `d` of a marker. -/
inductive ScanState where
  | plain
  | percent
  | percentL
  | digit (locale : Bool) (d : Char)
deriving DecidableEq, Repr

/-- A character of ASCII: for it `Char.isDigit` tells whether
`QChar::digitValue()` gives a digit. -/
def isAscii (c : Char) : Bool := c.toNat < 128

/-- The characters of a place marker. -/
def markerSource (locale : Bool) (digits : List Char) : List Char :=
  if locale then '%' :: 'L' :: digits else '%' :: digits

/-- What the characters read since the last `%` are when the text ends or
no further character belongs to them: plain characters, or the marker of
one digit. -/
def ScanState.pending : ScanState → List Piece
  | .plain => []
  | .percent => [.char '%']
  | .percentL => [.char '%', .char 'L']
  | .digit locale d => [.marker (d.toNat - 48) locale (markerSource locale [d])]

/-- The scan of `findArgEscapes` in `QString::arg`: a place marker is a
`%`, an optional `L`, and one or two digits; after a `%` (or `%L`) that no
digit follows the scan goes on at the character that follows. `none` when
a character outside ASCII stands where a digit would make a marker: whether
`QChar::digitValue()` takes it for a digit is left open. -/
def scan : ScanState → List Char → Option (List Piece)
  | st, [] => some st.pending
  | .plain, c :: cs =>
      if c = '%' then scan .percent cs else (scan .plain cs).map (fun ps => .char c :: ps)
  | .percent, c :: cs =>
      if c = 'L' then scan .percentL cs
      else if c.isDigit then scan (.digit false c) cs
      else if c = '%' then (scan .percent cs).map (fun ps => .char '%' :: ps)
      else if isAscii c then (scan .plain cs).map (fun ps => .char '%' :: .char c :: ps)
      else none
  | .percentL, c :: cs =>
      if c.isDigit then scan (.digit true c) cs
      else if c = '%' then (scan .percent cs).map (fun ps => .char '%' :: .char 'L' :: ps)
      else if isAscii c then
        (scan .plain cs).map (fun ps => .char '%' :: .char 'L' :: .char c :: ps)
      else none
  | .digit locale d, c :: cs =>
      if c.isDigit then
        (scan .plain cs).map (fun ps =>
          .marker ((d.toNat - 48) * 10 + (c.toNat - 48)) locale (markerSource locale [d, c])
            :: ps)
      else if c = '%' then
        (scan .percent cs).map (fun ps => (ScanState.digit locale d).pending ++ ps)
      else if isAscii c then
        (scan .plain cs).map (fun ps => (ScanState.digit locale d).pending ++ .char c :: ps)
      else none

/-- The lowest number of a place marker among the pieces, `none` when
there is no marker. -/
def lowest : List Piece → Option Nat
  | [] => none
  | .char _ :: ps => lowest ps
  | .marker n _ _ :: ps =>
      match lowest ps with
      | none => some n
      | some m => some (min n m)

/-- The characters of a piece after the markers of number `m` were
replaced by `a`. -/
def Piece.replaced (m : Nat) (a : List Char) : Piece → List Char
  | .char c => [c]
  | .marker n _ source => if n = m then a else source

/-- The piece is a marker of number `m` with `L`. -/
def Piece.isLocale (m : Nat) : Piece → Bool
  | .char _ => false
  | .marker n locale _ => n = m && locale

/-- `QString::arg( const QString &a )` on the text `s`: every place marker
of the lowest number is replaced by `a`; a text without a marker is
returned as it is. -/
def argText (s : List Char) (a : List Char) : Option (List Char) :=
  (scan .plain s).map (fun ps =>
    match lowest ps with
    | none => s
    | some m => ps.flatMap (Piece.replaced m a))

/-- `QString::arg( unsigned int )`, its like for `unsigned long` and for
`int` (of a value that is not negative): the decimal numeral takes the
place of the markers of the lowest number. `none` when one of them is
written with `L`, where the numeral is that of the locale. -/
def argNumber (s : List Char) (n : Nat) : Option (List Char) :=
  (scan .plain s).bind (fun ps =>
    match lowest ps with
    | none => some s
    | some m =>
        if ps.any (Piece.isLocale m) then none
        else some (ps.flatMap (Piece.replaced m (toString n).toList)))

/-- A literal value of a statement: `NULL`, an unsigned decimal numeral by
its value, or a text. -/
inductive SqlLiteral where
  | null
  | number (n : Nat)
  | string (s : String)
deriving DecidableEq, Repr

/-- The text of a literal after its opening apostrophe, up to the closing
one, two apostrophes in a row standing for one of the text; returns the
text read (`acc` is what was read before, last character first) and the
characters after the literal. -/
def lexString : List Char → List Char → Option (List Char × List Char)
  | [], _ => none
  | [c], acc => if c = apostrophe then some (acc.reverse, []) else none
  | c :: d :: rest, acc =>
      if c = apostrophe then
        if d = apostrophe then lexString rest (apostrophe :: acc)
        else some (acc.reverse, d :: rest)
      else lexString (d :: rest) (c :: acc)

/-- The literal at the head of the characters, with the characters after
it: a text between apostrophes, a run of digits, or `NULL`. -/
def lexLiteral : List Char → Option (SqlLiteral × List Char)
  | [] => none
  | c :: cs =>
      if c = apostrophe then
        (lexString cs []).map (fun r => (.string (String.mk r.1), r.2))
      else if c.isDigit then
        (digitsValue ((c :: cs).takeWhile Char.isDigit) 0).map
          (fun n => (.number n, (c :: cs).dropWhile Char.isDigit))
      else if (c :: cs).take 4 = "NULL".toList then some (.null, (c :: cs).drop 4)
      else none

/-- The characters after the segment `seg` at their head, `none` when they
do not begin with it. -/
def dropSegment : List Char → List Char → Option (List Char)
  | [], s => some s
  | _ :: _, [] => none
  | p :: ps, c :: cs => if p = c then dropSegment ps cs else none

/-- The literals of a text that consists of a literal before each of the
segments, and of nothing else. -/
def readLiterals : List (List Char) → List Char → Option (List SqlLiteral)
  | [], rest => if rest.isEmpty then some [] else none
  | seg :: segs, s =>
      (lexLiteral s).bind (fun r =>
        (dropSegment seg r.2).bind (fun rest =>
          (readLiterals segs rest).map (fun ls => r.1 :: ls)))

/-- The segments of text between the place markers among the pieces of a
template; `cur` is the segment begun, last character first. -/
def segmentsOfPieces : List Piece → List Char → List (List Char)
  | [], cur => [cur.reverse]
  | .char c :: ps, cur => segmentsOfPieces ps (c :: cur)
  | .marker _ _ _ :: ps, cur => cur.reverse :: segmentsOfPieces ps []

/-- The segments of a template: its text before the first place marker,
between the markers, and after the last one. -/
def segments (template : String) : List (List Char) :=
  match scan .plain template.toList with
  | some ps => segmentsOfPieces ps []
  | none => [template.toList]

/-- A statement put together from a template of the source with chained
calls of `arg`: the template, and the text so far, `none` when the text is
left open (a number in it is not known, or the result of `arg` is left
open). -/
structure Statement where
  template : String
  text : Option (List Char)
deriving DecidableEq, Repr

/-- `QString( template )`. -/
def statement (template : String) : Statement :=
  { template := template, text := some template.toList }

/-- `.arg( a )` for a text. -/
def Statement.arg (q : Statement) (a : List Char) : Statement :=
  { q with text := q.text.bind (fun t => argText t a) }

/-- `.arg( n )` for a number, `none` when the number is not known. -/
def Statement.argNumber (q : Statement) (n : Option Nat) : Statement :=
  { q with text := q.text.bind (fun t => n.bind (fun v => Tracer.argNumber t v)) }

/-- The meaning of the text as SQL, as far as it is told here: when the
text is the template with a literal in the place of each place marker, the
literals, in order. For any other text (`none`) the effect of the
statement is left open. -/
def Statement.literals (q : Statement) : Option (List SqlLiteral) :=
  q.text.bind (fun t =>
    match segments q.template with
    | [] => none
    | seg :: segs => (dropSegment seg t).bind (readLiterals segs))
/-! ## The relational store -/

/-- A row of a table: its row id (the `id` column of the tables that have
one, the row id of the engine for `variable` and `stackframe`) and its
other columns. -/
structure Row (α : Type) where
  id : Nat
  cols : α
deriving DecidableEq, Repr

/-- A table as far as it is told here: the list of its rows in the order
of their insertion, or `none` after a statement whose effect is left
open. -/
abbrev Table (α : Type) : Type := Option (List (Row α))

/-- The value that the engine reads from an unsigned decimal numeral: an
INTEGER when it is below `2^63`, else a REAL, given here by the numeral it
was read from. -/
inductive SqlNumber where
  | integer (n : Nat)
  | real (numeral : Nat)
deriving DecidableEq, Repr

/-- The value read from the numeral of `n`. -/
def sqlNumber (n : Nat) : SqlNumber :=
  if n < 2 ^ 63 then .integer n else .real n

/-- Columns `name, pid` of `process`; a `name` of `none` is NULL. -/
structure ProcessCols where
  name : Option String
  pid : Nat
deriving DecidableEq, Repr

/-- Columns `process_id, tid` of `traced_thread`. -/
structure TracedThreadCols where
  process_id : Nat
  tid : Nat
deriving DecidableEq, Repr

/-- Columns `verbosity, type, path_id, line, function_id` of
`trace_point`. -/
structure TracePointCols where
  verbosity : Nat
  type : Nat
  path_id : Nat
  line : SqlNumber
  function_id : Nat
deriving DecidableEq, Repr

/-- Columns `traced_thread_id, timestamp, trace_point_id, message` of
`trace_entry`; the time stamp is held as its ISO date. -/
structure TraceEntryCols where
  traced_thread_id : Nat
  timestamp : Option String
  trace_point_id : Nat
  message : Option String
deriving DecidableEq, Repr

/-- Columns `trace_entry_id, name, value, type_code` of `variable`. -/
structure VariableCols where
  trace_entry_id : Nat
  name : Option String
  value : Option String
  type_code : Nat
deriving DecidableEq, Repr

/-- Columns of `stackframe`. -/
structure StackFrameCols where
  trace_entry_id : Nat
  depth : Nat
  module : Option String
  function : Option String
  function_offset : Nat
  source_file : Option String
  line_number : Nat
deriving DecidableEq, Repr

/-- Modelled from the spec: the storage schema (the tables are created by
`Database::create`, which is not among the sources at hand; the columns
are those of the spec, in the order of the `INSERT` statements of
`storeEntry`, the text columns comparing by their characters and the
others as numbers). The content column of `path_name` and of
`function_name` is `name`. `last_insert_rowid` is the row id of the last
successful `INSERT` on the connection `m_db`. A field is `none` when it is
left open here. -/
structure Store where
  path_name : Table (Option String)
  function_name : Table (Option String)
  process : Table ProcessCols
  traced_thread : Table TracedThreadCols
  trace_point : Table TracePointCols
  trace_entry : Table TraceEntryCols
  «variable» : Table VariableCols
  stackframe : Table StackFrameCols
  last_insert_rowid : Option Nat
deriving DecidableEq, Repr

/-- A database fresh from `Database::create`: every table is empty. -/
def Store.fresh : Store :=
  { path_name := some [], function_name := some [], process := some [],
    traced_thread := some [], trace_point := some [], trace_entry := some [],
    «variable» := some [], stackframe := some [], last_insert_rowid := some 0 }

/-- The value of a text column that a literal denotes: NULL, or a text;
`none` for a numeral, which does not stand in such a place. -/
def SqlLiteral.asText : SqlLiteral → Option (Option String)
  | .null => some none
  | .string s => some (some s)
  | .number _ => none

/-- The value of a column that holds an `unsigned int` or a row id, which
the source writes as a numeral; such a number is taken as it is, without
the bound of its type. -/
def SqlLiteral.asInteger : SqlLiteral → Option Nat
  | .number n => some n
  | _ => none

/-- The value of the column `line`, written from an `unsigned long`. -/
def SqlLiteral.asNumber : SqlLiteral → Option SqlNumber
  | .number n => some (sqlNumber n)
  | _ => none

/-- The content of a row of `path_name` or `function_name` in the
literals of a statement. -/
def nameOfLiterals : List SqlLiteral → Option (Option String)
  | [name] => name.asText
  | _ => none

def ProcessCols.ofLiterals : List SqlLiteral → Option ProcessCols
  | [name, pid] =>
      name.asText.bind (fun n => pid.asInteger.map (fun p => { name := n, pid := p }))
  | _ => none

def TracedThreadCols.ofLiterals : List SqlLiteral → Option TracedThreadCols
  | [processId, tid] =>
      processId.asInteger.bind (fun p =>
        tid.asInteger.map (fun t => { process_id := p, tid := t }))
  | _ => none

def TracePointCols.ofLiterals : List SqlLiteral → Option TracePointCols
  | [verbosity, type, pathId, line, functionId] =>
      verbosity.asInteger.bind (fun v =>
        type.asInteger.bind (fun t =>
          pathId.asInteger.bind (fun p =>
            line.asNumber.bind (fun l =>
              functionId.asInteger.map (fun f =>
                { verbosity := v, type := t, path_id := p, line := l, function_id := f })))))
  | _ => none

def TraceEntryCols.ofLiterals : List SqlLiteral → Option TraceEntryCols
  | [tracedThreadId, timestamp, tracepointId, message] =>
      tracedThreadId.asInteger.bind (fun tt =>
        timestamp.asText.bind (fun ts =>
          tracepointId.asInteger.bind (fun tp =>
            message.asText.map (fun m =>
              { traced_thread_id := tt, timestamp := ts, trace_point_id := tp,
                message := m }))))
  | _ => none

def VariableCols.ofLiterals : List SqlLiteral → Option VariableCols
  | [traceentryId, name, value, typeCode] =>
      traceentryId.asInteger.bind (fun te =>
        name.asText.bind (fun n =>
          value.asText.bind (fun v =>
            typeCode.asInteger.map (fun c =>
              { trace_entry_id := te, name := n, value := v, type_code := c }))))
  | _ => none

def StackFrameCols.ofLiterals : List SqlLiteral → Option StackFrameCols
  | [traceentryId, depth, module, function, functionOffset, sourceFile, lineNumber] =>
      traceentryId.asInteger.bind (fun te =>
        depth.asInteger.bind (fun d =>
          module.asText.bind (fun m =>
            function.asText.bind (fun f =>
              functionOffset.asInteger.bind (fun o =>
                sourceFile.asText.bind (fun sf =>
                  lineNumber.asInteger.map (fun l =>
                    { trace_entry_id := te, depth := d, module := m, function := f,
                      function_offset := o, source_file := sf, line_number := l })))))))
  | _ => none

/-- The comparison `column = literal` on a text column: true for two equal
texts, and never with NULL on either side. -/
def eqText (column asked : Option String) : Bool :=
  match column, asked with
  | some c, some a => c = a
  | _, _ => false

/-- The comparison `column = literal` on the column `line`: two INTEGERs
are compared as such, an INTEGER never equals a REAL of `2^63` or more, and
two REALs read from the same numeral are equal; whether two REALs read from
two numerals are equal is left open (`none`). -/
def eqNumber (column asked : SqlNumber) : Option Bool :=
  match column, asked with
  | .integer c, .integer a => some (c = a)
  | .real c, .real a => if c = a then some true else none
  | _, _ => some false

/-- The `WHERE` clause `name=...` on a row of `path_name` or
`function_name`. -/
def eqName (row asked : Option String) : Option Bool :=
  some (eqText row asked)

/-- The `WHERE` clause `name=... AND pid=...`. -/
def ProcessCols.sqlEq (row asked : ProcessCols) : Option Bool :=
  some (eqText row.name asked.name && row.pid = asked.pid)

/-- The `WHERE` clause `process_id=... AND tid=...`. -/
def TracedThreadCols.sqlEq (row asked : TracedThreadCols) : Option Bool :=
  some (row.process_id = asked.process_id && row.tid = asked.tid)

/-- The `WHERE` clause of the `SELECT` on `trace_point`. -/
def TracePointCols.sqlEq (row asked : TracePointCols) : Option Bool :=
  if row.verbosity = asked.verbosity ∧ row.type = asked.type ∧ row.path_id = asked.path_id
      ∧ row.function_id = asked.function_id then
    eqNumber row.line asked.line
  else some false

/-- The statements that `storeEntry` executes between `BEGIN TRANSACTION`
and `COMMIT`, by their place in the source. -/
inductive Stmt where
  | selectPathName | insertPathName | rowidPathName
  | selectFunctionName | insertFunctionName | rowidFunctionName
  | selectProcess | insertProcess | rowidProcess
  | selectTracedThread | insertTracedThread | rowidTracedThread
  | selectTracePoint | insertTracePoint | rowidTracePoint
  | insertTraceEntry | rowidTraceEntry
  | insertVariable (index : Nat)
  | insertStackframe (depth : Nat)
deriving DecidableEq, Repr

/-- The row id that the engine gives to a row inserted with `NULL` for its
id: one more than the largest row id of the table. -/
def nextRowid {α : Type} (t : List (Row α)) : Nat :=
  (t.map (fun r => r.id)).foldr max 0 + 1

/-- `query.exec( "SELECT id FROM t WHERE ...;" )` followed by
`query.next()`, for a statement that asks for the rows with the content
`asked`: the id of the first row found, the inner `none` when `next()`
returns false (no row, or the statement failed). The outer `none`: the
result is left open, the table or the statement or a comparison being
so. -/
def execSelectId {α : Type} (failed : Bool) (t : Table α) (eq : α → α → Option Bool)
    (asked : Option α) : Option (Option Nat) :=
  if failed then some none
  else
    match t, asked with
    | some rows, some a =>
        if rows.all (fun r => (eq r.cols a).isSome) then
          some ((rows.find? (fun r => eq r.cols a = some true)).map (fun r => r.id))
        else none
    | _, _ => none

/-- `query.exec( "INSERT INTO t VALUES(...);" )` for a statement that
inserts the row `row`: the table and the last inserted row id after it. A
failed statement changes nothing; a statement or a table left open leaves
both open. -/
def execInsert {α : Type} (failed : Bool) (t : Table α) (last : Option Nat)
    (row : Option α) : Table α × Option Nat :=
  if failed then (t, last)
  else
    match t, row with
    | some rows, some c =>
        (some (rows ++ [{ id := nextRowid rows, cols := c }]), some (nextRowid rows))
    | _, _ => (none, none)

/-- `query.exec( "SELECT last_insert_rowid() FROM t LIMIT 1;" )`,
`query.next()` and `query.value( 0 ).toUInt()`: the last inserted row id
when the statement succeeds and `t` has a row, 0 (the invalid `QVariant`)
otherwise. -/
def execLastInsertRowid {α : Type} (failed : Bool) (t : Table α) (last : Option Nat) :
    Option Nat :=
  if failed then some 0
  else
    match t with
    | some rows => if rows.isEmpty then some 0 else last
    | none => none

/-- The block that `storeEntry` repeats for each of the five dimension
tables: select the id of the row with the content asked for; if `next()`
finds none, insert the row and read the last inserted row id. Returns the
table, the last inserted row id of the connection and the id read; all
three are left open when the result of the `SELECT` is. -/
def resolveId {α : Type} (fails : Stmt → Bool) (select insert rowid : Stmt)
    (eq : α → α → Option Bool) (t : Table α) (last : Option Nat)
    (asked row : Option α) : Table α × Option Nat × Option Nat :=
  match execSelectId (fails select) t eq asked with
  | none => (none, none, none)
  | some (some id) => (t, last, some id)
  | some none =>
      let r := execInsert (fails insert) t last row
      (r.1, r.2, execLastInsertRowid (fails rowid) r.1 r.2)

/-- The `switch ( it->type )` of `storeEntry`: the type code of a
variable, `none` when the `default` branch with its
`assert( !"Unreachable" )` is reached. -/
def typeCode : VariableType → Option Nat
  | .StringType => some 0
  | _ => none

/-- The statements of `storeEntry`, each put together as in the source:
the template, then the chained calls of `arg` with the values of the entry
(`formatValue` for a text, the number itself otherwise). -/
def pathNameSelect (e : TraceEntry) : Statement :=
  (statement "SELECT id FROM path_name WHERE name=%1;").arg (formatValue e.path)

def pathNameInsert (e : TraceEntry) : Statement :=
  (statement "INSERT INTO path_name VALUES(NULL, %1);").arg (formatValue e.path)

def functionNameSelect (e : TraceEntry) : Statement :=
  (statement "SELECT id FROM function_name WHERE name=%1;").arg (formatValue e.function)

def functionNameInsert (e : TraceEntry) : Statement :=
  (statement "INSERT INTO function_name VALUES(NULL, %1);").arg (formatValue e.function)

def processSelect (e : TraceEntry) : Statement :=
  ((statement "SELECT id FROM process WHERE name=%1 AND pid=%2;").arg
    (formatValue e.processName)).argNumber (some e.pid)

def processInsert (e : TraceEntry) : Statement :=
  ((statement "INSERT INTO process VALUES(NULL, %1, %2);").arg
    (formatValue e.processName)).argNumber (some e.pid)

def tracedThreadSelect (processId : Option Nat) (e : TraceEntry) : Statement :=
  ((statement "SELECT id FROM traced_thread WHERE process_id=%1 AND tid=%2;").argNumber
    processId).argNumber (some e.tid)

def tracedThreadInsert (processId : Option Nat) (e : TraceEntry) : Statement :=
  ((statement "INSERT INTO traced_thread VALUES(NULL, %1, %2);").argNumber
    processId).argNumber (some e.tid)

def tracePointSelect (pathId functionId : Option Nat) (e : TraceEntry) : Statement :=
  (((((statement ("SELECT id FROM trace_point WHERE verbosity=%1 AND type=%2 AND "
    ++ "path_id=%3 AND line=%4 AND function_id=%5;")).argNumber
      (some e.verbosity)).argNumber (some e.type)).argNumber pathId).argNumber
        (some e.lineno)).argNumber functionId

def tracePointInsert (pathId functionId : Option Nat) (e : TraceEntry) : Statement :=
  (((((statement "INSERT INTO trace_point VALUES(NULL, %1, %2, %3, %4, %5);").argNumber
      (some e.verbosity)).argNumber (some e.type)).argNumber pathId).argNumber
        (some e.lineno)).argNumber functionId

def traceEntryInsert (tracedThreadId tracepointId : Option Nat) (e : TraceEntry) :
    Statement :=
  ((((statement "INSERT INTO trace_entry VALUES(NULL, %1, %2, %3, %4)").argNumber
    tracedThreadId).arg (formatValueDateTime e.timestamp)).argNumber tracepointId).arg
      (formatValue e.message)

def variableInsert (traceentryId : Option Nat) (v : Variable) (typeCode : Nat) : Statement :=
  ((((statement "INSERT INTO variable VALUES(%1, %2, %3, %4);").argNumber
    traceentryId).arg (formatValue v.name)).arg (formatValue v.value)).argNumber
      (some typeCode)

def stackframeInsert (traceentryId : Option Nat) (depthCount : Nat) (f : StackFrame) :
    Statement :=
  (((((((statement "INSERT INTO stackframe VALUES(%1, %2, %3, %4, %5, %6, %7);").argNumber
    traceentryId).argNumber (some depthCount)).arg (formatValue f.module)).arg
      (formatValue f.function)).argNumber (some f.functionOffset)).arg
        (formatValue f.sourceFile)).argNumber (some f.lineNumber)

/-- The loop of `storeEntry` over `e.variables`, `index` counting the
variables done: one `INSERT INTO variable` for each. `none` when the
assertion of `typeCode` fails. -/
def insertVariables (fails : Stmt → Bool) (traceentryId : Option Nat) :
    List Variable → Nat → Table VariableCols × Option Nat →
      Option (Table VariableCols × Option Nat)
  | [], _, acc => some acc
  | v :: vs, index, acc =>
      match typeCode v.type with
      | none => none
      | some code =>
          insertVariables fails traceentryId vs (index + 1)
            (execInsert (fails (.insertVariable index)) acc.1 acc.2
              ((variableInsert traceentryId v code).literals.bind VariableCols.ofLiterals))

/-- The loop of `storeEntry` over `e.backtrace` with its counter
`depthCount`: one `INSERT INTO stackframe` for each frame. -/
def insertStackframes (fails : Stmt → Bool) (traceentryId : Option Nat) :
    List StackFrame → Nat → Table StackFrameCols × Option Nat →
      Table StackFrameCols × Option Nat
  | [], _, acc => acc
  | f :: fs, depthCount, acc =>
      insertStackframes fails traceentryId fs (depthCount + 1)
        (execInsert (fails (.insertStackframe depthCount)) acc.1 acc.2
          ((stackframeInsert traceentryId depthCount f).literals.bind
            StackFrameCols.ofLiterals))

/-- `Server::storeEntry( const TraceEntry &e )` on the store `s`, the
statements for which `fails` holds failing. Every statement is put
together as in the source and executed for what its text says. The source
tests the result of no `exec` and issues no `ROLLBACK`: after a failed
statement it goes on with the next one, and `COMMIT` keeps what the others
did. `none` is the end of the process on the failed assertion. -/
def storeEntryWith (fails : Stmt → Bool) (s : Store) (e : TraceEntry) : Option Store :=
  let path := resolveId fails .selectPathName .insertPathName .rowidPathName eqName
    s.path_name s.last_insert_rowid
    ((pathNameSelect e).literals.bind nameOfLiterals)
    ((pathNameInsert e).literals.bind nameOfLiterals)
  let pathId := path.2.2
  let function := resolveId fails .selectFunctionName .insertFunctionName
    .rowidFunctionName eqName s.function_name path.2.1
    ((functionNameSelect e).literals.bind nameOfLiterals)
    ((functionNameInsert e).literals.bind nameOfLiterals)
  let functionId := function.2.2
  let process := resolveId fails .selectProcess .insertProcess .rowidProcess
    ProcessCols.sqlEq s.process function.2.1
    ((processSelect e).literals.bind ProcessCols.ofLiterals)
    ((processInsert e).literals.bind ProcessCols.ofLiterals)
  let processId := process.2.2
  let tracedThread := resolveId fails .selectTracedThread .insertTracedThread
    .rowidTracedThread TracedThreadCols.sqlEq s.traced_thread process.2.1
    ((tracedThreadSelect processId e).literals.bind TracedThreadCols.ofLiterals)
    ((tracedThreadInsert processId e).literals.bind TracedThreadCols.ofLiterals)
  let tracedThreadId := tracedThread.2.2
  let tracepoint := resolveId fails .selectTracePoint .insertTracePoint .rowidTracePoint
    TracePointCols.sqlEq s.trace_point tracedThread.2.1
    ((tracePointSelect pathId functionId e).literals.bind TracePointCols.ofLiterals)
    ((tracePointInsert pathId functionId e).literals.bind TracePointCols.ofLiterals)
  let tracepointId := tracepoint.2.2
  let traceEntry := execInsert (fails .insertTraceEntry) s.trace_entry tracepoint.2.1
    ((traceEntryInsert tracedThreadId tracepointId e).literals.bind TraceEntryCols.ofLiterals)
  let traceentryId := execLastInsertRowid (fails .rowidTraceEntry) traceEntry.1 traceEntry.2
  (insertVariables fails traceentryId e.«variables» 0 (s.«variable», traceEntry.2)).map
    (fun vars =>
      let frames := insertStackframes fails traceentryId e.backtrace 0 (s.stackframe, vars.2)
      { path_name := path.1, function_name := function.1, process := process.1,
        traced_thread := tracedThread.1, trace_point := tracepoint.1,
        trace_entry := traceEntry.1, «variable» := vars.1, stackframe := frames.1,
        last_insert_rowid := frames.2 })

/-- `Server::storeEntry` when every statement succeeds. -/
def storeEntry (s : Store) (e : TraceEntry) : Option Store :=
  storeEntryWith (fun _ => false) s e

/-- Storing the same entry `n` times in succession. -/
def storeEntryTimes : Nat → Store → TraceEntry → Option Store
  | 0, s, _ => some s
  | n + 1, s, e => (storeEntry s e).bind (fun s1 => storeEntryTimes n s1 e)

/-- The table is told, and no two of its rows have the same content. -/
def UniqueContent {α : Type} (t : Table α) : Prop :=
  ∃ rows, t = some rows ∧ (rows.map (fun r => r.cols)).Nodup

/-- Dimension uniqueness: every dimension table is told, and none holds
two rows with the same content. -/
def Store.DimensionsUnique (s : Store) : Prop :=
  UniqueContent s.path_name ∧ UniqueContent s.function_name ∧ UniqueContent s.process ∧
    UniqueContent s.traced_thread ∧ UniqueContent s.trace_point

/-- The entry of the scenario "watch with variables" of the spec: path
`main.cpp`, function `int main()`, process `hello_instrumented` with pid
2524, thread 468, verbosity 1 and the one variable `name` of type string
with value `Max`. The numeric code `logCode` of the type `Log` comes from
`tracepointtypes.def`, which is not among the sources at hand. -/
def scenarioEntry (logCode timestamp lineno : Nat) (message : String)
    (backtrace : List StackFrame) : TraceEntry :=
  { pid := 2524, tid := 468, timestamp := timestamp,
    processName := some "hello_instrumented", verbosity := 1, type := logCode,
    path := some "main.cpp", lineno := lineno, function := some "int main()",
    message := some message,
    «variables» :=
      [{ name := some "name", type := VariableType.StringType, value := some "Max" }],
    backtrace := backtrace }

/-- The scenario entry hit at line 8 on 2010-09-03T16:00:56Z with the
message `main() entered`, no backtrace, the type code taken as 1. -/
def helloEntry : TraceEntry := scenarioEntry 1 1283529656 8 "main() entered" []

/-- The store that holds `helloEntry` and nothing else. -/
def helloStore : Store :=
  { path_name := some [{ id := 1, cols := some "main.cpp" }],
    function_name := some [{ id := 1, cols := some "int main()" }],
    process := some [{ id := 1, cols := { name := some "hello_instrumented", pid := 2524 } }],
    traced_thread := some [{ id := 1, cols := { process_id := 1, tid := 468 } }],
    trace_point :=
      some [{ id := 1,
              cols := { verbosity := 1, type := 1, path_id := 1, line := .integer 8,
                        function_id := 1 } }],
    trace_entry :=
      some [{ id := 1,
              cols := { traced_thread_id := 1, timestamp := some "2010-09-03T16:00:56",
                        trace_point_id := 1, message := some "main() entered" } }],
    «variable» :=
      some [{ id := 1,
              cols := { trace_entry_id := 1, name := some "name", value := some "Max",
                        type_code := 0 } }],
    stackframe := some [],
    last_insert_rowid := some 1 }

/-- The element of the scenario "single log hit" without its `<function>`
child. -/
def noFunctionElement : QDomNode :=
  .element "traceentry" [("pid", "2524"), ("tid", "468"), ("time", "1283529656")]
    [.element "processname" [] [.characterData false "hello_instrumented"],
     .element "verbosity" [] [.characterData false "1"],
     .element "type" [] [.characterData false "1"],
     .element "location" [("lineno", "8")] [.characterData false "main.cpp"],
     .element "message" [] [.characterData false "main() entered"]]

/-- The entry decoded from `noFunctionElement`: its `function` is the null
string. -/
def noFunctionEntry : TraceEntry := { scenario1Entry with function := none }

/-- The store after `noFunctionEntry` was stored into a fresh database. -/
def noFunctionStore : Store :=
  { path_name := some [{ id := 1, cols := some "main.cpp" }],
    function_name := some [{ id := 1, cols := none }],
    process := some [{ id := 1, cols := { name := some "hello_instrumented", pid := 2524 } }],
    traced_thread := some [{ id := 1, cols := { process_id := 1, tid := 468 } }],
    trace_point :=
      some [{ id := 1,
              cols := { verbosity := 1, type := 1, path_id := 1, line := .integer 8,
                        function_id := 1 } }],
    trace_entry :=
      some [{ id := 1,
              cols := { traced_thread_id := 1, timestamp := some "2010-09-03T16:00:56",
                        trace_point_id := 1, message := some "main() entered" } }],
    «variable» := some [],
    stackframe := some [],
    last_insert_rowid := some 1 }

/-- The store after `noFunctionEntry` was stored a second time. -/
def noFunctionStoreTwice : Store :=
  { path_name := some [{ id := 1, cols := some "main.cpp" }],
    function_name := some [{ id := 1, cols := none }, { id := 2, cols := none }],
    process := some [{ id := 1, cols := { name := some "hello_instrumented", pid := 2524 } }],
    traced_thread := some [{ id := 1, cols := { process_id := 1, tid := 468 } }],
    trace_point :=
      some [{ id := 1,
              cols := { verbosity := 1, type := 1, path_id := 1, line := .integer 8,
                        function_id := 1 } },
            { id := 2,
              cols := { verbosity := 1, type := 1, path_id := 1, line := .integer 8,
                        function_id := 2 } }],
    trace_entry :=
      some [{ id := 1,
              cols := { traced_thread_id := 1, timestamp := some "2010-09-03T16:00:56",
                        trace_point_id := 1, message := some "main() entered" } },
            { id := 2,
              cols := { traced_thread_id := 1, timestamp := some "2010-09-03T16:00:56",
                        trace_point_id := 2, message := some "main() entered" } }],
    «variable» := some [],
    stackframe := some [],
    last_insert_rowid := some 2 }

/-- The scenario entry of a process named `%2`. -/
def markerProcessEntry : TraceEntry := { helloEntry with processName := some "%2" }

/-- The scenario entry with its variable named `%4`. -/
def markerVariableEntry : TraceEntry :=
  { helloEntry with
    «variables» :=
      [{ name := some "%4", type := VariableType.StringType, value := some "Max" }] }

/-- The scenario entry with a backtrace of one frame, of a module named
`%5`. -/
def markerModuleEntry : TraceEntry :=
  { helloEntry with
    backtrace :=
      [{ module := some "%5", function := some "f()", functionOffset := 12,
         sourceFile := some "main.cpp", lineNumber := 4 }] }
/-! ## The server -/

/-- The state of `Server` that the ingest path touches: the database
`m_db` and the `traceEntryReceived` signals emitted so far, in order. -/
structure Server where
  m_db : Store
  traceEntryReceived : List TraceEntry
deriving DecidableEq, Repr

/-- `Server::handleTraceEntryXMLData( const QByteArray &data )`.
`setContent` stands for `QDomDocument::setContent` of Qt: the document
element of the parsed data, `none` when parsing fails. A slice that does
not parse is reported with `qWarning` and left at that. `none` is the end
of the process on the failed assertion of `storeEntry`. -/
def handleTraceEntryXMLData (setContent : List Byte → Option QDomNode)
    (unassigned : VariableType) (srv : Server) (data : List Byte) : Option Server :=
  match setContent data with
  | none => some srv
  | some documentElement =>
      let e := deserializeTraceEntry unassigned (toElement (some documentElement))
      match storeEntry srv.m_db e with
      | none => none
      | some db =>
          some { m_db := db, traceEntryReceived := srv.traceEntryReceived ++ [e] }

/-- The entry decoded from a slice by `handleTraceEntryXMLData`, `none`
for a slice that does not parse. -/
def decodeSlice (setContent : List Byte → Option QDomNode) (unassigned : VariableType)
    (data : List Byte) : Option TraceEntry :=
  (setContent data).map
    (fun documentElement => deserializeTraceEntry unassigned (toElement (some documentElement)))

/-- The handler of a slice on a server that may have ended already. -/
def handleSlice (setContent : List Byte → Option QDomNode) (unassigned : VariableType)
    (st : Option Server) (data : List Byte) : Option Server :=
  st.bind (fun srv => handleTraceEntryXMLData setContent unassigned srv data)

/-- `Server::handleIncomingData()` on the bytes `xmlData` read from the
client. The outer `none` is the loop out of fuel, the inner one the end of
the process on the failed assertion. -/
def handleIncomingData (setContent : List Byte → Option QDomNode)
    (unassigned : VariableType) (srv : Server) (xmlData : List Byte) :
    Option (Option Server) :=
  handleIncomingDataWith (handleSlice setContent unassigned) xmlData (some srv)

/-- A slice with an entry whose one variable is of the type `int`. -/
def intVariableSlice : List Byte :=
  bytes ("<traceentry time='3'><variables><variable name='count' type='int'>5</variable>"
    ++ "</variables></traceentry>")

/-- A slice with an entry that holds a message and nothing else. -/
def messageSlice : List Byte :=
  bytes "<traceentry time='2'><message>b</message></traceentry>"

/-- A stand-in for the XML parser in the examples: it knows the two slices
`intVariableSlice` and `messageSlice`, read as the document elements that
their texts denote, and rejects everything else. -/
def exampleSetContent (data : List Byte) : Option QDomNode :=
  if data = intVariableSlice then
    some (.element "traceentry" [("time", "3")]
      [.element "variables" [] [intVariableElement]])
  else if data = messageSlice then
    some (.element "traceentry" [("time", "2")]
      [.element "message" [] [.characterData false "b"]])
  else none
/-! ## The ingest-from-file tool (`xml2trace/main.cpp`) -/

/-- What `fromXml` reads of a caught `SQLTransactionException`. -/
structure SQLTransactionException where
  what : String
  driverMessage : String
  driverCode : Int
deriving DecidableEq, Repr

/-- The `XmlContentHandler` as `fromXml` uses it, its class being outside
the sources at hand: a state, `addData`, and `continueParsing`, which
either goes on or throws a `SQLTransactionException`. -/
structure XmlContentHandler (σ : Type) where
  addData : σ → List Byte → σ
  continueParsing : σ → Except SQLTransactionException σ

/-- The outcome of `fromXml`: the value returned, the message written to
`*errMsg` (`none` when it is left as it was), the data passed to
`addData`, call by call, the input not read, and the handler. -/
structure FromXmlResult (σ : Type) where
  returned : Bool
  errMsg : Option String
  passed : List (List Byte)
  unread : List Byte
  handler : σ

/-- The message that the `catch` block of `fromXml` writes to `*errMsg`. -/
def databaseErrorMessage (ex : SQLTransactionException) : String :=
  "Database error: " ++ ex.what ++ ", driver message: " ++ ex.driverMessage ++ "("
    ++ toString ex.driverCode ++ ")"

/-- The loop `while( !input.atEnd() )` of `fromXml` on a file of which the
bytes `input` are left, each `input.read( maxlen )` giving the next
`maxlen` bytes or what is left of them; `none` when the fuel is used up. -/
def fromXmlLoop {σ : Type} (xmlparser : XmlContentHandler σ) (maxlen : Nat) :
    Nat → σ → List (List Byte) → List Byte → Option (FromXmlResult σ)
  | 0, _, _, _ => none
  | fuel + 1, st, passed, input =>
      if input.isEmpty then
        some { returned := true, errMsg := none, passed := passed, unread := input,
               handler := st }
      else
        let st1 := xmlparser.addData st (input.take maxlen)
        match xmlparser.continueParsing st1 with
        | .error ex =>
            some { returned := false, errMsg := some (databaseErrorMessage ex),
                   passed := passed ++ [input.take maxlen], unread := input.drop maxlen,
                   handler := st1 }
        | .ok st2 =>
            fromXmlLoop xmlparser maxlen fuel st2 (passed ++ [input.take maxlen])
              (input.drop maxlen)

/-- `fromXml` with the size `maxlen` of a read: the opening tag of the top
level element is passed to `addData`, then the loop runs. -/
def fromXmlWith {σ : Type} (maxlen : Nat) (xmlparser : XmlContentHandler σ) (st : σ)
    (input : List Byte) : Option (FromXmlResult σ) :=
  fromXmlLoop xmlparser maxlen (input.length + 1)
    (xmlparser.addData st (bytes "<toplevel_trace_element>"))
    [bytes "<toplevel_trace_element>"] input

/-- `fromXml( db, input, errMsg )`: the reads are of `1 << 16` bytes. -/
def fromXml {σ : Type} (xmlparser : XmlContentHandler σ) (st : σ) (input : List Byte) :
    Option (FromXmlResult σ) :=
  fromXmlWith (1 <<< 16) xmlparser st input

/-- The exit codes of `namespace Error`. -/
def Error.None : Int := 0

def Error.CommandLineArgs : Int := 1

def Error.Open : Int := 2

def Error.File : Int := 3

def Error.Transformation : Int := 4

/-- What `main` does that can be seen from outside, in order. -/
inductive Effect where
  | printHelp
  | stderr (text : String)
  | openDatabase (traceFile : String)
  | createDatabase (traceFile : String)
  | openStdin
  | openFile (xmlFile : String)
  | runFromXml
deriving DecidableEq, Repr

/-- What `main` meets when it runs: the outcome of `opt.parse()` with the
switch `help`, the option `traceFile` (empty when `-o` is not given) and the
argument `xmlFile` (null when omitted) as `GetOpt` leaves them, whether the
database file exists and whether `Database::open` and `Database::create`
give a valid database (with the message they leave when they do not),
whether the named XML file opens, the bytes of the input, and the XML
handler. -/
structure MainRun (σ : Type) where
  parses : Bool
  help : Bool
  traceFile : String
  xmlFile : Option String
  traceFileExists : Bool
  openValid : Bool
  createValid : Bool
  databaseErrMsg : String
  inputOpens : Bool
  input : List Byte
  xmlparser : XmlContentHandler σ
  handler : σ

/-- The end of `main` from `fromXml` on: exit code and effects. -/
def mainTransform {σ : Type} (run : MainRun σ) (before : List Effect) :
    Option (Int × List Effect) :=
  (fromXml run.xmlparser run.handler run.input).map (fun r =>
    if !r.returned then
      (Error.Transformation,
        before ++ [Effect.runFromXml,
          Effect.stderr ("Transformation error: " ++ (r.errMsg.getD "") ++ "\n")])
    else (Error.None, before ++ [Effect.runFromXml]))

/-- `main( argc, argv )` of the tool: the exit code and the effects, `none`
when the loop of `fromXml` runs out of fuel. -/
def main {σ : Type} (run : MainRun σ) : Option (Int × List Effect) :=
  if !run.parses then
    if run.help then some (Error.None, [Effect.printHelp])
    else some (Error.CommandLineArgs,
      [Effect.stderr "Invalid command line argument. Try --help.\n"])
  else if run.help then some (Error.None, [Effect.printHelp])
  else if run.traceFile.isEmpty then
    some (Error.CommandLineArgs,
      [Effect.stderr "Missing output trace database filename\n", Effect.printHelp])
  else
    let dbEffect :=
      if run.traceFileExists then Effect.openDatabase run.traceFile
      else Effect.createDatabase run.traceFile
    let dbValid := if run.traceFileExists then run.openValid else run.createValid
    if !dbValid then
      some (Error.Open,
        [dbEffect,
          Effect.stderr ("Failed to open output trace database " ++ run.traceFile ++ ": "
            ++ run.databaseErrMsg ++ "\n")])
    else
      match run.xmlFile with
      | none => mainTransform run [dbEffect, Effect.openStdin]
      | some xmlFile =>
          if !run.inputOpens then
            some (Error.File,
              [dbEffect, Effect.openFile xmlFile,
                Effect.stderr ("File '" ++ xmlFile ++ "' cannot be opened for writing.\n")])
          else mainTransform run [dbEffect, Effect.openFile xmlFile]

/-- The exit code that the order of the stages gives to a run without
`--help`: the code of the first stage that fails, 0 when none does. -/
def stageExitCode {σ : Type} (run : MainRun σ) (fromXmlReturned : Bool) : Int :=
  if !run.parses || run.traceFile.isEmpty then 1
  else if !(if run.traceFileExists then run.openValid else run.createValid) then 2
  else if run.xmlFile.isSome && !run.inputOpens then 3
  else if !fromXmlReturned then 4
  else 0

/-- An XML handler without a state that never throws. -/
def quietHandler : XmlContentHandler Unit :=
  { addData := fun _ _ => (), continueParsing := fun _ => .ok () }

/-- A run of the tool without `--help` in which every stage succeeds: the
database file `trace.db` is created and the input `<a/>` comes on the
standard input. -/
def quietRun : MainRun Unit :=
  { parses := true, help := false, traceFile := "trace.db", xmlFile := none,
    traceFileExists := false, openValid := false, createValid := true,
    databaseErrMsg := "", inputOpens := false, input := bytes "<a/>",
    xmlparser := quietHandler, handler := () }

/-- A run of the tool with `--help` on a command line that does not parse:
no `-o`, so no name of a database. -/
def helpRun : MainRun Unit :=
  { parses := false, help := true, traceFile := "", xmlFile := none,
    traceFileExists := false, openValid := false, createValid := false,
    databaseErrMsg := "", inputOpens := false, input := [],
    xmlparser := quietHandler, handler := () }

/-- The chunks in which the loop of `fromXml` reads an input: as long as
bytes are left, the next `maxlen` of them, or what is left of them. -/
inductive ReadInChunks (maxlen : Nat) : List Byte → List (List Byte) → Prop where
  | done : ReadInChunks maxlen [] []
  | read (input : List Byte) (chunks : List (List Byte)) : input ≠ [] →
      ReadInChunks maxlen (input.drop maxlen) chunks →
      ReadInChunks maxlen input (input.take maxlen :: chunks)

/-- Feeding chunks to the handler one after the other, `addData` then
`continueParsing` for each of them: the state after the last chunk, or the
first exception raised. -/
def feedChunks {σ : Type} (xmlparser : XmlContentHandler σ) :
    σ → List (List Byte) → Except SQLTransactionException σ
  | st, [] => .ok st
  | st, c :: cs =>
      match xmlparser.continueParsing (xmlparser.addData st c) with
      | .error ex => .error ex
      | .ok st1 => feedChunks xmlparser st1 cs

/-- A handler that counts the bytes added and throws once more than 28
have been added: the 24 of the opening tag and four more. -/
def fullHandler : XmlContentHandler Nat :=
  { addData := fun n data => n + data.length,
    continueParsing := fun n =>
      if n ≤ 28 then .ok n
      else .error { what := "disk full", driverMessage := "SQLITE_FULL", driverCode := 13 } }

/-- A `<traceentry>` element whose `<variables>` holds the one variable
`<variable name="count" type="int">5</variable>`. -/
def intVariableEntryElement : QDomNode :=
  .element "traceentry" [("pid", "2524"), ("tid", "468"), ("time", "1283529656")]
    [.element "processname" [] [.characterData false "hello_instrumented"],
     .element "verbosity" [] [.characterData false "1"],
     .element "type" [] [.characterData false "1"],
     .element "location" [("lineno", "16")] [.characterData false "main.cpp"],
     .element "function" [] [.characterData false "int main()"],
     .element "variables" [] [intVariableElement]]

/-- The calls `QByteArray::fromRawData( xmlData.data() + p, n )` that the
loop of `Server::handleIncomingData` and the call after it make, in order,
each as the pair of the position `p` and the size `n`: the loop of
`handleIncomingDataLoop` with the values of `p` kept. -/
def handleIncomingDataCalls (xmlData : List Byte) : Nat → Nat → Option Nat →
    Option (List (Nat × Nat))
  | 0, _, _ => none
  | _ + 1, p, none => some [(p, xmlData.length - p)]
  | fuel + 1, p, some q =>
      (handleIncomingDataCalls xmlData fuel q (indexOf xmlData sentinel (q + 1))).map
        (fun calls => (p, q - p) :: calls)

/-- The calls of `fromRawData` in `Server::handleIncomingData` for the
bytes `xmlData`, with the fuel of `handleIncomingDataWith`. -/
def cutCalls (xmlData : List Byte) : Option (List (Nat × Nat)) :=
  handleIncomingDataCalls xmlData (xmlData.length + 1) 0 (indexOf xmlData sentinel 1)

/-! ## Trace points and actions (`core/tracelib.h`) -/

/-- `TracePointType::Value`: `None` and the enumerators that
`tracepointtypes.def` lists. That file is not among the sources; the
enumerators kept here are the four that the macros of `tracelib.h` name,
without their numeric values. -/
inductive TracePointType where
  | None
  | Debug
  | Error
  | Log
  | Watch
deriving DecidableEq, Repr

/-- `struct TracePoint` of `core/tracelib.h`, over the class
`Configuration` that the header only declares. A `const char *` is the
string it points to, and the pointer `lastUsedConfiguration` is `none` when
it is null. -/
structure TracePoint (Configuration : Type) where
  type : TracePointType
  verbosity : Nat
  sourceFile : String
  lineno : Nat
  functionName : String
  lastUsedConfiguration : Option Configuration
  active : Bool
  backtracesEnabled : Bool
  variableSnapshotEnabled : Bool
deriving DecidableEq, Repr

/-- The constructor `TracePoint( type_, verbosity_, sourceFile_, lineno_,
functionName_ )`. Its parameters have the types of the fields
(`unsigned short`, `unsigned int`), so the initialisers copy the values as
they are. -/
def TracePoint.init {Configuration : Type} (type_ : TracePointType) (verbosity_ : Nat)
    (sourceFile_ : String) (lineno_ : Nat) (functionName_ : String) :
    TracePoint Configuration :=
  { type := type_
    verbosity := verbosity_
    sourceFile := sourceFile_
    lineno := lineno_
    functionName := functionName_
    lastUsedConfiguration := none
    active := false
    backtracesEnabled := false
    variableSnapshotEnabled := false }

/-- The action codes of `class TracePointSet`, of type `unsigned int`. -/
def TracePointSet.IgnoreTracePoint : Nat := 0x0000

def TracePointSet.LogTracePoint : Nat := 0x0001

def TracePointSet.YieldBacktrace : Nat := TracePointSet.LogTracePoint ||| 0x0100

def TracePointSet.YieldVariables : Nat := TracePointSet.LogTracePoint ||| 0x0200

/-! ## The instrumentation macros (`hooklib/tracelib.h`, `hooklib/tracelib_config.h`) -/

/-- The place at which a macro is used: what `TRACELIB_CURRENT_FILE_NAME`,
`TRACELIB_CURRENT_LINE_NUMBER` and `TRACELIB_CURRENT_FUNCTION_NAME` are
there. -/
structure CallSite where
  fileName : String
  lineNumber : Nat
  functionName : String
deriving DecidableEq, Repr

/-- The six arguments with which a macro of `hooklib/tracelib.h`
constructs its static `tracePoint`. The class (of `tracepoint.h`) is not
among the sources; a null key is `none`. -/
structure KeyedTracePoint where
  type : TracePointType
  verbosity : Nat
  sourceFile : String
  lineno : Nat
  functionName : String
  key : Option String
deriving DecidableEq, Repr

/-- What the block of a macro does: it constructs `tracePoint` and calls
`visitTracePoint( &tracePoint, msg )` or, with the snapshot filled by
`(*variableSnapshot) << vars`, `visitTracePoint( &tracePoint, (msg),
variableSnapshot )`. A null `msg` is `none`; `variableSnapshot` is `none`
in the call of two arguments. -/
structure Visit where
  tracePoint : KeyedTracePoint
  msg : Option String
  variableSnapshot : Option (List String)
deriving DecidableEq, Repr

/-- `TRACELIB_NAMESPACE_IDENT(StringBuilder)() << msg` converted to
`const char *`: what the stream holds after the items of the expression
`msg` were written to it, each item given as the stream prints it. -/
def StringBuilder (msg : List String) : String :=
  String.join msg

/-- `TRACELIB_VARIABLE_SNAPSHOT_KEY_MSG(verbosity, key, vars, msg)`. With
`TRACELIB_DISABLE_TRACE_CODE` defined (`disabled`) the macro is `(void)0;`,
which is `none`. -/
def TRACELIB_VARIABLE_SNAPSHOT_KEY_MSG (disabled : Bool) (site : CallSite) (verbosity : Nat)
    (key : Option String) (vars : List String) (msg : Option String) : Option Visit :=
  if disabled then none
  else some
    { tracePoint :=
        { type := TracePointType.Watch, verbosity := verbosity, sourceFile := site.fileName,
          lineno := site.lineNumber, functionName := site.functionName, key := key }
      msg := msg
      variableSnapshot := some vars }

/-- `TRACELIB_VISIT_TRACEPOINT_KEY_MSG(type, verbosity, key, msg)`. -/
def TRACELIB_VISIT_TRACEPOINT_KEY_MSG (disabled : Bool) (site : CallSite)
    (type : TracePointType) (verbosity : Nat) (key : Option String) (msg : Option String) :
    Option Visit :=
  if disabled then none
  else some
    { tracePoint :=
        { type := type, verbosity := verbosity, sourceFile := site.fileName,
          lineno := site.lineNumber, functionName := site.functionName, key := key }
      msg := msg
      variableSnapshot := none }

def TRACELIB_DEBUG_IMPL (disabled : Bool) (site : CallSite) : Option Visit :=
  TRACELIB_VISIT_TRACEPOINT_KEY_MSG disabled site TracePointType.Debug 1 none none

def TRACELIB_DEBUG_MSG_IMPL (disabled : Bool) (site : CallSite) (msg : List String) :
    Option Visit :=
  TRACELIB_VISIT_TRACEPOINT_KEY_MSG disabled site TracePointType.Debug 1 none
    (some (StringBuilder msg))

def TRACELIB_DEBUG_KEY_IMPL (disabled : Bool) (site : CallSite) (key : Option String) :
    Option Visit :=
  TRACELIB_VISIT_TRACEPOINT_KEY_MSG disabled site TracePointType.Debug 1 key none

def TRACELIB_DEBUG_KEY_MSG_IMPL (disabled : Bool) (site : CallSite) (key : Option String)
    (msg : List String) : Option Visit :=
  TRACELIB_VISIT_TRACEPOINT_KEY_MSG disabled site TracePointType.Debug 1 key
    (some (StringBuilder msg))

def TRACELIB_ERROR_IMPL (disabled : Bool) (site : CallSite) : Option Visit :=
  TRACELIB_VISIT_TRACEPOINT_KEY_MSG disabled site TracePointType.Error 1 none none

def TRACELIB_ERROR_MSG_IMPL (disabled : Bool) (site : CallSite) (msg : List String) :
    Option Visit :=
  TRACELIB_VISIT_TRACEPOINT_KEY_MSG disabled site TracePointType.Error 1 none
    (some (StringBuilder msg))

def TRACELIB_ERROR_KEY_IMPL (disabled : Bool) (site : CallSite) (key : Option String) :
    Option Visit :=
  TRACELIB_VISIT_TRACEPOINT_KEY_MSG disabled site TracePointType.Error 1 key none

def TRACELIB_ERROR_KEY_MSG_IMPL (disabled : Bool) (site : CallSite) (key : Option String)
    (msg : List String) : Option Visit :=
  TRACELIB_VISIT_TRACEPOINT_KEY_MSG disabled site TracePointType.Error 1 key
    (some (StringBuilder msg))

def TRACELIB_TRACE_IMPL (disabled : Bool) (site : CallSite) : Option Visit :=
  TRACELIB_VISIT_TRACEPOINT_KEY_MSG disabled site TracePointType.Log 1 none none

def TRACELIB_TRACE_MSG_IMPL (disabled : Bool) (site : CallSite) (msg : List String) :
    Option Visit :=
  TRACELIB_VISIT_TRACEPOINT_KEY_MSG disabled site TracePointType.Log 1 none
    (some (StringBuilder msg))

def TRACELIB_TRACE_KEY_IMPL (disabled : Bool) (site : CallSite) (key : Option String) :
    Option Visit :=
  TRACELIB_VISIT_TRACEPOINT_KEY_MSG disabled site TracePointType.Log 1 key none

def TRACELIB_TRACE_KEY_MSG_IMPL (disabled : Bool) (site : CallSite) (key : Option String)
    (msg : List String) : Option Visit :=
  TRACELIB_VISIT_TRACEPOINT_KEY_MSG disabled site TracePointType.Log 1 key
    (some (StringBuilder msg))

def TRACELIB_WATCH_IMPL (disabled : Bool) (site : CallSite) (vars : List String) :
    Option Visit :=
  TRACELIB_VARIABLE_SNAPSHOT_KEY_MSG disabled site 1 none vars none

def TRACELIB_WATCH_MSG_IMPL (disabled : Bool) (site : CallSite) (msg : List String)
    (vars : List String) : Option Visit :=
  TRACELIB_VARIABLE_SNAPSHOT_KEY_MSG disabled site 1 none vars (some (StringBuilder msg))

def TRACELIB_WATCH_KEY_IMPL (disabled : Bool) (site : CallSite) (key : Option String)
    (vars : List String) : Option Visit :=
  TRACELIB_VARIABLE_SNAPSHOT_KEY_MSG disabled site 1 key vars none

def TRACELIB_WATCH_KEY_MSG_IMPL (disabled : Bool) (site : CallSite) (key : Option String)
    (msg : List String) (vars : List String) : Option Visit :=
  TRACELIB_VARIABLE_SNAPSHOT_KEY_MSG disabled site 1 key vars (some (StringBuilder msg))
/-- The macros of `tracelib_config.h`, each defined as its `_IMPL`. -/
def TRACELIB_DEBUG (disabled : Bool) (site : CallSite) : Option Visit :=
  TRACELIB_DEBUG_IMPL disabled site

def TRACELIB_DEBUG_KEY (disabled : Bool) (site : CallSite) (key : Option String) :
    Option Visit :=
  TRACELIB_DEBUG_KEY_IMPL disabled site key

def TRACELIB_ERROR (disabled : Bool) (site : CallSite) : Option Visit :=
  TRACELIB_ERROR_IMPL disabled site

def TRACELIB_ERROR_KEY (disabled : Bool) (site : CallSite) (key : Option String) :
    Option Visit :=
  TRACELIB_ERROR_KEY_IMPL disabled site key

def TRACELIB_TRACE (disabled : Bool) (site : CallSite) : Option Visit :=
  TRACELIB_TRACE_IMPL disabled site

def TRACELIB_TRACE_KEY (disabled : Bool) (site : CallSite) (key : Option String) :
    Option Visit :=
  TRACELIB_TRACE_KEY_IMPL disabled site key

def TRACELIB_WATCH (disabled : Bool) (site : CallSite) (vars : List String) : Option Visit :=
  TRACELIB_WATCH_IMPL disabled site vars

def TRACELIB_WATCH_KEY (disabled : Bool) (site : CallSite) (key : Option String)
    (vars : List String) : Option Visit :=
  TRACELIB_WATCH_KEY_IMPL disabled site key vars

def TRACELIB_DEBUG_MSG (disabled : Bool) (site : CallSite) (msg : List String) :
    Option Visit :=
  TRACELIB_DEBUG_MSG_IMPL disabled site msg

def TRACELIB_DEBUG_KEY_MSG (disabled : Bool) (site : CallSite) (key : Option String)
    (msg : List String) : Option Visit :=
  TRACELIB_DEBUG_KEY_MSG_IMPL disabled site key msg

def TRACELIB_ERROR_MSG (disabled : Bool) (site : CallSite) (msg : List String) :
    Option Visit :=
  TRACELIB_ERROR_MSG_IMPL disabled site msg

def TRACELIB_ERROR_KEY_MSG (disabled : Bool) (site : CallSite) (key : Option String)
    (msg : List String) : Option Visit :=
  TRACELIB_ERROR_KEY_MSG_IMPL disabled site key msg

def TRACELIB_TRACE_MSG (disabled : Bool) (site : CallSite) (msg : List String) :
    Option Visit :=
  TRACELIB_TRACE_MSG_IMPL disabled site msg

def TRACELIB_TRACE_KEY_MSG (disabled : Bool) (site : CallSite) (key : Option String)
    (msg : List String) : Option Visit :=
  TRACELIB_TRACE_KEY_MSG_IMPL disabled site key msg

def TRACELIB_WATCH_MSG (disabled : Bool) (site : CallSite) (msg : List String)
    (vars : List String) : Option Visit :=
  TRACELIB_WATCH_MSG_IMPL disabled site msg vars

def TRACELIB_WATCH_KEY_MSG (disabled : Bool) (site : CallSite) (key : Option String)
    (msg : List String) (vars : List String) : Option Visit :=
  TRACELIB_WATCH_KEY_MSG_IMPL disabled site key msg vars

/-- The expansion `x` of a macro used at `site` creates a trace point of
the type `type` with verbosity 1, for the place of use, with the key `key`,
and visits it with the message `msg`. -/
def Creates (x : Option Visit) (site : CallSite) (type : TracePointType)
    (key msg : Option String) : Prop :=
  ∃ v, x = some v ∧ v.tracePoint.type = type ∧ v.tracePoint.verbosity = 1 ∧
    v.tracePoint.sourceFile = site.fileName ∧ v.tracePoint.lineno = site.lineNumber ∧
    v.tracePoint.functionName = site.functionName ∧ v.tracePoint.key = key ∧ v.msg = msg

/-- The place of the first macro of `hello_instrumented.cpp` in the trace
that the header shows. -/
def helloSite : CallSite :=
  { fileName := "hello_instrumented.cpp", lineNumber := 8,
    functionName := "int __cdecl main(void)" }

/-! ## The filter of the GUI (`gui/entryfilter.cpp`) -/

/-- The members of `EntryFilter` that `entryfilter.cpp` reads and writes;
`m_type` is -1 when no type is selected. -/
structure EntryFilter where
  m_application : String
  m_processId : String
  m_threadId : String
  m_function : String
  m_message : String
  m_type : Int
deriving DecidableEq, Repr

/-- `QString::contains( str )`, case sensitive as by default: whether
`str` occurs in `s`. -/
def contains (s str : String) : Bool :=
  decide (str.data <:+: s.data)

/-- `EntryFilter::matches( e )`. -/
def EntryFilter.«matches» (f : EntryFilter) (e : TraceEntry) : Bool :=
  if !f.m_application.isEmpty && !contains (str e.processName) f.m_application then false
  else true

/-- The values of `QVariant` that the session state of the filter holds:
the invalid variant (default constructed), a `QString`, an `int`. -/
inductive QVariant where
  | invalid
  | string (s : String)
  | int (i : Int)
deriving DecidableEq, Repr

/-- `QString::toInt()`: white space around the number is skipped, a sign
may precede the digits; 0 when the text is no number or is out of the range
of `int`. -/
def toInt (s : String) : Int :=
  match trimmed s.toList with
  | '-' :: cs =>
      match digitsValue cs 0 with
      | some v => if v ≤ 2 ^ 31 then -(v : Int) else 0
      | none => 0
  | '+' :: cs =>
      match digitsValue cs 0 with
      | some v => if v < 2 ^ 31 then (v : Int) else 0
      | none => 0
  | cs =>
      match digitsValue cs 0 with
      | some v => if v < 2 ^ 31 then (v : Int) else 0
      | none => 0

/-- `QVariant::toString()`: the empty string for the invalid variant, the
decimal numeral for an `int`. -/
def QVariant.asString : QVariant → String
  | .invalid => ""
  | .string s => s
  | .int i => toString i

/-- `QVariant::toInt()`: 0 for the invalid variant. -/
def QVariant.asInt : QVariant → Int
  | .invalid => 0
  | .string s => toInt s
  | .int i => i

/-- `StorageMap`, which is `QMap<QString, QVariant>`, as the list of its
keys with their values. -/
abbrev StorageMap : Type := List (String × QVariant)

/-- The assignment `map[key] = value`. -/
def StorageMap.set (map : StorageMap) (key : String) (value : QVariant) : StorageMap :=
  (key, value) :: map.filter (fun kv => kv.1 != key)

/-- The value read by `map[key]`: the value of the key, or the default
constructed `QVariant` that `operator[]` inserts for a key that the map
does not have. -/
def StorageMap.get (map : StorageMap) (key : String) : QVariant :=
  (map.lookup key).getD QVariant.invalid

/-- `EntryFilter::sessionState()`: the map that the returned `QVariant`
holds. -/
def EntryFilter.sessionState (f : EntryFilter) : StorageMap :=
  let map : StorageMap := []
  let map := if !f.m_application.isEmpty then map.set "Application" (.string f.m_application)
    else map
  let map := if !f.m_processId.isEmpty then map.set "ProcessId" (.string f.m_processId)
    else map
  let map := if !f.m_threadId.isEmpty then map.set "ThreadId" (.string f.m_threadId)
    else map
  let map := if !f.m_function.isEmpty then map.set "Function" (.string f.m_function)
    else map
  let map := if !f.m_message.isEmpty then map.set "Message" (.string f.m_message)
    else map
  let map := if f.m_type != -1 then map.set "Type" (.int f.m_type) else map
  map

/-- `EntryFilter::restoreSessionState( state )` for a `state` that holds
the map `map` (`state.value<StorageMap>()`): the value returned and the
filter afterwards. The signal `changed()` is emitted before the return. -/
def EntryFilter.restoreSessionState (f : EntryFilter) (map : StorageMap) :
    Bool × EntryFilter :=
  (true,
    { f with
      m_application := (map.get "Application").asString
      m_processId := (map.get "ProcessId").asString
      m_threadId := (map.get "ThreadId").asString
      m_function := (map.get "Function").asString
      m_message := (map.get "Message").asString
      m_type := (map.get "Type").asInt })

/-- The filter in which nothing is selected: every string empty, the type
-1. -/
def emptyFilter : EntryFilter :=
  { m_application := "", m_processId := "", m_threadId := "", m_function := "",
    m_message := "", m_type := -1 }

/-! ## The model of the entries in the GUI (`gui/entryitemmodel.cpp`) -/

/-- What the model does that its timer and its views see, in order: the
start of the polling timer, and the calls that announce a change of the
rows, with the text written by `qDebug()`. -/
inductive ModelEffect where
  | timerStart (msec : Nat)
  | beginInsertRows (first last : Int)
  | endInsertRows
  | beginResetModel
  | endResetModel
  | qDebug (text : String)
deriving DecidableEq, Repr

/-- The members of `EntryItemModel` that the suspension touches:
`m_numNewEntries`, whether `m_databasePollingTimer` is active,
`m_suspended`, the filter that `m_filter` points to and `m_querySize`,
with the effects so far. The count of new entries is taken as unbounded;
the query `m_query` itself is left out. -/
structure EntryItemModel where
  m_numNewEntries : Nat
  timerActive : Bool
  m_suspended : Bool
  m_filter : EntryFilter
  m_querySize : Int
  effects : List ModelEffect
deriving DecidableEq, Repr

/-- `EntryItemModel::queryForEntries( errMsg )` against a database that
answers with an error text or with the number of rows: the text written to
`*errMsg` when false is returned, and the model afterwards. -/
def EntryItemModel.queryForEntries (answer : Except String Int) (m : EntryItemModel) :
    Option String × EntryItemModel :=
  match answer with
  | .error text => (some text, m)
  | .ok size => (none, { m with m_querySize := size })

/-- `EntryItemModel::triggerUpdate()`. -/
def EntryItemModel.triggerUpdate (m : EntryItemModel) : EntryItemModel :=
  if !m.m_suspended && !m.timerActive then
    { m with timerActive := true, effects := m.effects ++ [ModelEffect.timerStart 200] }
  else m

/-- `EntryItemModel::handleNewTraceEntry( e )`. -/
def EntryItemModel.handleNewTraceEntry (m : EntryItemModel) (e : TraceEntry) :
    EntryItemModel :=
  if !m.m_filter.«matches» e then m
  else EntryItemModel.triggerUpdate { m with m_numNewEntries := m.m_numNewEntries + 1 }

/-- `EntryItemModel::suspend()`. -/
def EntryItemModel.suspend (m : EntryItemModel) : EntryItemModel :=
  { m with m_suspended := true }

/-- `EntryItemModel::insertNewTraceEntries()`. -/
def EntryItemModel.insertNewTraceEntries (answer : Except String Int) (m : EntryItemModel) :
    EntryItemModel :=
  if m.m_numNewEntries == 0 then m
  else
    let m1 := { m with effects := m.effects ++
      [ModelEffect.beginInsertRows m.m_querySize (m.m_querySize + m.m_numNewEntries - 1)] }
    let m2 :=
      match EntryItemModel.queryForEntries answer m1 with
      | (some errorMsg, m2) =>
          { m2 with effects := m2.effects ++
            [ModelEffect.qDebug ("EntryItemModel::insertNewTraceEntries: failed: "
              ++ errorMsg)] }
      | (none, m2) => m2
    { m2 with effects := m2.effects ++ [ModelEffect.endInsertRows], m_numNewEntries := 0 }

/-- `EntryItemModel::resume()`. -/
def EntryItemModel.resume (answer : Except String Int) (m : EntryItemModel) :
    EntryItemModel :=
  EntryItemModel.insertNewTraceEntries answer { m with m_suspended := false }

/-- `EntryItemModel::setDatabase( database, errMsg )`, the value returned
left out. -/
def EntryItemModel.setDatabase (answer : Except String Int) (m : EntryItemModel) :
    EntryItemModel :=
  (EntryItemModel.queryForEntries answer m).2

/-- `EntryItemModel::reApplyFilter()`. -/
def EntryItemModel.reApplyFilter (answer : Except String Int) (m : EntryItemModel) :
    EntryItemModel :=
  let m1 := { m with effects := m.effects ++ [ModelEffect.beginResetModel] }
  let m2 :=
    match EntryItemModel.queryForEntries answer m1 with
    | (some errorMsg, m2) =>
        { m2 with effects := m2.effects ++
          [ModelEffect.qDebug ("EntryItemModel::reApplyFilter: failed: " ++ errorMsg)] }
    | (none, m2) => m2
  { m2 with effects := m2.effects ++ [ModelEffect.endResetModel] }

/-- What can happen to a model between `suspend()` and `resume()`: a call
of `handleNewTraceEntry`, of `triggerUpdate` (also as the slot of the
signal `changed()` of the filter, here with the filter as changed), of
`suspend` once more, of `setDatabase` or of `reApplyFilter`, and the single
shot timer running out, which calls the slot `insertNewTraceEntries`. -/
inductive ModelCall where
  | handleNewTraceEntry (e : TraceEntry)
  | triggerUpdate
  | filterChanged (filter : EntryFilter)
  | suspend
  | setDatabase (answer : Except String Int)
  | reApplyFilter (answer : Except String Int)
  | timeout (answer : Except String Int)

/-- The model after one of the calls. -/
def EntryItemModel.call (m : EntryItemModel) : ModelCall → EntryItemModel
  | .handleNewTraceEntry e => m.handleNewTraceEntry e
  | .triggerUpdate => m.triggerUpdate
  | .filterChanged filter => EntryItemModel.triggerUpdate { m with m_filter := filter }
  | .suspend => m.suspend
  | .setDatabase answer => m.setDatabase answer
  | .reApplyFilter answer => m.reApplyFilter answer
  | .timeout answer =>
      if m.timerActive then
        EntryItemModel.insertNewTraceEntries answer { m with timerActive := false }
      else m

/-- A model as its constructor leaves it, with a filter on the application
`hello`, after a query that gave two rows. -/
def helloModel : EntryItemModel :=
  { m_numNewEntries := 0, timerActive := false, m_suspended := false,
    m_filter := { emptyFilter with m_application := "hello" }, m_querySize := 2,
    effects := [] }

/-! # Theorems -/

/-! ## Facts on `indexOf` -/

theorem indexOfAux_some {needle : List Byte} :
    ∀ (rest : List Byte) (i q : Nat), indexOfAux needle rest i = some q →
      i ≤ q ∧ q ≤ i + rest.length ∧ needle <+: rest.drop (q - i) ∧
        ∀ j, j < q - i → ¬ needle <+: rest.drop j := by
  intro rest
  induction rest with
  | nil =>
    intro i q h
    simp only [indexOfAux] at h
    split at h
    · rename_i hn
      injection h with h
      subst h
      simp [hn]
    · cases h
  | cons b bs ih =>
    intro i q h
    simp only [indexOfAux] at h
    split at h
    · rename_i hp
      injection h with h
      subst h
      simpa using hp
    · rename_i hp
      obtain ⟨h1, h2, h3, h4⟩ := ih (i + 1) q h
      have e : q - i = (q - (i + 1)) + 1 := by omega
      refine ⟨by omega, by simp only [List.length_cons]; omega, ?_, ?_⟩
      · rw [e, List.drop_succ_cons]; exact h3
      · intro j hj
        cases j with
        | zero => simpa using hp
        | succ j =>
          rw [List.drop_succ_cons]
          exact h4 j (by omega)

theorem indexOfAux_none {needle : List Byte} :
    ∀ (rest : List Byte) (i : Nat), indexOfAux needle rest i = none →
      ∀ j, j ≤ rest.length → ¬ needle <+: rest.drop j := by
  intro rest
  induction rest with
  | nil =>
    intro i h j _
    simp only [indexOfAux] at h
    split at h
    · cases h
    · rename_i hn
      simpa using hn
  | cons b bs ih =>
    intro i h j hj
    simp only [indexOfAux] at h
    split at h
    · cases h
    · rename_i hp
      cases j with
      | zero => simpa using hp
      | succ j =>
        rw [List.drop_succ_cons]
        exact ih (i + 1) h j (by simpa using hj)

/-- What `indexOf` returns when it finds the needle: the least position
from `start` on at which the needle occurs. -/
theorem indexOf_some {hay needle : List Byte} {start q : Nat}
    (h : indexOf hay needle start = some q) :
    start ≤ q ∧ q ≤ hay.length ∧ needle <+: hay.drop q ∧
      ∀ j, start ≤ j → j < q → ¬ needle <+: hay.drop j := by
  unfold indexOf at h
  split at h
  · cases h
  · rename_i hs
    obtain ⟨h1, h2, h3, h4⟩ := indexOfAux_some _ _ _ h
    have hl : (hay.drop start).length = hay.length - start := by simp
    refine ⟨h1, by omega, ?_, ?_⟩
    · rw [List.drop_drop] at h3
      have : start + (q - start) = q := by omega
      rwa [this] at h3
    · intro j hj hq
      have := h4 (j - start) (by omega)
      rw [List.drop_drop] at this
      have e : start + (j - start) = j := by omega
      rwa [e] at this

/-- What `indexOf` says when it finds nothing: no occurrence from `start`
on. -/
theorem indexOf_none {hay needle : List Byte} {start : Nat} (hn : needle ≠ [])
    (h : indexOf hay needle start = none) :
    ∀ j, start ≤ j → ¬ needle <+: hay.drop j := by
  intro j hj hp
  have hjl : j < hay.length := by
    by_contra hc
    rw [List.drop_eq_nil_of_le (by omega)] at hp
    exact hn (List.prefix_nil.mp hp)
  unfold indexOf at h
  split at h
  · omega
  · have := indexOfAux_none _ _ h (j - start) (by simp; omega)
    rw [List.drop_drop] at this
    have e : start + (j - start) = j := by omega
    rw [e] at this
    exact this hp

/-- The least occurrence from `start` on is what `indexOf` returns. -/
theorem indexOf_eq_some {hay needle : List Byte} {start q : Nat} (hn : needle ≠ [])
    (h1 : start ≤ q) (h2 : needle <+: hay.drop q)
    (h3 : ∀ j, start ≤ j → j < q → ¬ needle <+: hay.drop j) :
    indexOf hay needle start = some q := by
  cases h : indexOf hay needle start with
  | none => exact absurd h2 (indexOf_none hn h q h1)
  | some q' =>
    obtain ⟨a1, _, a3, a4⟩ := indexOf_some h
    have : q' = q := by
      rcases Nat.lt_trichotomy q' q with hlt | heq | hgt
      · exact absurd a3 (h3 q' a1 hlt)
      · exact heq
      · exact absurd h2 (a4 q h1 hgt)
    rw [this]

/-- No occurrence from `start` on makes `indexOf` return `none`. -/
theorem indexOf_eq_none {hay needle : List Byte} {start : Nat}
    (h : ∀ j, start ≤ j → ¬ needle <+: hay.drop j) :
    indexOf hay needle start = none := by
  cases h' : indexOf hay needle start with
  | none => rfl
  | some q =>
    obtain ⟨a1, _, a3, _⟩ := indexOf_some h'
    exact absurd a3 (h q a1)

/-! ## The sentinel -/

theorem sentinel_ne_nil : sentinel ≠ [] := by decide

theorem sentinel_length : sentinel.length = 12 := by decide

/-- The byte `<` occurs in the sentinel at its first position only. -/
theorem sentinel_lt_once : ∀ d, d < 12 → 1 ≤ d → sentinel[d]? ≠ some 60 := by decide

/-- An occurrence of the sentinel in a list gives the bytes of the list. -/
theorem getElem?_of_occurrence {l : List Byte} {j d : Nat}
    (h : sentinel <+: l.drop j) (hd : d < 12) : l[j + d]? = sentinel[d]? := by
  obtain ⟨t, ht⟩ := h
  rw [← List.getElem?_drop, ← ht]
  exact List.getElem?_append_left (by rw [sentinel_length]; exact hd)

/-- Two occurrences of the sentinel do not overlap. -/
theorem occurrences_apart {l : List Byte} {i j : Nat}
    (hj : sentinel <+: l.drop j) (hi : sentinel <+: l.drop i) (hji : j < i) :
    j + 12 ≤ i := by
  by_contra hc
  have h1 := getElem?_of_occurrence hj (show i - j < 12 by omega)
  have h2 := getElem?_of_occurrence hi (show 0 < 12 by omega)
  have e : j + (i - j) = i := by omega
  rw [e] at h1
  rw [Nat.add_zero, h1] at h2
  exact sentinel_lt_once (i - j) (by omega) (by omega) h2

/-- An occurrence of the sentinel lies within the list. -/
theorem occurrence_le_length {l : List Byte} {j : Nat} (h : sentinel <+: l.drop j) :
    j + 12 ≤ l.length := by
  have := h.length_le
  rw [sentinel_length, List.length_drop] at this
  omega

/-! ## The loop of `handleIncomingData` and the framing of the buffer -/

/-- Searching from `p + 1` in the buffer is searching from 1 in what is
left of the buffer at `p`. -/
theorem indexOf_shift (buf : List Byte) (p : Nat) :
    indexOf buf sentinel (p + 1) = (indexOf (buf.drop p) sentinel 1).map (· + p) := by
  cases h : indexOf (buf.drop p) sentinel 1 with
  | none =>
    apply indexOf_eq_none
    intro j hj hp
    have := indexOf_none sentinel_ne_nil h (j - p) (by omega)
    rw [List.drop_drop] at this
    have e : p + (j - p) = j := by omega
    rw [e] at this
    exact this hp
  | some q =>
    obtain ⟨h1, _, h3, h4⟩ := indexOf_some h
    rw [List.drop_drop] at h3
    show indexOf buf sentinel (p + 1) = some (q + p)
    apply indexOf_eq_some sentinel_ne_nil
    · omega
    · have e : q + p = p + q := by omega
      rw [e]; exact h3
    · intro j hj hq hp
      have := h4 (j - p) (by omega) (by omega)
      rw [List.drop_drop] at this
      have e : p + (j - p) = j := by omega
      rw [e] at this
      exact this hp

/-- The loop hands over the framing of what is left of the buffer at `p`,
and the fuel is enough as soon as it exceeds the bytes left. -/
theorem handleIncomingDataLoop_eq (buf : List Byte) :
    ∀ (fuel p : Nat), p ≤ buf.length → buf.length < fuel + p →
      ∃ sl, Framed (buf.drop p) sl ∧
        ∀ {σ : Type} (handle : σ → List Byte → σ) (st : σ),
          handleIncomingDataLoop handle buf fuel p (indexOf buf sentinel (p + 1)) st
            = some (sl.foldl handle st) := by
  intro fuel
  induction fuel with
  | zero => intro p h1 h2; omega
  | succ fuel ih =>
    intro p h1 h2
    rw [indexOf_shift]
    cases h : indexOf (buf.drop p) sentinel 1 with
    | none =>
      refine ⟨[buf.drop p], Framed.last h, ?_⟩
      intro σ handle st
      simp only [Option.map_none', handleIncomingDataLoop, fromRawData, List.foldl_cons,
        List.foldl_nil]
      rw [List.take_of_length_le (by simp)]
    | some q =>
      obtain ⟨a1, a2, _, _⟩ := indexOf_some h
      rw [List.length_drop] at a2
      obtain ⟨sl, hf, hl⟩ := ih (q + p) (by omega) (by omega)
      refine ⟨(buf.drop p).take q :: sl, Framed.cut h ?_, ?_⟩
      · rw [List.drop_drop]
        have e : p + q = q + p := by omega
        rw [e]; exact hf
      · intro σ handle st
        simp only [Option.map_some', handleIncomingDataLoop, fromRawData, List.foldl_cons]
        rw [hl handle]
        simp

/-- `handleIncomingData` always returns, having handed the framing of the
buffer to the handler, slice by slice. -/
theorem handleIncomingDataWith_eq (buf : List Byte) :
    ∃ sl, Framed buf sl ∧
      ∀ {σ : Type} (handle : σ → List Byte → σ) (st : σ),
        handleIncomingDataWith handle buf st = some (sl.foldl handle st) := by
  obtain ⟨sl, hf, hl⟩ := handleIncomingDataLoop_eq buf (buf.length + 1) 0 (by omega) (by omega)
  exact ⟨sl, by simpa using hf, fun handle st => hl handle st⟩

theorem foldl_record (sl acc : List (List Byte)) :
    sl.foldl (fun calls data => calls ++ [data]) acc = acc ++ sl := by
  induction sl generalizing acc with
  | nil => simp
  | cons s sl ih => simp [ih]

/-- The slices handed over are the framing of the buffer. -/
theorem handedSlices_framed (buf : List Byte) :
    ∃ sl, Framed buf sl ∧ handedSlices buf = some sl := by
  obtain ⟨sl, hf, hl⟩ := handleIncomingDataWith_eq buf
  refine ⟨sl, hf, ?_⟩
  unfold handedSlices
  rw [hl, foldl_record]
  simp

/-- A buffer has one framing. -/
theorem Framed.unique {buf : List Byte} {sl sl' : List (List Byte)}
    (h : Framed buf sl) (h' : Framed buf sl') : sl = sl' := by
  induction h generalizing sl' with
  | last hn =>
    cases h' with
    | last _ => rfl
    | cut hq _ => rw [hn] at hq; cases hq
  | cut hq _ ih =>
    cases h' with
    | last hn => rw [hn] at hq; cases hq
    | cut hq' hf' =>
      rw [hq] at hq'
      injection hq' with hq'
      subst hq'
      rw [ih hf']

theorem handedSlices_of_framed {buf : List Byte} {sl : List (List Byte)}
    (h : Framed buf sl) : handedSlices buf = some sl := by
  obtain ⟨sl', hf, hs⟩ := handedSlices_framed buf
  rw [hs, hf.unique h]

theorem Framed.ne_nil {buf : List Byte} {sl : List (List Byte)} (h : Framed buf sl) :
    sl ≠ [] := by
  cases h <;> simp

theorem Framed.flatten {buf : List Byte} {sl : List (List Byte)} (h : Framed buf sl) :
    sl.flatten = buf := by
  induction h with
  | last _ => simp
  | cut _ _ ih => rw [List.flatten_cons, ih, List.take_append_drop]

/-- With room for the sentinel before the end of `r1`, an occurrence in
`r1 ++ r2` is an occurrence in `r1`. -/
theorem occurrence_append_left {r1 r2 : List Byte} {j : Nat} (hj : j + 12 ≤ r1.length) :
    sentinel <+: (r1 ++ r2).drop j ↔ sentinel <+: r1.drop j := by
  rw [List.drop_append_of_le_length (by omega)]
  constructor
  · intro h
    refine List.prefix_of_prefix_length_le h (List.prefix_append _ _) ?_
    rw [sentinel_length, List.length_drop]
    omega
  · intro h
    exact h.trans (List.prefix_append _ _)

/-- Every slice of the framing of a buffer that begins with the sentinel
begins with the sentinel. -/
theorem Framed.all_begin {buf : List Byte} {sl : List (List Byte)} (h : Framed buf sl) :
    sentinel <+: buf → ∀ s ∈ sl, sentinel <+: s := by
  induction h with
  | last _ =>
    intro hb s hs
    simp only [List.mem_singleton] at hs
    subst hs
    exact hb
  | @cut buf q sl hq _ ih =>
    intro hb s hs
    obtain ⟨h1, h2, h3, _⟩ := indexOf_some hq
    rcases List.mem_cons.mp hs with rfl | hs
    · have hq12 : 0 + 12 ≤ q := occurrences_apart (l := buf) (by simpa using hb) h3 (by omega)
      refine List.prefix_of_prefix_length_le hb (List.take_prefix _ _) ?_
      rw [sentinel_length, List.length_take]
      omega
    · exact ih h3 s hs

/-- The slices after the first begin with the sentinel. -/
theorem Framed.tail_begin {buf : List Byte} {sl : List (List Byte)} (h : Framed buf sl) :
    ∀ s ∈ sl.tail, sentinel <+: s := by
  cases h with
  | last _ => simp
  | cut hq hf => exact hf.all_begin (indexOf_some hq).2.2.1

/-- No slice holds the sentinel at an offset of 1 or more. -/
theorem Framed.no_inner {buf : List Byte} {sl : List (List Byte)} (h : Framed buf sl) :
    ∀ s ∈ sl, ∀ k, 1 ≤ k → ¬ sentinel <+: s.drop k := by
  induction h with
  | last hn =>
    intro s hs k hk
    simp only [List.mem_singleton] at hs
    subst hs
    exact indexOf_none sentinel_ne_nil hn k hk
  | @cut buf q sl hq _ ih =>
    intro s hs k hk hp
    obtain ⟨h1, h2, h3, h4⟩ := indexOf_some hq
    rcases List.mem_cons.mp hs with rfl | hs
    · have hlen := hp.length_le
      rw [sentinel_length, List.length_drop, List.length_take] at hlen
      have hkq : k < q := by omega
      apply h4 k hk hkq
      rw [List.drop_take] at hp
      exact hp.trans (List.take_prefix _ _)
    · exact ih s hs k hk hp

/-- The cut points, read off the slices as the lengths of what precedes
each slice after the first, are the positions from 1 on at which the
sentinel occurs in the buffer. -/
theorem Framed.cuts {buf : List Byte} {sl : List (List Byte)} (h : Framed buf sl) :
    ∀ c, (∃ k, 0 < k ∧ k < sl.length ∧ c = ((sl.take k).flatten).length) ↔
      (1 ≤ c ∧ sentinel <+: buf.drop c) := by
  induction h with
  | last hn =>
    intro c
    constructor
    · rintro ⟨k, h1, h2, _⟩
      simp at h2
      omega
    · rintro ⟨h1, h2⟩
      exact absurd h2 (indexOf_none sentinel_ne_nil hn c h1)
  | @cut buf q sl hq hf ih =>
    intro c
    obtain ⟨h1, h2, h3, h4⟩ := indexOf_some hq
    have hlen : (buf.take q).length = q := by rw [List.length_take]; omega
    constructor
    · rintro ⟨k, hk1, hk2, rfl⟩
      obtain ⟨k, rfl⟩ : ∃ k', k = k' + 1 := ⟨k - 1, by omega⟩
      rw [List.take_succ_cons, List.flatten_cons, List.length_append, hlen]
      rcases Nat.eq_zero_or_pos k with rfl | hkpos
      · simpa using ⟨h1, h3⟩
      · have := (ih ((sl.take k).flatten).length).mp
          ⟨k, hkpos, by simpa using hk2, rfl⟩
        rw [List.drop_drop] at this
        exact ⟨by omega, this.2⟩
    · rintro ⟨hc1, hc2⟩
      have hqc : q ≤ c := by
        by_contra hlt
        exact h4 c hc1 (by omega) hc2
      rcases Nat.eq_or_lt_of_le hqc with rfl | hlt
      · refine ⟨1, by omega, ?_, ?_⟩
        · have := hf.ne_nil
          have : 0 < sl.length := List.length_pos.mpr this
          simp only [List.length_cons]
          omega
        · simp [hlen]
      · have hocc : sentinel <+: (buf.drop q).drop (c - q) := by
          rw [List.drop_drop]
          have e : q + (c - q) = c := by omega
          rw [e]; exact hc2
        obtain ⟨k, hk1, hk2, hk3⟩ := (ih (c - q)).mpr ⟨by omega, hocc⟩
        refine ⟨k + 1, by omega, by simpa using hk2, ?_⟩
        rw [List.take_succ_cons, List.flatten_cons, List.length_append, hlen, ← hk3]
        omega

/-- Framing a buffer that continues, past a non-empty part, with the
sentinel: the slices of the first part followed by those of the second. -/
theorem Framed.append {r1 r2 : List Byte} {sl1 sl2 : List (List Byte)}
    (h1 : Framed r1 sl1) (hne : r1 ≠ []) (hb : sentinel <+: r2) (h2 : Framed r2 sl2) :
    Framed (r1 ++ r2) (sl1 ++ sl2) := by
  induction h1 with
  | @last r1 hn =>
    have hpos : 0 < r1.length := List.length_pos.mpr hne
    have hocc : sentinel <+: (r1 ++ r2).drop r1.length := by simpa using hb
    have hq : indexOf (r1 ++ r2) sentinel 1 = some r1.length := by
      apply indexOf_eq_some sentinel_ne_nil (by omega) hocc
      intro j hj1 hj2 hp
      have := occurrences_apart hp hocc hj2
      exact indexOf_none sentinel_ne_nil hn j hj1 ((occurrence_append_left this).mp hp)
    have := Framed.cut hq (by simpa using h2)
    simpa using this
  | @cut r1 q sl hq hf ih =>
    obtain ⟨a1, a2, a3, a4⟩ := indexOf_some hq
    have hq12 := occurrence_le_length a3
    have hocc : sentinel <+: (r1 ++ r2).drop q := (occurrence_append_left hq12).mpr a3
    have hq' : indexOf (r1 ++ r2) sentinel 1 = some q := by
      apply indexOf_eq_some sentinel_ne_nil a1 hocc
      intro j hj1 hj2 hp
      have := occurrences_apart hp hocc hj2
      exact a4 j hj1 hj2 ((occurrence_append_left (by omega)).mp hp)
    have hdne : r1.drop q ≠ [] := by
      intro hnil
      rw [hnil] at a3
      exact sentinel_ne_nil (List.prefix_nil.mp a3)
    have := Framed.cut hq' (by
      rw [List.drop_append_of_le_length a2]
      exact ih hdne)
    rw [List.take_append_of_le_length a2] at this
    simpa using this

/-- Entries that begin with the sentinel and hold it nowhere else frame
their concatenation. -/
theorem Framed.of_entries :
    ∀ (es : List (List Byte)), es ≠ [] →
      (∀ e ∈ es, sentinel <+: e ∧ ∀ k, 1 ≤ k → ¬ sentinel <+: e.drop k) →
      Framed es.flatten es := by
  intro es
  induction es with
  | nil => intro h; exact absurd rfl h
  | cons e es ih =>
    intro _ h
    have he := h e (List.mem_cons_self _ _)
    have hone : Framed e [e] := Framed.last (indexOf_eq_none he.2)
    cases es with
    | nil => simpa using hone
    | cons e' rest =>
      have hrest := ih (by simp) (fun x hx => h x (List.mem_cons_of_mem _ hx))
      have hene : e ≠ [] := by
        intro hnil
        rw [hnil] at he
        exact sentinel_ne_nil (List.prefix_nil.mp he.1)
      have hb : sentinel <+: (e' :: rest).flatten := by
        rw [List.flatten_cons]
        exact (h e' (by simp)).1.trans (List.prefix_append _ _)
      have := Framed.append hone hene hb hrest
      simpa using this

theorem Framed.nil_iff {sl : List (List Byte)} : Framed [] sl ↔ sl = [[]] := by
  have h0 : Framed [] [[]] := Framed.last (by decide)
  constructor
  · intro h; exact h.unique h0
  · rintro rfl; exact h0

/-- The last slice is what is left of the buffer at some position. -/
theorem Framed.getLast {buf : List Byte} {sl : List (List Byte)} (h : Framed buf sl) :
    ∃ p, p ≤ buf.length ∧ sl.getLast? = some (buf.drop p) := by
  induction h with
  | last _ => exact ⟨0, by omega, by simp⟩
  | @cut buf q sl hq hf ih =>
    obtain ⟨p, hp, hl⟩ := ih
    obtain ⟨_, hq2, _, _⟩ := indexOf_some hq
    rw [List.length_drop] at hp
    refine ⟨q + p, by omega, ?_⟩
    rw [List.getLast?_cons, hl, List.drop_drop]
    rfl

/-- In a buffer that is not empty no slice is empty. -/
theorem Framed.slices_ne_nil {buf : List Byte} {sl : List (List Byte)} (h : Framed buf sl)
    (hb : buf ≠ []) : ∀ s ∈ sl, s ≠ [] := by
  induction h with
  | last _ =>
    intro s hs
    simp only [List.mem_singleton] at hs
    subst hs
    exact hb
  | @cut buf q sl hq _ ih =>
    intro s hs
    obtain ⟨h1, h2, h3, _⟩ := indexOf_some hq
    rcases List.mem_cons.mp hs with rfl | hs
    · intro hnil
      have := congrArg List.length hnil
      rw [List.length_take] at this
      simp only [List.length_nil] at this
      omega
    · refine ih ?_ s hs
      intro hnil
      rw [hnil] at h3
      exact sentinel_ne_nil (List.prefix_nil.mp h3)

/-! ## `storeEntry` and its assertion -/

set_option maxRecDepth 100000

/-- The loop over the variables gets to its end exactly when every
variable has a type code. -/
theorem insertVariables_isSome (fails : Stmt → Bool) (traceentryId : Option Nat) :
    ∀ (vs : List Variable) (index : Nat) (acc : Table VariableCols × Option Nat),
      (insertVariables fails traceentryId vs index acc).isSome ↔
        ∀ v ∈ vs, v.type = VariableType.StringType := by
  intro vs
  induction vs with
  | nil => intro index acc; simp [insertVariables]
  | cons v vs ih =>
    intro index acc
    cases hv : v.type with
    | StringType => simp [insertVariables, hv, typeCode, ih]
    | other n => simp [insertVariables, hv, typeCode]

/-- `storeEntry` returns exactly for the entries whose variables all have
the type `StringType`, the condition of its assertion. -/
theorem storeEntry_isSome (s : Store) (e : TraceEntry) :
    (storeEntry s e).isSome ↔ ∀ v ∈ e.«variables», v.type = VariableType.StringType := by
  unfold storeEntry storeEntryWith
  simp only [Option.isSome_map']
  exact insertVariables_isSome _ _ _ _ _
/-! ## Framing: the claims -/

/-- C1: for every buffer delivered in one read, `handleIncomingData`
returns, and the slices it hands to the decoder (whatever the decoder does
with them) are a non-empty sequence whose concatenation, in order, is the
buffer; the last slice runs to the end of the buffer, and the empty buffer
gives the one empty slice. -/
theorem handleIncomingData_slices_concat (buf : List Byte) :
    ∃ slices, handedSlices buf = some slices ∧
      (∀ {σ : Type} (handle : σ → List Byte → σ) (st : σ),
        handleIncomingDataWith handle buf st = some (slices.foldl handle st)) ∧
      slices ≠ [] ∧ slices.flatten = buf ∧
      (∃ p, p ≤ buf.length ∧ slices.getLast? = some (buf.drop p)) ∧
      (buf = [] → slices = [[]]) := by
  obtain ⟨sl, hf, hl⟩ := handleIncomingDataWith_eq buf
  refine ⟨sl, handedSlices_of_framed hf, fun handle st => hl handle st, hf.ne_nil,
    hf.flatten, hf.getLast, ?_⟩
  rintro rfl
  exact Framed.nil_iff.mp hf

/-- C2: for every buffer, the cut points of `handleIncomingData` (the
lengths of what precedes each slice after the first) are exactly the
positions `c ≥ 1` at which the sentinel `<traceentry ` occurs in the
buffer; every slice other than the first begins with the sentinel, and no
slice holds the sentinel at an offset of 1 or more. -/
theorem handleIncomingData_cut_points (buf : List Byte) :
    ∃ slices, handedSlices buf = some slices ∧
      (∀ c, (∃ k, 0 < k ∧ k < slices.length ∧ c = ((slices.take k).flatten).length) ↔
        (1 ≤ c ∧ sentinel <+: buf.drop c)) ∧
      (∀ s ∈ slices.tail, sentinel <+: s) ∧
      (∀ s ∈ slices, ∀ k, 1 ≤ k → ¬ sentinel <+: s.drop k) := by
  obtain ⟨sl, hf, hs⟩ := handedSlices_framed buf
  exact ⟨sl, hs, hf.cuts, hf.tail_begin, hf.no_inner⟩

/-- C3: for every non-empty list of entries, each beginning with the
sentinel and holding it nowhere else, one read of their concatenation
makes `handleIncomingData` call the decoder once for each entry, with
exactly these entries in their order. -/
theorem handleIncomingData_entries (es : List (List Byte)) (hne : es ≠ [])
    (h : ∀ e ∈ es, sentinel <+: e ∧ ∀ k, 1 ≤ k → ¬ sentinel <+: e.drop k) :
    handedSlices es.flatten = some es ∧
      ∀ {σ : Type} (handle : σ → List Byte → σ) (st : σ),
        handleIncomingDataWith handle es.flatten st = some (es.foldl handle st) := by
  have hf := Framed.of_entries es hne h
  obtain ⟨sl, hf', hl⟩ := handleIncomingDataWith_eq es.flatten
  rw [hf'.unique hf] at hl
  exact ⟨handedSlices_of_framed hf, fun handle st => hl handle st⟩

/-- C3, at two entries in one read. -/
theorem handleIncomingData_entries_witness :
    handedSlices (bytes "<traceentry a/><traceentry b/>")
      = some [bytes "<traceentry a/>", bytes "<traceentry b/>"] :=
  (handleIncomingData_entries [bytes "<traceentry a/>", bytes "<traceentry b/>"]
    (by decide)
    (by
      intro e he
      have hcases : e = bytes "<traceentry a/>" ∨ e = bytes "<traceentry b/>" := by
        simpa using he
      rcases hcases with rfl | rfl
      · exact ⟨by decide, indexOf_none sentinel_ne_nil (by decide)⟩
      · exact ⟨by decide, indexOf_none sentinel_ne_nil (by decide)⟩)).1

/-- The slices of two successive reads are the slices of the first read
followed by those of the second. -/
theorem handedSlicesOfReads_two (r1 r2 : List Byte) :
    ∃ a b, handedSlices r1 = some a ∧ handedSlices r2 = some b ∧
      handedSlicesOfReads [r1, r2] [] = some (a ++ b) := by
  obtain ⟨a, ha, hla⟩ := handleIncomingDataWith_eq r1
  obtain ⟨b, hb, hlb⟩ := handleIncomingDataWith_eq r2
  refine ⟨a, b, handedSlices_of_framed ha, handedSlices_of_framed hb, ?_⟩
  simp [handedSlicesOfReads, hla, hlb, foldl_record]

/-- Two reads are framed as the one read of their bytes exactly when the
first read is not empty and the second begins with the sentinel. -/
theorem handedSlicesOfReads_two_eq_iff (r1 r2 : List Byte) :
    handedSlicesOfReads [r1, r2] [] = handedSlicesOfReads [r1 ++ r2] [] ↔
      (r1 ≠ [] ∧ sentinel <+: r2) := by
  obtain ⟨a, ha, hla⟩ := handleIncomingDataWith_eq r1
  obtain ⟨b, hb, hlb⟩ := handleIncomingDataWith_eq r2
  obtain ⟨c, hc, hlc⟩ := handleIncomingDataWith_eq (r1 ++ r2)
  have e1 : handedSlicesOfReads [r1, r2] [] = some (a ++ b) := by
    simp [handedSlicesOfReads, hla, hlb, foldl_record]
  have e2 : handedSlicesOfReads [r1 ++ r2] [] = some c := by
    simp [handedSlicesOfReads, hlc, foldl_record]
  rw [e1, e2]
  constructor
  · intro heq
    have heq : a ++ b = c := by simpa using heq
    have hr1 : r1 ≠ [] := by
      rintro rfl
      have ha' := Framed.nil_iff.mp ha
      have hcb : c = b := hc.unique (by simpa using hb)
      rw [ha', hcb] at heq
      have := congrArg List.length heq
      simp at this
    refine ⟨hr1, ?_⟩
    cases a with
    | nil => exact absurd rfl ha.ne_nil
    | cons a0 a' =>
      cases b with
      | nil => exact absurd rfl hb.ne_nil
      | cons b0 b' =>
        have hmem : b0 ∈ c.tail := by
          rw [← heq]
          simp
        have hpre : b0 <+: r2 := by
          have := hb.flatten
          rw [List.flatten_cons] at this
          exact ⟨_, this⟩
        exact (hc.tail_begin b0 hmem).trans hpre
  · rintro ⟨hr1, hr2⟩
    rw [(Framed.append ha hr1 hr2 hb).unique hc]

/-- C4: an entry that arrives in two reads is handed to the decoder as two
slices, one for each read, where the one read of the same bytes hands it
over as one slice. -/
theorem handleIncomingData_split_entry :
    handedSlicesOfReads [bytes "<traceentry pid=", bytes "'1'/>"] []
        = some [bytes "<traceentry pid=", bytes "'1'/>"] ∧
      handedSlicesOfReads [bytes "<traceentry pid=" ++ bytes "'1'/>"] []
        = some [bytes "<traceentry pid='1'/>"] := by
  decide

/-! ## Decimal numerals -/

/-- The value of a run of digits read after `acc`. -/
theorem digitsValue_eq_foldl :
    ∀ (cs : List Char) (acc : Nat), cs ≠ [] → (∀ c ∈ cs, c.isDigit = true) →
      digitsValue cs acc = some (cs.foldl (fun a c => a * 10 + (c.toNat - 48)) acc) := by
  intro cs
  induction cs with
  | nil => intro acc h; exact absurd rfl h
  | cons c cs ih =>
    intro acc _ hd
    have hc : c.isDigit = true := hd c (List.mem_cons_self _ _)
    cases cs with
    | nil => simp [digitsValue, hc]
    | cons d cs =>
      simp only [digitsValue, hc, if_true, List.foldl_cons]
      exact ih _ (by simp) (fun x hx => hd x (List.mem_cons_of_mem _ hx))

theorem digitChar_isDigit : ∀ k, k < 10 → (Nat.digitChar k).isDigit = true := by decide

theorem digitChar_toNat : ∀ k, k < 10 → (Nat.digitChar k).toNat - 48 = k := by decide

theorem toDigitsCore_isDigit :
    ∀ (fuel n : Nat) (ds : List Char), (∀ c ∈ ds, c.isDigit = true) →
      ∀ c ∈ Nat.toDigitsCore 10 fuel n ds, c.isDigit = true := by
  intro fuel
  induction fuel with
  | zero => intro n ds h; simpa [Nat.toDigitsCore] using h
  | succ fuel ih =>
    intro n ds h
    have hd : ∀ c ∈ Nat.digitChar (n % 10) :: ds, c.isDigit = true := by
      intro c hc
      rcases List.mem_cons.mp hc with rfl | hc
      · exact digitChar_isDigit _ (Nat.mod_lt _ (by omega))
      · exact h c hc
    simp only [Nat.toDigitsCore]
    split
    · exact hd
    · exact ih _ _ hd

theorem toDigitsCore_ne_nil :
    ∀ (fuel n : Nat) (ds : List Char), 0 < fuel → Nat.toDigitsCore 10 fuel n ds ≠ [] := by
  intro fuel
  induction fuel with
  | zero => intro n ds h; omega
  | succ fuel ih =>
    intro n ds _
    simp only [Nat.toDigitsCore]
    split
    · simp
    · rename_i hn
      cases fuel with
      | zero => simp [Nat.toDigitsCore]
      | succ fuel => exact ih _ _ (by omega)

theorem toDigitsCore_value :
    ∀ (fuel n : Nat) (ds : List Char), n < fuel →
      (Nat.toDigitsCore 10 fuel n ds).foldl (fun a c => a * 10 + (c.toNat - 48)) 0
        = ds.foldl (fun a c => a * 10 + (c.toNat - 48)) n := by
  intro fuel
  induction fuel with
  | zero => intro n ds h; omega
  | succ fuel ih =>
    intro n ds h
    simp only [Nat.toDigitsCore]
    split
    · rename_i h0
      have hn : n % 10 = n := Nat.mod_eq_of_lt (by omega)
      rw [List.foldl_cons, Nat.zero_mul, Nat.zero_add,
        digitChar_toNat _ (Nat.mod_lt n (by omega)), hn]
    · rename_i h0
      rw [ih (n / 10) _ (by omega)]
      simp only [List.foldl_cons, digitChar_toNat _ (Nat.mod_lt n (by omega))]
      congr 1
      omega

theorem dropWhile_of_all_false {p : Char → Bool} :
    ∀ (l : List Char), (∀ c ∈ l, p c = false) → l.dropWhile p = l := by
  intro l h
  cases l with
  | nil => rfl
  | cons a t => simp [List.dropWhile_cons, h a (List.mem_cons_self _ _)]

theorem isSpace_of_isDigit : ∀ c : Char, c.isDigit = true → isSpace c = false := by
  intro c h
  simp only [Char.isDigit, Bool.and_eq_true, decide_eq_true_eq] at h
  have h1 : 48 ≤ c.toNat := by
    have := h.1
    simpa [Char.toNat, UInt32.le_def, Fin.le_def] using this
  have h2 : c.toNat ≤ 57 := by
    have := h.2
    simpa [Char.toNat, UInt32.le_def, Fin.le_def] using this
  simp [isSpace]
  omega

theorem trimmed_of_digits (ds : List Char) (h : ∀ c ∈ ds, c.isDigit = true) :
    trimmed ds = ds := by
  unfold trimmed
  rw [dropWhile_of_all_false ds (fun c hc => isSpace_of_isDigit c (h c hc)),
    dropWhile_of_all_false ds.reverse
      (fun c hc => isSpace_of_isDigit c (h c (List.mem_reverse.mp hc))),
    List.reverse_reverse]

/-- A decimal numeral, as printed for a natural number, is read back as
that number. -/
theorem unsignedValue_toString (n : Nat) : unsignedValue (toString n) = some n := by
  have hl : (toString n).toList = Nat.toDigits 10 n := rfl
  have hdig : ∀ c ∈ Nat.toDigits 10 n, c.isDigit = true :=
    toDigitsCore_isDigit _ _ _ (by simp)
  have hne : Nat.toDigits 10 n ≠ [] := toDigitsCore_ne_nil _ _ _ (by omega)
  have hval : digitsValue (Nat.toDigits 10 n) 0 = some n := by
    rw [digitsValue_eq_foldl _ _ hne hdig]
    unfold Nat.toDigits
    rw [toDigitsCore_value _ _ _ (by omega)]
    rfl
  unfold unsignedValue
  rw [hl, trimmed_of_digits _ hdig]
  split
  · rename_i cs heq
    have := hdig '+' (by rw [heq]; exact List.mem_cons_self _ _)
    exact absurd this (by decide)
  · exact hval

theorem toUInt_toString (n : Nat) (h : n < 2 ^ 32) : toUInt (toString n) = n := by
  unfold toUInt
  rw [unsignedValue_toString]
  exact if_pos h

theorem toULong_toString (n : Nat) (h : n < 2 ^ 64) : toULong (toString n) = n := by
  unfold toULong
  rw [unsignedValue_toString]
  exact if_pos h

/-! ## The texts of the statements: `arg` and the reading of literals -/

theorem scan_plain_append (p rest : List Char) (hp : ∀ c ∈ p, c ≠ '%') :
    scan .plain (p ++ rest) = (scan .plain rest).map (fun ps => p.map Piece.char ++ ps) := by
  induction p with
  | nil => simp
  | cons c p ih =>
    have hc : c ≠ '%' := hp c (List.mem_cons_self _ _)
    have ih1 := ih (fun x hx => hp x (List.mem_cons_of_mem _ hx))
    have hs : scan .plain (c :: (p ++ rest))
        = (scan .plain (p ++ rest)).map (fun ps => Piece.char c :: ps) := by
      simp [scan, hc]
    rw [List.cons_append, hs, ih1, Option.map_map]
    rfl

theorem lowest_map_char (p : List Char) (ps : List Piece) :
    lowest (p.map Piece.char ++ ps) = lowest ps := by
  induction p with
  | nil => rfl
  | cons c p ih => simpa [lowest] using ih

theorem flatMap_replaced_map_char (m : Nat) (a p : List Char) (ps : List Piece) :
    (p.map Piece.char ++ ps).flatMap (Piece.replaced m a)
      = p ++ ps.flatMap (Piece.replaced m a) := by
  induction p with
  | nil => rfl
  | cons c p ih => simp [List.flatMap_cons, Piece.replaced, ih]

theorem any_isLocale_map_char (m : Nat) (p : List Char) (ps : List Piece) :
    (p.map Piece.char ++ ps).any (Piece.isLocale m) = ps.any (Piece.isLocale m) := by
  induction p with
  | nil => rfl
  | cons c p ih => simp [Piece.isLocale]

/-- A text without `%` before the first place marker stays as it is under
`arg`. -/
theorem argText_append (p rest a : List Char) (hp : ∀ c ∈ p, c ≠ '%')
    (hrest : ((scan .plain rest).bind lowest).isSome = true) :
    argText (p ++ rest) a = (argText rest a).map (fun r => p ++ r) := by
  unfold argText
  rw [scan_plain_append p rest hp]
  cases h : scan .plain rest with
  | none => rfl
  | some ps =>
    have hl : lowest ps ≠ none := by
      intro hn
      simp [h, hn] at hrest
    simp only [Option.map_some', lowest_map_char]
    cases hm : lowest ps with
    | none => exact absurd hm hl
    | some m => simp only [flatMap_replaced_map_char]

theorem argNumber_append (p rest : List Char) (n : Nat) (hp : ∀ c ∈ p, c ≠ '%')
    (hrest : ((scan .plain rest).bind lowest).isSome = true) :
    argNumber (p ++ rest) n = (argNumber rest n).map (fun r => p ++ r) := by
  unfold argNumber
  rw [scan_plain_append p rest hp]
  cases h : scan .plain rest with
  | none => rfl
  | some ps =>
    have hl : lowest ps ≠ none := by
      intro hn
      simp [h, hn] at hrest
    simp only [Option.map_some', Option.some_bind, Option.bind_eq_bind, lowest_map_char]
    cases hm : lowest ps with
    | none => exact absurd hm hl
    | some m =>
      simp only [any_isLocale_map_char, flatMap_replaced_map_char]
      split <;> simp

/-- One call of `arg` with a number on a text whose part before the first
place marker holds no `%`. -/
theorem argNumber_step (p rest b r : List Char) (n : Nat) (hp : ∀ c ∈ p, c ≠ '%')
    (hrest : ((scan .plain rest).bind lowest).isSome = true)
    (h : argNumber rest n = some ((toString n).toList ++ (b ++ r))) :
    argNumber (p ++ rest) n = some ((p ++ ((toString n).toList ++ b)) ++ r) := by
  rw [argNumber_append p rest n hp hrest, h]
  simp [List.append_assoc]

/-- One call of `arg` with a text on a text whose part before the first
place marker holds no `%`. -/
theorem argText_step (p rest b r a : List Char) (hp : ∀ c ∈ p, c ≠ '%')
    (hrest : ((scan .plain rest).bind lowest).isSome = true)
    (h : argText rest a = some (a ++ (b ++ r))) :
    argText (p ++ rest) a = some ((p ++ (a ++ b)) ++ r) := by
  rw [argText_append p rest a hp hrest, h]
  simp [List.append_assoc]

theorem toString_isDigit (n : Nat) : ∀ c ∈ (toString n).toList, c.isDigit = true :=
  toDigitsCore_isDigit _ _ _ (by simp)

theorem toString_ne_nil (n : Nat) : (toString n).toList ≠ [] :=
  toDigitsCore_ne_nil _ _ _ (by omega)

theorem digitsValue_toString (n : Nat) : digitsValue (toString n).toList 0 = some n := by
  have h := unsignedValue_toString n
  unfold unsignedValue at h
  rw [trimmed_of_digits _ (toString_isDigit n)] at h
  split at h
  · rename_i cs heq
    have := toString_isDigit n '+' (by rw [heq]; exact List.mem_cons_self _ _)
    exact absurd this (by decide)
  · exact h

/-- A character that is neither `%` nor the apostrophe. -/
theorem isDigit_plain (c : Char) (h : c.isDigit = true) : c ≠ '%' ∧ c ≠ apostrophe := by
  constructor
  · rintro rfl; exact absurd h (by decide)
  · rintro rfl; exact absurd h (by decide)

theorem toString_plain (n : Nat) : ∀ c ∈ (toString n).toList, c ≠ '%' ∧ c ≠ apostrophe :=
  fun c hc => isDigit_plain c (toString_isDigit n c hc)

theorem append_plain (x y : String) (hx : ∀ c ∈ x.toList, c ≠ '%' ∧ c ≠ apostrophe)
    (hy : ∀ c ∈ y.toList, c ≠ '%' ∧ c ≠ apostrophe) :
    ∀ c ∈ (x ++ y).toList, c ≠ '%' ∧ c ≠ apostrophe := by
  intro c hc
  rw [String.toList, String.data_append, List.mem_append] at hc
  rcases hc with hc | hc
  · exact hx c hc
  · exact hy c hc

theorem twoDigits_plain (n : Nat) : ∀ c ∈ (twoDigits n).toList, c ≠ '%' ∧ c ≠ apostrophe := by
  unfold twoDigits
  split
  · exact append_plain _ _ (by decide) (toString_plain n)
  · exact toString_plain n

theorem fourDigits_plain (n : Nat) :
    ∀ c ∈ (fourDigits n).toList, c ≠ '%' ∧ c ≠ apostrophe := by
  unfold fourDigits
  split
  · exact append_plain _ _ (by decide) (toString_plain n)
  · split
    · exact append_plain _ _ (by decide) (toString_plain n)
    · split
      · exact append_plain _ _ (by decide) (toString_plain n)
      · exact toString_plain n

theorem dateText_plain (y mo d h mi sec : Nat) :
    ∀ c ∈ (fourDigits y ++ "-" ++ twoDigits mo ++ "-" ++ twoDigits d ++ "T"
        ++ twoDigits h ++ ":" ++ twoDigits mi ++ ":" ++ twoDigits sec).toList,
      c ≠ '%' ∧ c ≠ apostrophe :=
  append_plain _ _ (append_plain _ _ (append_plain _ _ (append_plain _ _
    (append_plain _ _ (append_plain _ _ (append_plain _ _ (append_plain _ _
      (append_plain _ _ (append_plain _ _ (fourDigits_plain y) (by decide))
        (twoDigits_plain mo)) (by decide)) (twoDigits_plain d)) (by decide))
          (twoDigits_plain h)) (by decide)) (twoDigits_plain mi)) (by decide))
            (twoDigits_plain sec)

/-- The ISO date holds neither a `%` nor an apostrophe. -/
theorem isoDate_plain (seconds : Nat) :
    ∀ c ∈ (isoDate seconds).toList, c ≠ '%' ∧ c ≠ apostrophe :=
  dateText_plain _ _ _ _ _ _

theorem dropSegment_append (seg rest : List Char) : dropSegment seg (seg ++ rest) = some rest := by
  induction seg with
  | nil => cases rest <;> rfl
  | cons c seg ih => simp [dropSegment, ih]

theorem flatMap_apostrophe (l : List Char) :
    (apostrophe :: l).flatMap (fun c => if c = apostrophe then [c, c] else [c])
      = apostrophe :: apostrophe
          :: l.flatMap (fun c => if c = apostrophe then [c, c] else [c]) := by
  simp [List.flatMap_cons]

theorem flatMap_other (c : Char) (l : List Char) (hc : c ≠ apostrophe) :
    (c :: l).flatMap (fun c => if c = apostrophe then [c, c] else [c])
      = c :: l.flatMap (fun c => if c = apostrophe then [c, c] else [c]) := by
  simp [List.flatMap_cons, hc]

/-- The text written by `formatValue` is read back as it was, up to the
closing apostrophe. -/
theorem lexString_escaped (d : Char) (rest : List Char) (hd : d ≠ apostrophe) :
    ∀ (l acc : List Char),
      lexString
          (l.flatMap (fun c => if c = apostrophe then [c, c] else [c])
            ++ apostrophe :: d :: rest) acc
        = some (acc.reverse ++ l, d :: rest) := by
  intro l
  induction l with
  | nil =>
    intro acc
    simp [lexString, hd]
  | cons c l ih =>
    intro acc
    by_cases hc : c = apostrophe
    · subst hc
      rw [flatMap_apostrophe, List.cons_append, List.cons_append, lexString]
      simp only [if_true]
      rw [ih]
      simp
    · rw [flatMap_other c l hc, List.cons_append]
      cases hx : l.flatMap (fun c => if c = apostrophe then [c, c] else [c])
          ++ apostrophe :: d :: rest with
      | nil => simp at hx
      | cons x xs =>
        rw [lexString]
        simp only [hc, if_false]
        rw [← hx, ih]
        simp

theorem lexLiteral_string (s : String) (d : Char) (rest : List Char) (hd : d ≠ apostrophe) :
    lexLiteral (formatValue (some s) ++ d :: rest) = some (.string s, d :: rest) := by
  have h := lexString_escaped d rest hd s.toList []
  have hf : formatValue (some s) ++ d :: rest
      = apostrophe :: (s.toList.flatMap (fun c => if c = apostrophe then [c, c] else [c])
          ++ apostrophe :: d :: rest) := by
    simp [formatValue]
  rw [hf, lexLiteral]
  simp only [if_true]
  rw [h]
  rfl

theorem takeWhile_digits (ds : List Char) (d : Char) (rest : List Char)
    (hds : ∀ c ∈ ds, c.isDigit = true) (hd : d.isDigit = false) :
    (ds ++ d :: rest).takeWhile Char.isDigit = ds ∧
      (ds ++ d :: rest).dropWhile Char.isDigit = d :: rest := by
  induction ds with
  | nil => simp [List.takeWhile, List.dropWhile, hd]
  | cons c ds ih =>
    have hc := hds c (List.mem_cons_self _ _)
    have ih1 := ih (fun x hx => hds x (List.mem_cons_of_mem _ hx))
    simp [List.takeWhile, List.dropWhile, hc, ih1]

theorem lexLiteral_number (n : Nat) (d : Char) (rest : List Char) (hd : d.isDigit = false) :
    lexLiteral ((toString n).toList ++ d :: rest) = some (.number n, d :: rest) := by
  have hds := toString_isDigit n
  have hv := digitsValue_toString n
  obtain ⟨h1, h2⟩ := takeWhile_digits _ d rest hds hd
  cases hl : (toString n).toList with
  | nil => exact absurd hl (toString_ne_nil n)
  | cons c cs =>
    rw [hl] at h1 h2 hv hds
    have hc : c.isDigit = true := hds c (List.mem_cons_self _ _)
    have hca : c ≠ apostrophe := (isDigit_plain c hc).2
    simp only [List.cons_append] at h1 h2 ⊢
    simp only [lexLiteral, hca, if_false, hc, if_true, h1, h2, hv, Option.map_some']

/-- A numeral before a segment of the template. -/
theorem readLiterals_number (n : Nat) (seg : List Char) (segs : List (List Char))
    (rest : List Char) (hd : seg.head?.map Char.isDigit = some false) :
    readLiterals (seg :: segs) ((toString n).toList ++ (seg ++ rest))
      = (readLiterals segs rest).map (fun ls => .number n :: ls) := by
  cases seg with
  | nil => simp at hd
  | cons d seg =>
    have hd1 : d.isDigit = false := by simpa using hd
    rw [readLiterals, List.cons_append, lexLiteral_number n d _ hd1]
    simp only [Option.some_bind]
    rw [← List.cons_append, dropSegment_append]
    rfl

/-- A text written by `formatValue` before a segment of the template. -/
theorem readLiterals_string (s : String) (seg : List Char) (segs : List (List Char))
    (rest : List Char)
    (hd : seg.head?.map (fun c => decide (c = apostrophe)) = some false) :
    readLiterals (seg :: segs) (formatValue (some s) ++ (seg ++ rest))
      = (readLiterals segs rest).map (fun ls => .string s :: ls) := by
  cases seg with
  | nil => simp at hd
  | cons d seg =>
    have hd1 : d ≠ apostrophe := by simpa using hd
    rw [readLiterals, List.cons_append, lexLiteral_string s d _ hd1]
    simp only [Option.some_bind]
    rw [← List.cons_append, dropSegment_append]
    rfl

theorem readLiterals_nil : readLiterals [] [] = some [] := rfl

theorem flatMap_plain (l : List Char) (h : ∀ c ∈ l, c ≠ '%' ∧ c ≠ apostrophe) :
    l.flatMap (fun c => if c = apostrophe then [c, c] else [c]) = l := by
  induction l with
  | nil => rfl
  | cons c l ih =>
    have hc := (h c (List.mem_cons_self _ _)).2
    simp [List.flatMap_cons, hc, ih (fun x hx => h x (List.mem_cons_of_mem _ hx))]

/-- The time stamp is written as `formatValue` writes the text of its ISO
date. -/
theorem formatValueDateTime_eq (seconds : Nat) :
    formatValueDateTime seconds = formatValue (some (isoDate seconds)) := by
  simp only [formatValueDateTime, formatValue, flatMap_plain _ (isoDate_plain seconds)]

theorem formatValue_plain (s : String) (h : ∀ c ∈ s.toList, c ≠ '%' ∧ c ≠ apostrophe) :
    ∀ c ∈ formatValue (some s), c ≠ '%' := by
  intro c hc
  simp only [formatValue, flatMap_plain _ h, List.cons_append, List.mem_cons,
    List.mem_append, List.mem_singleton] at hc
  rcases hc with hc | hc | hc
  · subst hc; decide
  · exact (h c hc).1
  · rcases hc with hc | hc
    · subst hc; decide
    · simp at hc

theorem append_no_percent (x y : List Char) (hx : ∀ c ∈ x, c ≠ '%') (hy : ∀ c ∈ y, c ≠ '%') :
    ∀ c ∈ x ++ y, c ≠ '%' := by
  intro c hc
  rcases List.mem_append.mp hc with hc | hc
  · exact hx c hc
  · exact hy c hc

theorem toString_no_percent (n : Nat) : ∀ c ∈ (toString n).toList, c ≠ '%' :=
  fun c hc => (toString_plain n c hc).1

/-! ## The statements of the scenario entry -/

theorem Statement.arg_text (q : Statement) (a t t1 : List Char) (h : q.text = some t)
    (ha : argText t a = some t1) : (q.arg a).text = some t1 := by
  simp [Statement.arg, h, ha]

theorem Statement.argNumber_text (q : Statement) (n : Nat) (t t1 : List Char)
    (h : q.text = some t) (ha : Tracer.argNumber t n = some t1) :
    (q.argNumber (some n)).text = some t1 := by
  simp [Statement.argNumber, h, ha]

theorem Statement.literals_eq (q : Statement) (t seg : List Char) (segs : List (List Char))
    (h : q.text = some t) (hs : segments q.template = seg :: segs) :
    q.literals = (dropSegment seg t).bind (readLiterals segs) := by
  simp [Statement.literals, h, hs]

/-- The literals of the `SELECT` on `trace_point` for an entry of verbosity
1, the ids of its path and of its function being 1. -/
theorem tracePointSelect_literals (e : TraceEntry) (hv : e.verbosity = 1) :
    (tracePointSelect (some 1) (some 1) e).literals
      = some [.number 1, .number e.type, .number 1, .number e.lineno, .number 1] := by
  have h1 : argNumber ("SELECT id FROM trace_point WHERE verbosity=%1 AND type=%2 AND "
      ++ "path_id=%3 AND line=%4 AND function_id=%5;").toList 1
      = some (("SELECT id FROM trace_point WHERE verbosity=".toList
          ++ ((toString 1).toList ++ " AND type=".toList))
        ++ "%2 AND path_id=%3 AND line=%4 AND function_id=%5;".toList) :=
    argNumber_step "SELECT id FROM trace_point WHERE verbosity=".toList
      "%1 AND type=%2 AND path_id=%3 AND line=%4 AND function_id=%5;".toList
      " AND type=".toList "%2 AND path_id=%3 AND line=%4 AND function_id=%5;".toList 1
      (by decide) (by decide) rfl
  have p1 : ∀ c ∈ "SELECT id FROM trace_point WHERE verbosity=".toList
      ++ ((toString 1).toList ++ " AND type=".toList), c ≠ '%' := by decide
  have h2 := argNumber_step _ "%2 AND path_id=%3 AND line=%4 AND function_id=%5;".toList
    " AND path_id=".toList "%3 AND line=%4 AND function_id=%5;".toList e.type p1
    (by decide) rfl
  have p2 := append_no_percent _ _ p1
    (append_no_percent _ " AND path_id=".toList (toString_no_percent e.type) (by decide))
  have h3 := argNumber_step _ "%3 AND line=%4 AND function_id=%5;".toList
    " AND line=".toList "%4 AND function_id=%5;".toList 1 p2 (by decide) rfl
  have p3 := append_no_percent _ _ p2
    (append_no_percent _ " AND line=".toList (toString_no_percent 1) (by decide))
  have h4 := argNumber_step _ "%4 AND function_id=%5;".toList
    " AND function_id=".toList "%5;".toList e.lineno p3 (by decide) rfl
  have p4 := append_no_percent _ _ p3
    (append_no_percent _ " AND function_id=".toList (toString_no_percent e.lineno)
      (by decide))
  have h5 := argNumber_step _ "%5;".toList ";".toList [] 1 p4 (by decide) rfl
  have hseg : segments ("SELECT id FROM trace_point WHERE verbosity=%1 AND type=%2 AND "
      ++ "path_id=%3 AND line=%4 AND function_id=%5;")
      = ["SELECT id FROM trace_point WHERE verbosity=".toList, " AND type=".toList,
         " AND path_id=".toList, " AND line=".toList, " AND function_id=".toList,
         ";".toList] := by decide
  unfold tracePointSelect
  rw [hv]
  have t1 := Statement.argNumber_text (statement ("SELECT id FROM trace_point WHERE verbosity=%1 AND type=%2 AND "
    ++ "path_id=%3 AND line=%4 AND function_id=%5;")) 1 _ _ rfl h1
  have t2 := Statement.argNumber_text _ e.type _ _ t1 h2
  have t3 := Statement.argNumber_text _ 1 _ _ t2 h3
  have t4 := Statement.argNumber_text _ e.lineno _ _ t3 h4
  have t5 := Statement.argNumber_text _ 1 _ _ t4 h5
  rw [Statement.literals_eq _ _ _ _ t5 hseg]
  simp only [List.append_assoc]
  rw [dropSegment_append, Option.some_bind,
    readLiterals_number _ _ _ _ (by decide), readLiterals_number _ _ _ _ (by decide),
    readLiterals_number _ _ _ _ (by decide), readLiterals_number _ _ _ _ (by decide),
    readLiterals_number _ _ _ _ (by decide), readLiterals_nil]
  rfl

/-- The literals of the `INSERT` on `trace_point` for such an entry. -/
theorem tracePointInsert_literals (e : TraceEntry) (hv : e.verbosity = 1) :
    (tracePointInsert (some 1) (some 1) e).literals
      = some [.number 1, .number e.type, .number 1, .number e.lineno, .number 1] := by
  have h1 : argNumber "INSERT INTO trace_point VALUES(NULL, %1, %2, %3, %4, %5);".toList 1
      = some (("INSERT INTO trace_point VALUES(NULL, ".toList
          ++ ((toString 1).toList ++ ", ".toList)) ++ "%2, %3, %4, %5);".toList) :=
    argNumber_step "INSERT INTO trace_point VALUES(NULL, ".toList
      "%1, %2, %3, %4, %5);".toList ", ".toList "%2, %3, %4, %5);".toList 1
      (by decide) (by decide) rfl
  have p1 : ∀ c ∈ "INSERT INTO trace_point VALUES(NULL, ".toList
      ++ ((toString 1).toList ++ ", ".toList), c ≠ '%' := by decide
  have h2 := argNumber_step _ "%2, %3, %4, %5);".toList ", ".toList "%3, %4, %5);".toList
    e.type p1 (by decide) rfl
  have p2 := append_no_percent _ _ p1
    (append_no_percent _ ", ".toList (toString_no_percent e.type) (by decide))
  have h3 := argNumber_step _ "%3, %4, %5);".toList ", ".toList "%4, %5);".toList 1 p2
    (by decide) rfl
  have p3 := append_no_percent _ _ p2
    (append_no_percent _ ", ".toList (toString_no_percent 1) (by decide))
  have h4 := argNumber_step _ "%4, %5);".toList ", ".toList "%5);".toList e.lineno p3
    (by decide) rfl
  have p4 := append_no_percent _ _ p3
    (append_no_percent _ ", ".toList (toString_no_percent e.lineno) (by decide))
  have h5 := argNumber_step _ "%5);".toList ");".toList [] 1 p4 (by decide) rfl
  have hseg : segments "INSERT INTO trace_point VALUES(NULL, %1, %2, %3, %4, %5);"
      = ["INSERT INTO trace_point VALUES(NULL, ".toList, ", ".toList, ", ".toList,
         ", ".toList, ", ".toList, ");".toList] := by decide
  unfold tracePointInsert
  rw [hv]
  have t1 := Statement.argNumber_text (statement "INSERT INTO trace_point VALUES(NULL, %1, %2, %3, %4, %5);") 1 _ _ rfl h1
  have t2 := Statement.argNumber_text _ e.type _ _ t1 h2
  have t3 := Statement.argNumber_text _ 1 _ _ t2 h3
  have t4 := Statement.argNumber_text _ e.lineno _ _ t3 h4
  have t5 := Statement.argNumber_text _ 1 _ _ t4 h5
  rw [Statement.literals_eq _ _ _ _ t5 hseg]
  simp only [List.append_assoc]
  rw [dropSegment_append, Option.some_bind,
    readLiterals_number _ _ _ _ (by decide), readLiterals_number _ _ _ _ (by decide),
    readLiterals_number _ _ _ _ (by decide), readLiterals_number _ _ _ _ (by decide),
    readLiterals_number _ _ _ _ (by decide), readLiterals_nil]
  rfl

/-- The literals of the `INSERT` on `trace_entry` for an entry with a
message that is not null, its thread and its trace point having the id
1. -/
theorem traceEntryInsert_literals (e : TraceEntry) (message : String)
    (hm : e.message = some message) :
    (traceEntryInsert (some 1) (some 1) e).literals
      = some [.number 1, .string (isoDate e.timestamp), .number 1, .string message] := by
  unfold traceEntryInsert
  rw [formatValueDateTime_eq, hm]
  have hplain := formatValue_plain (isoDate e.timestamp) (isoDate_plain e.timestamp)
  generalize isoDate e.timestamp = date at hplain ⊢
  have h1 : argNumber "INSERT INTO trace_entry VALUES(NULL, %1, %2, %3, %4)".toList 1
      = some (("INSERT INTO trace_entry VALUES(NULL, ".toList
          ++ ((toString 1).toList ++ ", ".toList)) ++ "%2, %3, %4)".toList) :=
    argNumber_step "INSERT INTO trace_entry VALUES(NULL, ".toList
      "%1, %2, %3, %4)".toList ", ".toList "%2, %3, %4)".toList 1
      (by decide) (by decide) rfl
  have p1 : ∀ c ∈ "INSERT INTO trace_entry VALUES(NULL, ".toList
      ++ ((toString 1).toList ++ ", ".toList), c ≠ '%' := by decide
  have a2 : ∀ a : List Char, argText "%2, %3, %4)".toList a
      = some (a ++ (", ".toList ++ "%3, %4)".toList)) := fun _ => rfl
  have a4 : ∀ a : List Char, argText "%4)".toList a = some (a ++ (")".toList ++ [])) :=
    fun _ => rfl
  have h2 := argText_step _ "%2, %3, %4)".toList ", ".toList "%3, %4)".toList
    (formatValue (some date)) p1 (by decide) (a2 _)
  have p2 := append_no_percent _ _ p1 (append_no_percent _ ", ".toList hplain (by decide))
  have h3 := argNumber_step _ "%3, %4)".toList ", ".toList "%4)".toList 1 p2
    (by decide) rfl
  have p3 := append_no_percent _ _ p2
    (append_no_percent _ ", ".toList (toString_no_percent 1) (by decide))
  have h4 := argText_step _ "%4)".toList ")".toList [] (formatValue (some message)) p3
    (by decide) (a4 _)
  have hseg : segments "INSERT INTO trace_entry VALUES(NULL, %1, %2, %3, %4)"
      = ["INSERT INTO trace_entry VALUES(NULL, ".toList, ", ".toList, ", ".toList,
         ", ".toList, ")".toList] := by decide
  have t1 := Statement.argNumber_text
    (statement "INSERT INTO trace_entry VALUES(NULL, %1, %2, %3, %4)") 1 _ _ rfl h1
  have t2 := Statement.arg_text _ _ _ _ t1 h2
  have t3 := Statement.argNumber_text _ 1 _ _ t2 h3
  have t4 := Statement.arg_text _ _ _ _ t3 h4
  rw [Statement.literals_eq _ _ _ _ t4 hseg]
  simp only [List.append_assoc]
  rw [dropSegment_append, Option.some_bind,
    readLiterals_number _ _ _ _ (by decide), readLiterals_string _ _ _ _ (by decide),
    readLiterals_number _ _ _ _ (by decide), readLiterals_string _ _ _ _ (by decide),
    readLiterals_nil]
  rfl
/-! ## Storage: the claims -/

theorem storeEntry_fresh_hello : storeEntry Store.fresh helloEntry = some helloStore := by
  decide

/-- Handling the slices one after the other is handling those that
parse. -/
theorem foldl_handleSlice_filter (setContent : List Byte → Option QDomNode)
    (unassigned : VariableType) (sl : List (List Byte)) (st : Option Server) :
    sl.foldl (handleSlice setContent unassigned) st
      = (sl.filter (fun d => (setContent d).isSome)).foldl
          (handleSlice setContent unassigned) st := by
  induction sl generalizing st with
  | nil => rfl
  | cons s sl ih =>
    cases hs : setContent s with
    | none =>
      have hstep : handleSlice setContent unassigned st s = st := by
        cases st with
        | none => rfl
        | some srv => simp [handleSlice, handleTraceEntryXMLData, hs]
      simp only [List.foldl_cons, hstep, List.filter_cons, hs, Option.isSome_none,
        Bool.false_eq_true, if_false]
      exact ih st
    | some d =>
      simp only [List.foldl_cons, List.filter_cons, hs, Option.isSome_some, if_true]
      exact ih _

/-- C5: a slice that fails XML parsing leaves the server as it is (no
table of the store changes, no `traceEntryReceived` is emitted), and for
every buffer `handleIncomingData` returns with the server in the state
reached by handling, in order, only the slices of the buffer that
parse. -/
theorem handleIncomingData_bad_slice (setContent : List Byte → Option QDomNode)
    (unassigned : VariableType) :
    (∀ (srv : Server) (data : List Byte), setContent data = none →
      handleTraceEntryXMLData setContent unassigned srv data = some srv) ∧
    (∀ (srv : Server) (buf : List Byte), ∃ slices, handedSlices buf = some slices ∧
      handleIncomingData setContent unassigned srv buf
        = some ((slices.filter (fun d => (setContent d).isSome)).foldl
            (handleSlice setContent unassigned) (some srv))) := by
  constructor
  · intro srv data h
    simp [handleTraceEntryXMLData, h]
  · intro srv buf
    obtain ⟨sl, hf, hl⟩ := handleIncomingDataWith_eq buf
    refine ⟨sl, handedSlices_of_framed hf, ?_⟩
    unfold handleIncomingData
    rw [hl, foldl_handleSlice_filter]

/-- C6: the entry decoded from an element without a `<function>` child has
the null string as its function; `formatValue` writes it as `NULL`, and the
`SELECT` with `WHERE name=NULL` finds no row. Stored twice in succession
into a fresh database, the entry leaves one row `(1, NULL)` in
`function_name` after the first store and the two rows `(1, NULL)` and
`(2, NULL)` after the second, and `trace_point` gains a second row as
well: the dimension tables after the second store are not what they were
after the first. -/
theorem storeEntry_null_function_twice :
    (∀ unassigned, deserializeTraceEntry unassigned (toElement (some noFunctionElement))
      = noFunctionEntry) ∧
    (functionNameSelect noFunctionEntry).text
      = some "SELECT id FROM function_name WHERE name=NULL;".toList ∧
    storeEntryTimes 1 Store.fresh noFunctionEntry = some noFunctionStore ∧
    storeEntryTimes 2 Store.fresh noFunctionEntry = some noFunctionStoreTwice ∧
    noFunctionStore.function_name = some [{ id := 1, cols := none }] ∧
    noFunctionStoreTwice.function_name
      = some [{ id := 1, cols := none }, { id := 2, cols := none }] ∧
    noFunctionStoreTwice.trace_point ≠ noFunctionStore.trace_point := by
  refine ⟨fun _ => rfl, ?_, ?_, ?_, rfl, rfl, ?_⟩ <;> decide

/-- C7: dimension uniqueness is lost by `storeEntry` on an entry whose
function is the null string: the store that holds the entry once has no
two rows of the same content in any dimension table, and after that entry
is stored again `function_name` holds the two rows `(1, NULL)` and
`(2, NULL)`, of the same content. -/
theorem storeEntry_dimensionsUnique_lost :
    noFunctionStore.DimensionsUnique ∧
    storeEntry noFunctionStore noFunctionEntry = some noFunctionStoreTwice ∧
    ¬ noFunctionStoreTwice.DimensionsUnique := by
  refine ⟨?_, by decide, ?_⟩
  · simp [Store.DimensionsUnique, UniqueContent, noFunctionStore]
  · simp [Store.DimensionsUnique, UniqueContent, noFunctionStoreTwice]

/-- C8: the entry of a process named `%2` with the pid 2524: the second
`arg` of the chain puts the pid in the place of the name, the statements
on `process` are written with `'2524'`, and the `process` row that the new
`trace_entry` row references through its `traced_thread` row holds the
name `2524`, not the process name of the entry; no row of `process` holds
that name. And for the entry hit at line `2^63 + 1` the `trace_point` row
holds a REAL, read from the numeral of the line, not the line. -/
theorem storeEntry_marker_in_processName :
    (processSelect markerProcessEntry).text
      = some "SELECT id FROM process WHERE name='2524' AND pid=2524;".toList ∧
    (processInsert markerProcessEntry).text
      = some "INSERT INTO process VALUES(NULL, '2524', 2524);".toList ∧
    storeEntry Store.fresh markerProcessEntry
      = some { helloStore with
               process := some [{ id := 1, cols := { name := some "2524", pid := 2524 } }] } ∧
    markerProcessEntry.processName = some "%2" ∧
    (storeEntry Store.fresh { helloEntry with lineno := 2 ^ 63 + 1 }).map
        (fun s => s.trace_point)
      = some (some [{ id := 1,
                      cols := { verbosity := 1, type := 1, path_id := 1,
                                line := .real 9223372036854775809, function_id := 1 } }]) := by
  decide

/-- C9: with the `INSERT INTO variable` of the scenario entry failing,
`storeEntry` on a fresh database returns as after a success: the rows
written by the statements before the failure stay in the dimension tables
and in `trace_entry`, the `variable` row is missing, nothing is rolled
back and no error reaches the caller. -/
theorem storeEntryWith_failure_committed :
    storeEntryWith (fun st => decide (st = Stmt.insertVariable 0)) Store.fresh helloEntry
      = some { helloStore with «variable» := some [] } ∧
    { helloStore with «variable» := some [] } ≠ Store.fresh := by
  decide

theorem pathNameSelect_cols (e : TraceEntry) (h : e.path = some "main.cpp") :
    (pathNameSelect e).literals.bind nameOfLiterals = some (some "main.cpp") := by
  unfold pathNameSelect
  rw [h]
  decide

theorem pathNameInsert_cols (e : TraceEntry) (h : e.path = some "main.cpp") :
    (pathNameInsert e).literals.bind nameOfLiterals = some (some "main.cpp") := by
  unfold pathNameInsert
  rw [h]
  decide

theorem functionNameSelect_cols (e : TraceEntry) (h : e.function = some "int main()") :
    (functionNameSelect e).literals.bind nameOfLiterals = some (some "int main()") := by
  unfold functionNameSelect
  rw [h]
  decide

theorem functionNameInsert_cols (e : TraceEntry) (h : e.function = some "int main()") :
    (functionNameInsert e).literals.bind nameOfLiterals = some (some "int main()") := by
  unfold functionNameInsert
  rw [h]
  decide

theorem processSelect_cols (e : TraceEntry) (h : e.processName = some "hello_instrumented")
    (hp : e.pid = 2524) :
    (processSelect e).literals.bind ProcessCols.ofLiterals
      = some { name := some "hello_instrumented", pid := 2524 } := by
  unfold processSelect
  rw [h, hp]
  decide

theorem processInsert_cols (e : TraceEntry) (h : e.processName = some "hello_instrumented")
    (hp : e.pid = 2524) :
    (processInsert e).literals.bind ProcessCols.ofLiterals
      = some { name := some "hello_instrumented", pid := 2524 } := by
  unfold processInsert
  rw [h, hp]
  decide

theorem tracedThreadSelect_cols (e : TraceEntry) (h : e.tid = 468) :
    (tracedThreadSelect (some 1) e).literals.bind TracedThreadCols.ofLiterals
      = some { process_id := 1, tid := 468 } := by
  unfold tracedThreadSelect
  rw [h]
  decide

theorem tracedThreadInsert_cols (e : TraceEntry) (h : e.tid = 468) :
    (tracedThreadInsert (some 1) e).literals.bind TracedThreadCols.ofLiterals
      = some { process_id := 1, tid := 468 } := by
  unfold tracedThreadInsert
  rw [h]
  decide

theorem tracePointSelect_cols (e : TraceEntry) (hv : e.verbosity = 1) :
    (tracePointSelect (some 1) (some 1) e).literals.bind TracePointCols.ofLiterals
      = some { verbosity := 1, type := e.type, path_id := 1, line := sqlNumber e.lineno,
               function_id := 1 } := by
  rw [tracePointSelect_literals e hv]
  rfl

theorem tracePointInsert_cols (e : TraceEntry) (hv : e.verbosity = 1) :
    (tracePointInsert (some 1) (some 1) e).literals.bind TracePointCols.ofLiterals
      = some { verbosity := 1, type := e.type, path_id := 1, line := sqlNumber e.lineno,
               function_id := 1 } := by
  rw [tracePointInsert_literals e hv]
  rfl

theorem traceEntryInsert_cols (e : TraceEntry) (message : String)
    (hm : e.message = some message) :
    (traceEntryInsert (some 1) (some 1) e).literals.bind TraceEntryCols.ofLiterals
      = some { traced_thread_id := 1, timestamp := some (isoDate e.timestamp),
               trace_point_id := 1, message := some message } := by
  rw [traceEntryInsert_literals e message hm]
  rfl

theorem variableInsert_cols :
    (variableInsert (some 1)
        { name := some "name", type := VariableType.StringType, value := some "Max" }
        0).literals.bind VariableCols.ofLiterals
      = some { trace_entry_id := 1, name := some "name", value := some "Max",
               type_code := 0 } := by
  decide

/-- The block of `storeEntry` on an empty table, all statements
succeeding: the row asked for is inserted with the id 1. -/
theorem resolveId_empty {α : Type} (select insert rowid : Stmt) (eq : α → α → Option Bool)
    (last : Option Nat) (asked row : Option α) (c : α) (ha : asked = some c)
    (hr : row = some c) :
    resolveId (fun _ => false) select insert rowid eq (some []) last asked row
      = (some [{ id := 1, cols := c }], some 1, some 1) := by
  subst ha hr
  rfl

theorem execInsert_empty {α : Type} (last : Option Nat) (c : α) :
    execInsert false (some []) last (some c) = (some [{ id := 1, cols := c }], some 1) :=
  rfl

theorem execLastInsertRowid_one {α : Type} (r : Row α) (last : Option Nat) :
    execLastInsertRowid false (some [r]) last = last :=
  rfl

theorem insertVariables_scenario :
    insertVariables (fun _ => false) (some 1)
        [{ name := some "name", type := VariableType.StringType, value := some "Max" }] 0
        (some [], some 1)
      = some (some [{ id := 1,
                      cols := { trace_entry_id := 1, name := some "name",
                                value := some "Max", type_code := 0 } }], some 1) := by
  decide

/-- C10: storing into a fresh database the scenario entry, whatever the
code of the type `Log`, the time stamp, the line, the message and the
backtrace, returns and leaves exactly one row in each of `path_name`,
`function_name`, `process`, `traced_thread` and `trace_point`, with the
content of the entry, exactly one row in `trace_entry`, and exactly one row
in `variable`, whose type code is 0. -/
theorem storeEntry_fresh_scenario (logCode timestamp lineno : Nat) (message : String)
    (backtrace : List StackFrame) :
    ∃ s1, storeEntry Store.fresh (scenarioEntry logCode timestamp lineno message backtrace)
        = some s1 ∧
      s1.path_name = some [{ id := 1, cols := some "main.cpp" }] ∧
      s1.function_name = some [{ id := 1, cols := some "int main()" }] ∧
      s1.process
        = some [{ id := 1, cols := { name := some "hello_instrumented", pid := 2524 } }] ∧
      s1.traced_thread = some [{ id := 1, cols := { process_id := 1, tid := 468 } }] ∧
      s1.trace_point =
        some [{ id := 1,
                cols := { verbosity := 1, type := logCode, path_id := 1,
                          line := sqlNumber lineno, function_id := 1 } }] ∧
      s1.trace_entry =
        some [{ id := 1,
                cols := { traced_thread_id := 1, timestamp := some (isoDate timestamp),
                          trace_point_id := 1, message := some message } }] ∧
      s1.«variable» =
        some [{ id := 1,
                cols := { trace_entry_id := 1, name := some "name", value := some "Max",
                          type_code := 0 } }] := by
  refine ⟨{ path_name := some [{ id := 1, cols := some "main.cpp" }],
            function_name := some [{ id := 1, cols := some "int main()" }],
            process :=
              some [{ id := 1, cols := { name := some "hello_instrumented", pid := 2524 } }],
            traced_thread := some [{ id := 1, cols := { process_id := 1, tid := 468 } }],
            trace_point :=
              some [{ id := 1,
                      cols := { verbosity := 1, type := logCode, path_id := 1,
                                line := sqlNumber lineno, function_id := 1 } }],
            trace_entry :=
              some [{ id := 1,
                      cols := { traced_thread_id := 1,
                                timestamp := some (isoDate timestamp),
                                trace_point_id := 1, message := some message } }],
            «variable» :=
              some [{ id := 1,
                      cols := { trace_entry_id := 1, name := some "name",
                                value := some "Max", type_code := 0 } }],
            stackframe :=
              (insertStackframes (fun _ => false) (some 1) backtrace 0 (some [], some 1)).1,
            last_insert_rowid :=
              (insertStackframes (fun _ => false) (some 1) backtrace 0 (some [], some 1)).2 },
    ?_, rfl, rfl, rfl, rfl, rfl, rfl, rfl⟩
  generalize he : scenarioEntry logCode timestamp lineno message backtrace = e
  have hpath : e.path = some "main.cpp" := by rw [← he]; rfl
  have hfunction : e.function = some "int main()" := by rw [← he]; rfl
  have hprocess : e.processName = some "hello_instrumented" := by rw [← he]; rfl
  have hpid : e.pid = 2524 := by rw [← he]; rfl
  have htid : e.tid = 468 := by rw [← he]; rfl
  have hverbosity : e.verbosity = 1 := by rw [← he]; rfl
  have htype : e.type = logCode := by rw [← he]; rfl
  have hlineno : e.lineno = lineno := by rw [← he]; rfl
  have htimestamp : e.timestamp = timestamp := by rw [← he]; rfl
  have hmessage : e.message = some message := by rw [← he]; rfl
  have hvariables : e.«variables»
      = [{ name := some "name", type := VariableType.StringType, value := some "Max" }] := by
    rw [← he]; rfl
  have hbacktrace : e.backtrace = backtrace := by rw [← he]; rfl
  unfold storeEntry storeEntryWith
  simp only []
  rw [show Store.fresh.path_name = some [] from rfl,
    show Store.fresh.function_name = some [] from rfl,
    show Store.fresh.process = some [] from rfl,
    show Store.fresh.traced_thread = some [] from rfl,
    show Store.fresh.trace_point = some [] from rfl,
    show Store.fresh.trace_entry = some [] from rfl,
    show Store.fresh.«variable» = some [] from rfl,
    show Store.fresh.stackframe = some [] from rfl]
  rw [pathNameSelect_cols e hpath, pathNameInsert_cols e hpath,
    resolveId_empty _ _ _ _ _ _ _ _ rfl rfl]
  simp only []
  rw [functionNameSelect_cols e hfunction, functionNameInsert_cols e hfunction,
    resolveId_empty _ _ _ _ _ _ _ _ rfl rfl]
  simp only []
  rw [processSelect_cols e hprocess hpid, processInsert_cols e hprocess hpid,
    resolveId_empty _ _ _ _ _ _ _ _ rfl rfl]
  simp only []
  rw [tracedThreadSelect_cols e htid, tracedThreadInsert_cols e htid,
    resolveId_empty _ _ _ _ _ _ _ _ rfl rfl]
  simp only []
  rw [tracePointSelect_cols e hverbosity, tracePointInsert_cols e hverbosity,
    resolveId_empty _ _ _ _ _ _ _ _ rfl rfl]
  simp only []
  rw [traceEntryInsert_cols e message hmessage, hvariables, hbacktrace, htype, hlineno,
    htimestamp, execInsert_empty]
  simp only []
  rw [execLastInsertRowid_one, insertVariables_scenario]
  rfl

/-- C11: the entry with one frame of a module named `%5`: the fifth `arg`
of the chain puts the function offset 12 in the place of the module, and
the one row written to `stackframe` holds the module `12`, not the module
of the frame. -/
theorem storeEntry_marker_in_module :
    (stackframeInsert (some 1) 0
        { module := some "%5", function := some "f()", functionOffset := 12,
          sourceFile := some "main.cpp", lineNumber := 4 }).text
      = some ("INSERT INTO stackframe VALUES(1, 0, '12', 'f()', 12, "
          ++ "'main.cpp', 4);").toList ∧
    storeEntry Store.fresh markerModuleEntry
      = some { helloStore with
               stackframe :=
                 some [{ id := 1,
                         cols := { trace_entry_id := 1, depth := 0, module := some "12",
                                   function := some "f()", function_offset := 12,
                                   source_file := some "main.cpp", line_number := 4 } }] } := by
  decide

/-- C12: the entry with the one string variable named `%4`: the fourth
`arg` of the chain puts the type code 0 in the place of the name, and the
one row written to `variable` holds the name `0`, not the name of the
variable. -/
theorem storeEntry_marker_in_variable_name :
    (variableInsert (some 1)
        { name := some "%4", type := VariableType.StringType, value := some "Max" } 0).text
      = some "INSERT INTO variable VALUES(1, '0', 'Max', 0);".toList ∧
    storeEntry Store.fresh markerVariableEntry
      = some { helloStore with
               «variable» :=
                 some [{ id := 1,
                         cols := { trace_entry_id := 1, name := some "0",
                                   value := some "Max", type_code := 0 } }] } := by
  decide
/-! ## Arrival order -/

/-- Once the process has ended, no slice is handled. -/
theorem foldl_handleSlice_none (setContent : List Byte → Option QDomNode)
    (unassigned : VariableType) (sl : List (List Byte)) :
    sl.foldl (handleSlice setContent unassigned) none = none := by
  induction sl with
  | nil => rfl
  | cons s sl ih => exact ih

/-- C13: a read of two entries, the first with a variable of the type
`int`, the second with a message only. Both slices are handed over whole
and both decode; with the field left unassigned by the decoder holding
another value than `StringType`, the assertion of `storeEntry` ends the
process at the first entry: no entry is stored and no `traceEntryReceived`
is emitted, neither for the first entry nor for the second, which alone
would be stored and signalled. -/
theorem handleIncomingData_aborts_batch :
    handedSlices (intVariableSlice ++ messageSlice) = some [intVariableSlice, messageSlice] ∧
    (exampleSetContent intVariableSlice).isSome ∧ (exampleSetContent messageSlice).isSome ∧
    handleIncomingData exampleSetContent (VariableType.other 1)
      { m_db := Store.fresh, traceEntryReceived := [] } (intVariableSlice ++ messageSlice)
      = some none ∧
    (handleIncomingData exampleSetContent (VariableType.other 1)
      { m_db := Store.fresh, traceEntryReceived := [] } messageSlice).map
        (fun r => r.map (fun srv => (srv.m_db.trace_entry.map List.length,
          srv.traceEntryReceived.length)))
      = some (some (some 1, 1)) := by
  decide
/-! ## Decoding: the claims -/

/-- With no child element named `name`, `namedItem` followed by
`toElement` gives the null element. -/
theorem toElement_namedItem_none (tag : String) (attrs : List (String × String))
    (children : List QDomNode) (name : String)
    (h : ∀ c ∈ children, ∀ a k, c ≠ QDomNode.element name a k) :
    toElement (namedItem (some (.element tag attrs children)) name) = none := by
  unfold namedItem childNodes
  cases hf : children.find? (fun c => decide (c.nodeName = name)) with
  | none => rfl
  | some c =>
    have hmem := List.mem_of_find?_eq_some hf
    have hname : c.nodeName = name := by simpa using List.find?_some hf
    cases c with
    | element t a k =>
      simp only [QDomNode.nodeName] at hname
      subst hname
      exact absurd rfl (h _ hmem a k)
    | characterData b d => rfl
    | other n => rfl

/-- C14: for every element, `deserializeTraceEntry` gives the defaults for
the optional children: the message is the empty string when the element
has no child element `<message>` (it is then the null string) or when its
`<message>` is empty (the empty string that is not null), the variable
list is empty when it has no `<variables>` or an empty one, and the
backtrace is empty when it has no `<backtrace>` or an empty one. -/
theorem deserializeTraceEntry_defaults (unassigned : VariableType) (tag : String)
    (attrs : List (String × String)) (children : List QDomNode) :
    (((∀ c ∈ children, ∀ a k, c ≠ QDomNode.element "message" a k) ∨
       (∃ a, namedItem (some (.element tag attrs children)) "message"
          = some (.element "message" a []))) →
      str (deserializeTraceEntry unassigned (some (.element tag attrs children))).message
        = "") ∧
    (((∀ c ∈ children, ∀ a k, c ≠ QDomNode.element "variables" a k) ∨
       (∃ a, namedItem (some (.element tag attrs children)) "variables"
          = some (.element "variables" a []))) →
      (deserializeTraceEntry unassigned (some (.element tag attrs children))).«variables»
        = []) ∧
    (((∀ c ∈ children, ∀ a k, c ≠ QDomNode.element "backtrace" a k) ∨
       (∃ a, namedItem (some (.element tag attrs children)) "backtrace"
          = some (.element "backtrace" a []))) →
      (deserializeTraceEntry unassigned (some (.element tag attrs children))).backtrace
        = []) ∧
    ((∀ c ∈ children, ∀ a k, c ≠ QDomNode.element "message" a k) →
      (deserializeTraceEntry unassigned (some (.element tag attrs children))).message
        = none) ∧
    ((∃ a, namedItem (some (.element tag attrs children)) "message"
        = some (.element "message" a [])) →
      (deserializeTraceEntry unassigned (some (.element tag attrs children))).message
        = some "") := by
  refine ⟨?_, ?_, ?_, ?_, ?_⟩
  · rintro (h | ⟨a, h⟩)
    · simp only [deserializeTraceEntry, toElement_namedItem_none _ _ _ _ h]
      rfl
    · simp only [deserializeTraceEntry, h]
      rfl
  · rintro (h | ⟨a, h⟩)
    · simp only [deserializeTraceEntry, toElement_namedItem_none _ _ _ _ h]
      rfl
    · simp only [deserializeTraceEntry, h]
      rfl
  · rintro (h | ⟨a, h⟩)
    · simp only [deserializeTraceEntry, toElement_namedItem_none _ _ _ _ h]
      rfl
    · simp only [deserializeTraceEntry, h]
      rfl
  · intro h
    simp only [deserializeTraceEntry, toElement_namedItem_none _ _ _ _ h]
    rfl
  · rintro ⟨a, h⟩
    simp only [deserializeTraceEntry, h]
    rfl

/-- The defaults at work: the element of the scenario "single log hit",
which has neither `<variables>` nor `<backtrace>`, and the same element
with an empty `<message/>`, `<variables/>` and `<backtrace/>` added in
front. -/
theorem deserializeTraceEntry_defaults_example :
    deserializeTraceEntry VariableType.StringType (some scenario1Element) = scenario1Entry ∧
    deserializeTraceEntry VariableType.StringType
        (some (.element "traceentry" [("pid", "2524"), ("tid", "468"), ("time", "1283529656")]
          ([.element "message" [] [], .element "variables" [] [],
            .element "backtrace" [] []] ++ childNodes (some scenario1Element))))
      = { scenario1Entry with message := some "" } := by
  decide

/-- C15: for the element `<variable name="count" type="int">5</variable>`
the type of the decoded variable is whatever the field `type` of the fresh
`Variable var;` holds: no type is assigned by `deserializeTraceEntry`, and
two values of the unassigned field give two decoded types. -/
theorem deserializeVariable_type_unassigned :
    (∀ unassigned : VariableType,
      (deserializeVariable unassigned intVariableElement).type = unassigned) ∧
    (deserializeVariable VariableType.StringType intVariableElement).type
      ≠ (deserializeVariable (VariableType.other 1) intVariableElement).type := by
  refine ⟨fun unassigned => ?_, by decide⟩
  simp [deserializeVariable, intVariableElement, elementAttribute, toElement]

/-- The type of a decoded variable is `StringType` for the type string
`string` and the unassigned value of the field for every other one, a
missing attribute included. -/
theorem deserializeVariable_type (unassigned : VariableType) (n : QDomNode) :
    (deserializeVariable unassigned n).type =
      if elementAttribute (toElement (some n)) "type" = some "string" then
        VariableType.StringType
      else unassigned := rfl

theorem text_toElement_element (name : String) (attrs : List (String × String))
    (cs : List QDomNode) :
    text (toElement (some (.element name attrs cs))) = some (innerTextOfNodes cs) := by
  simp [toElement, text, QDomNode.innerText]

theorem text_element (name : String) (attrs : List (String × String))
    (cs : List QDomNode) :
    text (some (.element name attrs cs)) = some (innerTextOfNodes cs) := by
  simp [text, QDomNode.innerText]

theorem toElement_element (name : String) (attrs : List (String × String))
    (cs : List QDomNode) :
    toElement (some (.element name attrs cs)) = some (.element name attrs cs) := rfl

theorem str_some (s : String) : str (some s) = s := rfl

/-- C16: for every well-formed `<traceentry>` element, in the wire format
of the scalar fields of an entry `x`, `deserializeTraceEntry` gives each
scalar field of `x` back: pid, tid and time from the attributes of those
names, processName, verbosity, type, function and message from the texts of
the children of those names, path and lineno from the text and the
`lineno` attribute of `<location>`. -/
theorem deserializeTraceEntry_scalars (unassigned : VariableType) (e : QDomNode)
    (x : TraceEntry) (h : EncodesScalars e x) :
    (deserializeTraceEntry unassigned (some e)).pid = x.pid ∧
    (deserializeTraceEntry unassigned (some e)).tid = x.tid ∧
    (deserializeTraceEntry unassigned (some e)).timestamp = x.timestamp ∧
    (deserializeTraceEntry unassigned (some e)).processName = x.processName ∧
    (deserializeTraceEntry unassigned (some e)).verbosity = x.verbosity ∧
    (deserializeTraceEntry unassigned (some e)).type = x.type ∧
    (deserializeTraceEntry unassigned (some e)).path = x.path ∧
    (deserializeTraceEntry unassigned (some e)).lineno = x.lineno ∧
    (deserializeTraceEntry unassigned (some e)).function = x.function ∧
    (deserializeTraceEntry unassigned (some e)).message = x.message := by
  obtain ⟨hpid, bpid, htid, btid, htime, btime, ⟨a1, c1, n1, t1⟩, ⟨a2, c2, n2, t2⟩, bverb,
    ⟨a3, c3, n3, t3⟩, btype, ⟨a4, c4, n4, t4, l4⟩, bline, ⟨a5, c5, n5, t5⟩,
    ⟨a6, c6, n6, t6⟩⟩ := h
  simp only [deserializeTraceEntry, hpid, htid, htime, n1, n2, n3, n4, n5, n6,
    text_element, toElement_element, t1, t2, t3, t4, t5, t6, l4, str_some,
    toUInt_toString _ bpid, toUInt_toString _ btid, toUInt_toString _ btime,
    toUInt_toString _ bverb, toUInt_toString _ btype, toULong_toString _ bline, and_self]

/-- C16, at the element of the scenario "single log hit": pid 2524, tid
468, time stamp 1283529656, path `main.cpp`, line 8, function `int main()`,
verbosity 1, message `main() entered`. -/
theorem deserializeTraceEntry_scalars_witness :
    EncodesScalars scenario1Element scenario1Entry ∧
    (deserializeTraceEntry VariableType.StringType (some scenario1Element)).pid = 2524 ∧
    (deserializeTraceEntry VariableType.StringType (some scenario1Element)).tid = 468 ∧
    (deserializeTraceEntry VariableType.StringType (some scenario1Element)).timestamp
      = 1283529656 ∧
    (deserializeTraceEntry VariableType.StringType (some scenario1Element)).processName
      = some "hello_instrumented" ∧
    (deserializeTraceEntry VariableType.StringType (some scenario1Element)).verbosity = 1 ∧
    (deserializeTraceEntry VariableType.StringType (some scenario1Element)).type = 1 ∧
    (deserializeTraceEntry VariableType.StringType (some scenario1Element)).path
      = some "main.cpp" ∧
    (deserializeTraceEntry VariableType.StringType (some scenario1Element)).lineno = 8 ∧
    (deserializeTraceEntry VariableType.StringType (some scenario1Element)).function
      = some "int main()" ∧
    (deserializeTraceEntry VariableType.StringType (some scenario1Element)).message
      = some "main() entered" :=
  have hw : EncodesScalars scenario1Element scenario1Entry :=
    ⟨by decide, by decide, by decide, by decide, by decide, by decide,
      ⟨_, _, rfl, by decide⟩, ⟨_, _, rfl, by decide⟩, by decide,
      ⟨_, _, rfl, by decide⟩, by decide, ⟨_, _, rfl, by decide, by decide⟩, by decide,
      ⟨_, _, rfl, by decide⟩, ⟨_, _, rfl, by decide⟩⟩
  ⟨hw, deserializeTraceEntry_scalars VariableType.StringType scenario1Element
    scenario1Entry hw⟩

/-- The loops of `deserializeTraceEntry` make one item for every child
node of `<variables>` and one frame for every child node of `<backtrace>`,
whatever the kind of the node. -/
theorem deserializeTraceEntry_items (unassigned : VariableType) (e : QDomNode) :
    (deserializeTraceEntry unassigned (some e)).«variables»
      = (childNodes (toElement (namedItem (some e) "variables"))).map
          (deserializeVariable unassigned) ∧
    (deserializeTraceEntry unassigned (some e)).backtrace
      = (childNodes (toElement (namedItem (some e) "backtrace"))).map deserializeFrame :=
  ⟨rfl, rfl⟩

/-- A child node that is not an element is decoded to an item with a null
name and a null value, and to a frame of null texts and 0 for the
numbers. -/
theorem deserialize_non_element (unassigned : VariableType) (n : QDomNode)
    (h : toElement (some n) = none) :
    deserializeVariable unassigned n
      = { name := none, type := unassigned, value := none } ∧
    deserializeFrame n = { module := none, function := none, functionOffset := 0,
                           sourceFile := none, lineNumber := 0 } := by
  cases n with
  | element t a k => simp [toElement] at h
  | characterData b d => exact ⟨rfl, rfl⟩
  | other nm => exact ⟨rfl, rfl⟩

/-- For a child that is an element, the loop bodies read the name
attribute and the text of the element, and the module, function, function
offset, source file and line number of the frame. -/
theorem deserialize_element (unassigned : VariableType) (tag : String)
    (attrs : List (String × String)) (cs : List QDomNode) :
    (deserializeVariable unassigned (.element tag attrs cs)).name
      = elementAttribute (some (.element tag attrs cs)) "name" ∧
    (deserializeVariable unassigned (.element tag attrs cs)).value
      = some (innerTextOfNodes cs) ∧
    deserializeFrame (.element tag attrs cs) =
      { module := text (toElement (namedItem (some (.element tag attrs cs)) "module")),
        function := text (toElement (namedItem (some (.element tag attrs cs)) "function")),
        functionOffset := toUInt (str (elementAttribute
          (toElement (namedItem (some (.element tag attrs cs)) "function")) "offset")),
        sourceFile := text (toElement (namedItem (some (.element tag attrs cs)) "location")),
        lineNumber := toUInt (str (elementAttribute
          (toElement (namedItem (some (.element tag attrs cs)) "location")) "lineno")) } :=
  ⟨rfl, text_element tag attrs cs, rfl⟩

/-- C17: in `commentedElement` the `<variables>` element has one
`<variable>` child element and a comment, the `<backtrace>` one `<frame>`
and a comment; the decoded variable list has two items and the decoded
backtrace two frames, the comment giving an item with an empty (null) name
and value and a frame of empty (null) texts and 0 for the numbers. -/
theorem deserializeTraceEntry_comment_items :
    (deserializeTraceEntry VariableType.StringType (some commentedElement)).«variables»
      = [{ name := none, type := VariableType.StringType, value := none },
         { name := some "name", type := VariableType.StringType, value := some "Max" }] ∧
    (deserializeTraceEntry VariableType.StringType (some commentedElement)).backtrace
      = [{ module := some "hello.exe", function := some "f()", functionOffset := 12,
           sourceFile := some "main.cpp", lineNumber := 4 },
         { module := none, function := none, functionOffset := 0, sourceFile := none,
           lineNumber := 0 }] := by
  decide

/-- C18 as stated fails: in the buffer `ab<traceentry c` the sentinel
occurs first at position 2, and the 2 bytes before it are handed to the
decoder as the first slice. -/
theorem handleIncomingData_preamble_handed :
    indexOf (bytes "ab<traceentry c") sentinel 0 = some 2 ∧
    handedSlices (bytes "ab<traceentry c")
      = some [(bytes "ab<traceentry c").take 2, (bytes "ab<traceentry c").drop 2] := by
  decide

/-- C18, amended: for every buffer whose first occurrence of the sentinel
is at a position `q ≥ 1`, the `q` bytes before that occurrence are the
first slice that `handleIncomingData` hands to the decoder, before the
other slices. -/
theorem handleIncomingData_preamble (buf : List Byte) (q : Nat)
    (hq : indexOf buf sentinel 0 = some q) (h1 : 1 ≤ q) :
    ∃ rest, handedSlices buf = some (buf.take q :: rest) ∧
      ∀ {σ : Type} (handle : σ → List Byte → σ) (st : σ),
        handleIncomingDataWith handle buf st
          = some (rest.foldl handle (handle st (buf.take q))) := by
  obtain ⟨_, _, hocc, hmin⟩ := indexOf_some hq
  have hq1 : indexOf buf sentinel 1 = some q :=
    indexOf_eq_some sentinel_ne_nil h1 hocc (fun j _ hj => hmin j (Nat.zero_le _) hj)
  obtain ⟨sl, hf, hl⟩ := handleIncomingDataWith_eq buf
  cases hf with
  | last hn => rw [hn] at hq1; cases hq1
  | @cut _ q' rest hq' hrest =>
    rw [hq'] at hq1
    injection hq1 with hq1
    subst hq1
    exact ⟨rest, handedSlices_of_framed (Framed.cut hq' hrest),
      fun handle st => by rw [hl]; rfl⟩

/-- C18, amended, at the buffer `ab<traceentry c`. -/
theorem handleIncomingData_preamble_witness :
    indexOf (bytes "ab<traceentry c") sentinel 0 = some 2 ∧ 1 ≤ 2 ∧
      ∃ rest, handedSlices (bytes "ab<traceentry c")
          = some ((bytes "ab<traceentry c").take 2 :: rest) ∧
        ∀ {σ : Type} (handle : σ → List Byte → σ) (st : σ),
          handleIncomingDataWith handle (bytes "ab<traceentry c") st
            = some (rest.foldl handle (handle st ((bytes "ab<traceentry c").take 2))) :=
  ⟨by decide, by decide,
    handleIncomingData_preamble (bytes "ab<traceentry c") 2 (by decide) (by decide)⟩

/-! ## The ingest-from-file tool -/

/-- The loop of `fromXml` returns within the fuel; what it has passed to
`addData` and what it has not read make up what was passed before and the
input; it returns true only with the whole input read, and false only
with the message of a caught exception. -/
theorem fromXmlLoop_spec {σ : Type} (xmlparser : XmlContentHandler σ) (maxlen : Nat)
    (hm : 0 < maxlen) :
    ∀ (fuel : Nat) (st : σ) (passed : List (List Byte)) (input : List Byte),
      input.length < fuel →
      ∃ r, fromXmlLoop xmlparser maxlen fuel st passed input = some r ∧
        r.passed.flatten ++ r.unread = passed.flatten ++ input ∧
        (r.returned = true → r.unread = [] ∧ r.errMsg = none) ∧
        (r.returned = false → ∃ ex, r.errMsg = some (databaseErrorMessage ex)) := by
  intro fuel
  induction fuel with
  | zero => intro st passed input h; omega
  | succ fuel ih =>
    intro st passed input h
    cases input with
    | nil =>
      refine ⟨{ returned := true, errMsg := none, passed := passed, unread := [],
                 handler := st }, by simp [fromXmlLoop], by simp, by simp, by simp⟩
    | cons b bs =>
      simp only [fromXmlLoop, List.isEmpty_cons, Bool.false_eq_true, if_false]
      cases hc : xmlparser.continueParsing
          (xmlparser.addData st ((b :: bs).take maxlen)) with
      | error ex =>
        refine ⟨_, rfl, ?_, by simp, fun _ => ⟨ex, rfl⟩⟩
        simp [List.take_append_drop]
      | ok st2 =>
        have hlen : ((b :: bs).drop maxlen).length < fuel := by
          rw [List.length_drop]
          simp only [List.length_cons] at h ⊢
          omega
        obtain ⟨r, hr, h1, h2, h3⟩ :=
          ih st2 (passed ++ [(b :: bs).take maxlen]) ((b :: bs).drop maxlen) hlen
        refine ⟨r, hr, ?_, h2, h3⟩
        rw [h1]
        simp [List.take_append_drop]

/-- C19 as stated fails: on the input `<a/>`, with a handler that never
throws, the data passed to `addData` is the opening tag followed by the
input; the closing tag `</toplevel_trace_element>` is not passed. -/
theorem fromXml_no_closing_tag :
    (fromXml quietHandler () (bytes "<a/>")).map (fun r => r.passed.flatten)
      = some (bytes "<toplevel_trace_element><a/>") ∧
    bytes "<toplevel_trace_element><a/>"
      ≠ bytes "<toplevel_trace_element>" ++ bytes "<a/>" ++ bytes "</toplevel_trace_element>" := by
  decide

/-- C19, amended: for every input and every handler, `fromXml` returns,
and the data passed to `addData`, put together, is the opening tag
`<toplevel_trace_element>` followed by the input read; when `fromXml`
returns true, it is the opening tag followed by the whole input, with no
closing tag after it. -/
theorem fromXml_passed {σ : Type} (xmlparser : XmlContentHandler σ) (st : σ)
    (input : List Byte) :
    ∃ r, fromXml xmlparser st input = some r ∧
      r.passed.flatten ++ r.unread = bytes "<toplevel_trace_element>" ++ input ∧
      (r.returned = true → r.passed.flatten = bytes "<toplevel_trace_element>" ++ input) := by
  obtain ⟨r, hr, h1, h2, _⟩ := fromXmlLoop_spec xmlparser (1 <<< 16) (by decide)
    (input.length + 1) (xmlparser.addData st (bytes "<toplevel_trace_element>"))
    [bytes "<toplevel_trace_element>"] input (by omega)
  refine ⟨r, hr, by simpa using h1, ?_⟩
  intro hret
  have := (h2 hret).1
  rw [this, List.append_nil] at h1
  simpa using h1

theorem fromXml_returns {σ : Type} (xmlparser : XmlContentHandler σ) (st : σ)
    (input : List Byte) : ∃ r, fromXml xmlparser st input = some r := by
  obtain ⟨r, hr, _⟩ := fromXmlLoop_spec xmlparser (1 <<< 16) (by decide)
    (input.length + 1) (xmlparser.addData st (bytes "<toplevel_trace_element>"))
    [bytes "<toplevel_trace_element>"] input (by omega)
  exact ⟨r, hr⟩

/-- C20: for every run of the tool without `--help`, `main` returns the
exit code of the first failing stage, in the order: 1 when the arguments
do not parse or no database file is given, else 2 when the database is not
valid after `Database::open` or `Database::create`, else 3 when the named
XML file does not open, else 4 when `fromXml` returns false, else 0; so it
returns 0 only when every stage has succeeded. -/
theorem main_exit_code {σ : Type} (run : MainRun σ) (hhelp : run.help = false) :
    ∃ r, fromXml run.xmlparser run.handler run.input = some r ∧
      (main run).map Prod.fst = some (stageExitCode run r.returned) ∧
      (stageExitCode run r.returned = 0 →
        run.parses = true ∧ run.traceFile.isEmpty = false ∧
        (if run.traceFileExists then run.openValid else run.createValid) = true ∧
        (run.xmlFile.isSome = true → run.inputOpens = true) ∧ r.returned = true) := by
  obtain ⟨r, hr⟩ := fromXml_returns run.xmlparser run.handler run.input
  refine ⟨r, hr, ?_, ?_⟩
  · cases hp : run.parses
    · simp [main, hp, hhelp, Error.CommandLineArgs, stageExitCode]
    cases ht : run.traceFile.isEmpty
    swap
    · simp [main, hp, hhelp, ht, Error.CommandLineArgs, stageExitCode]
    cases hdb : (if run.traceFileExists then run.openValid else run.createValid)
    · simp [main, hp, hhelp, ht, hdb, Error.Open, stageExitCode]
    cases hx : run.xmlFile with
    | none =>
      cases hret : r.returned <;>
        simp [main, mainTransform, hp, hhelp, ht, hdb, hx, hr, hret, Error.Transformation,
          Error.None, stageExitCode]
    | some xmlFile =>
      cases ho : run.inputOpens
      · simp [main, hp, hhelp, ht, hdb, hx, ho, Error.File, stageExitCode]
      cases hret : r.returned <;>
        simp [main, mainTransform, hp, hhelp, ht, hdb, hx, ho, hr, hret,
          Error.Transformation, Error.None, stageExitCode]
  · intro h0
    unfold stageExitCode at h0
    cases hp : run.parses <;> cases ht : run.traceFile.isEmpty <;>
      cases hdb : (if run.traceFileExists then run.openValid else run.createValid) <;>
      cases hret : r.returned <;> cases ho : run.inputOpens <;>
      cases hx : run.xmlFile <;> simp_all

/-- C20, at a run in which every stage succeeds. -/
theorem main_exit_code_witness :
    quietRun.help = false ∧
      ∃ r, fromXml quietRun.xmlparser quietRun.handler quietRun.input = some r ∧
        (main quietRun).map Prod.fst = some (stageExitCode quietRun r.returned) ∧
        (stageExitCode quietRun r.returned = 0 →
          quietRun.parses = true ∧ quietRun.traceFile.isEmpty = false ∧
          (if quietRun.traceFileExists then quietRun.openValid else quietRun.createValid)
            = true ∧
          (quietRun.xmlFile.isSome = true → quietRun.inputOpens = true) ∧
          r.returned = true) :=
  ⟨rfl, main_exit_code quietRun rfl⟩

/-- The exit codes of the run `quietRun` and of the runs that differ from
it in one stage: 0, and 1, 1, 2, 3, 4 for arguments that do not parse, a
missing database file name, a database that is not valid, a named file that
does not open and a handler that throws on the first chunk. -/
theorem main_exit_code_examples :
    (main quietRun).map Prod.fst = some 0 ∧
    (main { quietRun with parses := false }).map Prod.fst = some 1 ∧
    (main { quietRun with traceFile := "" }).map Prod.fst = some 1 ∧
    (main { quietRun with createValid := false }).map Prod.fst = some 2 ∧
    (main { quietRun with xmlFile := some "in.xml" }).map Prod.fst = some 3 ∧
    (main { quietRun with
        xmlparser :=
          { addData := fun _ _ => (),
            continueParsing := fun _ =>
              .error { what := "w", driverMessage := "m", driverCode := 5 } } }).map Prod.fst
      = some 4 := by
  decide

/-! ## The tool with `--help`, and the outcome of `fromXml` -/

/-- C21: on every run of the tool in which `--help` has set the switch
`help`, whether `opt.parse()` succeeds or not and whatever `-o` and the
other arguments are, `main` prints the usage text and returns
`Error::None`, which is 0, and that is all it does: no database is opened
or created, no input is opened, `fromXml` does not run. -/
theorem main_help {σ : Type} (run : MainRun σ) (hhelp : run.help = true) :
    main run = some (Error.None, [Effect.printHelp]) ∧ Error.None = 0 := by
  refine ⟨?_, rfl⟩
  unfold main
  cases hp : run.parses <;> simp [hhelp]

theorem main_help_witness :
    helpRun.help = true ∧
      (main helpRun = some (Error.None, [Effect.printHelp]) ∧ Error.None = 0) :=
  ⟨rfl, main_help helpRun rfl⟩

theorem ReadInChunks.flatten_chunks {maxlen : Nat} {input : List Byte} {chunks : List (List Byte)}
    (h : ReadInChunks maxlen input chunks) : chunks.flatten = input := by
  induction h with
  | done => rfl
  | read input chunks _ _ ih => rw [List.flatten_cons, ih, List.take_append_drop]

theorem feedChunks_append {σ : Type} (xmlparser : XmlContentHandler σ) :
    ∀ (before rest : List (List Byte)) (st st1 : σ),
      feedChunks xmlparser st before = .ok st1 →
        feedChunks xmlparser st (before ++ rest) = feedChunks xmlparser st1 rest := by
  intro before
  induction before with
  | nil =>
    intro rest st st1 h
    simp only [feedChunks] at h
    cases h
    rfl
  | cons c cs ih =>
    intro rest st st1 h
    simp only [feedChunks, List.cons_append] at h ⊢
    cases hc : xmlparser.continueParsing (xmlparser.addData st c) with
    | error ex => rw [hc] at h; cases h
    | ok st2 =>
      rw [hc] at h
      simp only at h ⊢
      exact ih rest st2 st1 h

/-- The loop of `fromXml` against the chunks of the input: either every
chunk is fed and the loop returns true, or the loop returns false at the
first chunk at which `continueParsing` throws. -/
theorem fromXmlLoop_feed {σ : Type} (xmlparser : XmlContentHandler σ) (maxlen : Nat)
    (hmax : 0 < maxlen) :
    ∀ (fuel : Nat) (st : σ) (passed : List (List Byte)) (input : List Byte),
      input.length < fuel →
      ∃ r chunks, fromXmlLoop xmlparser maxlen fuel st passed input = some r ∧
        ReadInChunks maxlen input chunks ∧
        ((r.returned = true ∧ r.errMsg = none ∧ r.passed = passed ++ chunks ∧ r.unread = [] ∧
            feedChunks xmlparser st chunks = .ok r.handler) ∨
         (r.returned = false ∧
            ∃ (before : List (List Byte)) (c : List Byte) (after : List (List Byte))
              (st1 : σ) (ex : SQLTransactionException),
              chunks = before ++ c :: after ∧ feedChunks xmlparser st before = .ok st1 ∧
              xmlparser.continueParsing (xmlparser.addData st1 c) = .error ex ∧
              r.errMsg = some (databaseErrorMessage ex) ∧
              r.passed = passed ++ (before ++ [c]) ∧ r.unread = after.flatten ∧
              r.handler = xmlparser.addData st1 c)) := by
  intro fuel
  induction fuel with
  | zero => intro st passed input h; omega
  | succ fuel ih =>
    intro st passed input h
    cases input with
    | nil =>
      exact ⟨{ returned := true, errMsg := none, passed := passed, unread := [],
               handler := st }, [], by simp [fromXmlLoop], ReadInChunks.done,
        Or.inl ⟨rfl, rfl, by simp, rfl, rfl⟩⟩
    | cons b bs =>
      have hne : (b :: bs) ≠ [] := by simp
      have hlen : ((b :: bs).drop maxlen).length < fuel := by
        simp only [List.length_drop, List.length_cons] at h ⊢
        omega
      simp only [fromXmlLoop, List.isEmpty_cons, Bool.false_eq_true, if_false]
      cases hc : xmlparser.continueParsing (xmlparser.addData st ((b :: bs).take maxlen)) with
      | error ex =>
        obtain ⟨_, chunks, _, hchunks, _⟩ :=
          ih st passed ((b :: bs).drop maxlen) hlen
        refine ⟨_, (b :: bs).take maxlen :: chunks, rfl,
          ReadInChunks.read _ _ hne hchunks, Or.inr ⟨rfl, [], _, chunks, st, ex, rfl, rfl, hc,
            rfl, rfl, ?_, rfl⟩⟩
        exact hchunks.flatten_chunks.symm
      | ok st2 =>
        obtain ⟨r, chunks, hr, hchunks, hcase⟩ :=
          ih st2 (passed ++ [(b :: bs).take maxlen]) ((b :: bs).drop maxlen) hlen
        refine ⟨r, (b :: bs).take maxlen :: chunks, hr, ReadInChunks.read _ _ hne hchunks, ?_⟩
        rcases hcase with ⟨h1, h2, h3, h4, h5⟩ | ⟨h1, before, c, after, st1, ex, e1, e2, e3,
          e4, e5, e6, e7⟩
        · refine Or.inl ⟨h1, h2, ?_, h4, ?_⟩
          · rw [h3]; simp
          · simp only [feedChunks, hc]; exact h5
        · refine Or.inr ⟨h1, (b :: bs).take maxlen :: before, c, after, st1, ex, ?_, ?_, e3, e4,
            ?_, e6, e7⟩
          · rw [e1]; rfl
          · simp only [feedChunks, hc]; exact e2
          · rw [e5]; simp

/-- C22: `fromXml` returns, and it returns false if and only if feeding
some chunk of the input (after the chunks before it were fed without an
exception) makes `continueParsing` throw a `SQLTransactionException`. When
it returns false it has stopped at that chunk: the data passed to
`addData` end with it, every later chunk is left unread, and the message
is made of the text of the exception, the driver message and the driver
code. When it returns true every chunk was passed and fed, nothing is left
unread and no message is written. -/
theorem fromXml_false_iff {σ : Type} (xmlparser : XmlContentHandler σ) (st : σ)
    (input : List Byte) :
    ∃ r chunks, fromXml xmlparser st input = some r ∧
      ReadInChunks (1 <<< 16) input chunks ∧
      (r.returned = false ↔
        ∃ (before : List (List Byte)) (c : List Byte) (after : List (List Byte))
          (st1 : σ) (ex : SQLTransactionException),
          chunks = before ++ c :: after ∧
          feedChunks xmlparser (xmlparser.addData st (bytes "<toplevel_trace_element>")) before
            = .ok st1 ∧
          xmlparser.continueParsing (xmlparser.addData st1 c) = .error ex) ∧
      (r.returned = false →
        ∃ (before : List (List Byte)) (c : List Byte) (after : List (List Byte))
          (st1 : σ) (ex : SQLTransactionException),
          chunks = before ++ c :: after ∧
          feedChunks xmlparser (xmlparser.addData st (bytes "<toplevel_trace_element>")) before
            = .ok st1 ∧
          xmlparser.continueParsing (xmlparser.addData st1 c) = .error ex ∧
          r.passed = bytes "<toplevel_trace_element>" :: (before ++ [c]) ∧
          r.unread = after.flatten ∧
          r.errMsg = some ("Database error: " ++ ex.what ++ ", driver message: "
            ++ ex.driverMessage ++ "(" ++ toString ex.driverCode ++ ")")) ∧
      (r.returned = true →
        r.passed = bytes "<toplevel_trace_element>" :: chunks ∧ r.unread = [] ∧
        r.errMsg = none ∧
        feedChunks xmlparser (xmlparser.addData st (bytes "<toplevel_trace_element>")) chunks
          = .ok r.handler) := by
  obtain ⟨r, chunks, hr, hchunks, hcase⟩ :=
    fromXmlLoop_feed xmlparser (1 <<< 16) (by decide) (input.length + 1)
      (xmlparser.addData st (bytes "<toplevel_trace_element>"))
      [bytes "<toplevel_trace_element>"] input (by omega)
  refine ⟨r, chunks, hr, hchunks, ?_⟩
  rcases hcase with ⟨h1, h2, h3, h4, h5⟩ | ⟨h1, before, c, after, st1, ex, e1, e2, e3, e4, e5,
    e6, _⟩
  · refine ⟨⟨fun h => by simp [h1] at h, ?_⟩, fun h => by simp [h1] at h,
      fun _ => ⟨by simpa using h3, h4, h2, h5⟩⟩
    rintro ⟨before, c, after, st1, ex, e1, e2, e3⟩
    rw [e1, feedChunks_append xmlparser before (c :: after) _ st1 e2] at h5
    simp only [feedChunks, e3] at h5
    cases h5
  · exact ⟨⟨fun _ => ⟨before, c, after, st1, ex, e1, e2, e3⟩, fun _ => h1⟩,
      fun _ => ⟨before, c, after, st1, ex, e1, e2, e3, by simpa using e5, e6, e4⟩,
      fun h => by simp [h1] at h⟩

/-- The outcome of `fromXml` on the nine bytes `<a/><b/>x` read three at a
time by a handler that throws once more than four bytes of it were added:
the second chunk raises, the third one is left unread. -/
theorem fromXmlWith_stops_example :
    (fromXmlWith 3 fullHandler 0 (bytes "<a/><b/>x")).map
        (fun r => (r.returned, r.errMsg, r.passed, r.unread, r.handler))
      = some (false, some "Database error: disk full, driver message: SQLITE_FULL(13)",
          [bytes "<toplevel_trace_element>", bytes "<a/", bytes "><b"], bytes "/>x", 30) := by
  decide

/-! ## The assertion of `storeEntry` on decoded entries, and the cuts of the framing loop -/

/-- C28: the default branch `assert( !"Unreachable" )` of `storeEntry` is
reached for decoded entries. For every element, `storeEntry` gets past the
`switch` for the decoded entry exactly when the field `type` left unassigned
by `deserializeTraceEntry` happens to hold `StringType` or every child node
of `<variables>` has the type string `string`; for the element with
`<variable name="count" type="int">5</variable>` and an unassigned field
that holds another value, the decoded variable has no type code and the
assertion fails. -/
theorem storeEntry_unreachable_reached :
    (∀ (s : Store) (unassigned : VariableType) (e : QDomNode),
      (storeEntry s (deserializeTraceEntry unassigned (some e))).isSome ↔
        (unassigned = VariableType.StringType ∨
          ∀ n ∈ childNodes (toElement (namedItem (some e) "variables")),
            elementAttribute (toElement (some n)) "type" = some "string")) ∧
    (deserializeTraceEntry (VariableType.other 1) (some intVariableEntryElement)).«variables»
      = [{ name := some "count", type := VariableType.other 1, value := some "5" }] ∧
    typeCode (VariableType.other 1) = none ∧
    storeEntry Store.fresh
      (deserializeTraceEntry (VariableType.other 1) (some intVariableEntryElement)) = none := by
  refine ⟨?_, by decide, rfl, by decide⟩
  intro s unassigned e
  rw [storeEntry_isSome, (deserializeTraceEntry_items unassigned e).1]
  simp only [List.mem_map, forall_exists_index, and_imp, forall_apply_eq_imp_iff₂,
    deserializeVariable_type]
  constructor
  · intro h
    by_cases hu : unassigned = VariableType.StringType
    · exact Or.inl hu
    · refine Or.inr (fun n hn => ?_)
      have := h n hn
      by_contra hc
      rw [if_neg hc] at this
      exact hu this
  · rintro (hu | h) n hn
    · rw [hu]; split <;> rfl
    · rw [if_pos (h n hn)]

/-- The loop of `handleIncomingData` hands over the slices of its calls of
`fromRawData`, in their order. -/
theorem handleIncomingDataLoop_calls {σ : Type} (handle : σ → List Byte → σ)
    (buf : List Byte) :
    ∀ (fuel p : Nat) (q : Option Nat) (st : σ),
      handleIncomingDataLoop handle buf fuel p q st
        = (handleIncomingDataCalls buf fuel p q).map (fun calls =>
            (calls.map (fun c => fromRawData buf c.1 c.2)).foldl handle st) := by
  intro fuel
  induction fuel with
  | zero => intro p q st; rfl
  | succ fuel ih =>
    intro p q st
    cases q with
    | none => rfl
    | some q =>
      simp only [handleIncomingDataLoop, handleIncomingDataCalls, ih, Option.map_map]
      rfl

/-- The calls of the framing loop from the position `p` on: the first one
is at `p`, the positions increase strictly, every position after the first
is that of an occurrence of the sentinel and so at least 12 bytes before
the end, and every call is of a positive size inside the buffer. -/
theorem handleIncomingDataCalls_spec (buf : List Byte) :
    ∀ (fuel p : Nat), p ≤ buf.length → buf.length < fuel + p →
      ∃ (n : Nat) (rest : List (Nat × Nat)),
        handleIncomingDataCalls buf fuel p (indexOf buf sentinel (p + 1))
          = some ((p, n) :: rest) ∧
        (∀ c ∈ rest, p < c.1 ∧ c.1 + 12 ≤ buf.length) ∧
        ((p, n) :: rest).Pairwise (fun a b => a.1 < b.1) ∧
        (rest.length + 1) + p ≤ max (p + 1) buf.length ∧
        (∀ c ∈ (p, n) :: rest, c.1 + c.2 ≤ buf.length ∧ (c.1 < buf.length → 0 < c.2)) := by
  intro fuel
  induction fuel with
  | zero => intro p h1 h2; omega
  | succ fuel ih =>
    intro p h1 h2
    cases hq : indexOf buf sentinel (p + 1) with
    | none =>
      refine ⟨buf.length - p, [], rfl, by simp, by simp,
        by simp only [List.length_nil, le_max_iff]; omega, ?_⟩
      intro c hc
      simp only [List.mem_singleton] at hc
      subst hc
      simp only
      omega
    | some q =>
      obtain ⟨hpq, _, hocc, _⟩ := indexOf_some hq
      have hq12 := occurrence_le_length hocc
      obtain ⟨n, rest, hcalls, hrest, hpair, hcount, hsizes⟩ :=
        ih q (by omega) (by omega)
      refine ⟨q - p, (q, n) :: rest, ?_, ?_, ?_, ?_, ?_⟩
      · simp only [handleIncomingDataCalls, hcalls, Option.map_some']
      · intro c hc
        rcases List.mem_cons.1 hc with rfl | hc
        · exact ⟨by simp only; omega, hq12⟩
        · exact ⟨by have := (hrest c hc).1; omega, (hrest c hc).2⟩
      · refine List.Pairwise.cons ?_ hpair
        intro c hc
        rcases List.mem_cons.1 hc with rfl | hc
        · simp only; omega
        · have := (hrest c hc).1
          simp only
          omega
      · simp only [List.length_cons, le_max_iff] at hcount ⊢
        omega
      · intro c hc
        rcases List.mem_cons.1 hc with rfl | hc
        · simp only
          omega
        · exact hsizes c hc

/-- C29: the framing loop of `handleIncomingData` ends on every buffer,
within the fuel of one step per byte and one more. The calls of
`fromRawData` that it makes give the slices handed to the decoder; the
first call is at `p = 0`, the value of `p` increases strictly from each
call to the next, and every value that `p` takes in an iteration is below
the length of the buffer, as is the first one in a buffer that is not
empty. The decoder is called at most `max 1 length` times, and in a buffer
that is not empty no slice handed over is empty. -/
theorem handleIncomingData_terminates (buf : List Byte) :
    ∃ calls : List (Nat × Nat), cutCalls buf = some calls ∧
      handedSlices buf = some (calls.map (fun c => fromRawData buf c.1 c.2)) ∧
      (∀ {σ : Type} (handle : σ → List Byte → σ) (st : σ),
        handleIncomingDataWith handle buf st
          = some ((calls.map (fun c => fromRawData buf c.1 c.2)).foldl handle st)) ∧
      calls.head?.map Prod.fst = some 0 ∧
      calls.Pairwise (fun a b => a.1 < b.1) ∧
      (∀ c ∈ calls.tail, c.1 < buf.length) ∧
      calls.length ≤ max 1 buf.length ∧
      (buf ≠ [] → ∀ c ∈ calls, c.1 < buf.length ∧ fromRawData buf c.1 c.2 ≠ []) := by
  obtain ⟨n, rest, hcalls, hrest, hpair, hcount, hsizes⟩ :=
    handleIncomingDataCalls_spec buf (buf.length + 1) 0 (by omega) (by omega)
  have hwith : ∀ {σ : Type} (handle : σ → List Byte → σ) (st : σ),
      handleIncomingDataWith handle buf st
        = some ((((0, n) :: rest).map (fun c => fromRawData buf c.1 c.2)).foldl handle st) := by
    intro σ handle st
    unfold handleIncomingDataWith
    rw [handleIncomingDataLoop_calls, hcalls]
    rfl
  have hlt : buf ≠ [] → ∀ c ∈ (0, n) :: rest, c.1 < buf.length := by
    intro hb c hc
    rcases List.mem_cons.1 hc with rfl | hc
    · exact List.length_pos.2 hb
    · have := (hrest c hc).2
      omega
  refine ⟨(0, n) :: rest, hcalls, ?_, hwith, rfl, hpair, ?_, ?_, ?_⟩
  · unfold handedSlices
    rw [hwith, foldl_record]
    rfl
  · intro c hc
    have := (hrest c hc).2
    omega
  · simp only [List.length_cons, le_max_iff] at hcount ⊢
    omega
  · intro hb c hc
    have h1 := hlt hb c hc
    have h2 := hsizes c hc
    refine ⟨h1, ?_⟩
    intro h
    have hl := congrArg List.length h
    simp only [fromRawData, List.length_take, List.length_drop, List.length_nil] at hl
    omega

/-- The calls of the framing loop on a buffer of two entries after a
preamble of one byte: three cuts, at 0, 1 and 16. -/
theorem cutCalls_example :
    cutCalls (bytes "x<traceentry a/><traceentry b/>") = some [(0, 1), (1, 15), (16, 15)] ∧
    cutCalls [] = some [(0, 0)] := by
  decide

/-! ## Action codes, fresh trace points and the instrumentation macros -/

/-- C23: the action codes of `TracePointSet`. `YieldBacktrace` and
`YieldVariables` each contain the bit of `LogTracePoint`,
`IgnoreTracePoint` contains no bit of it, the four codes are pairwise
distinct, and the bitwise OR of the two yield actions differs from each of
them (and still contains the bit of `LogTracePoint`). -/
theorem TracePointSet_action_codes :
    TracePointSet.YieldBacktrace &&& TracePointSet.LogTracePoint
      = TracePointSet.LogTracePoint ∧
    TracePointSet.YieldVariables &&& TracePointSet.LogTracePoint
      = TracePointSet.LogTracePoint ∧
    TracePointSet.IgnoreTracePoint &&& TracePointSet.LogTracePoint = 0 ∧
    [TracePointSet.IgnoreTracePoint, TracePointSet.LogTracePoint,
      TracePointSet.YieldBacktrace, TracePointSet.YieldVariables].Nodup ∧
    TracePointSet.YieldBacktrace ||| TracePointSet.YieldVariables
      ≠ TracePointSet.YieldBacktrace ∧
    TracePointSet.YieldBacktrace ||| TracePointSet.YieldVariables
      ≠ TracePointSet.YieldVariables ∧
    (TracePointSet.YieldBacktrace ||| TracePointSet.YieldVariables)
      &&& TracePointSet.LogTracePoint = TracePointSet.LogTracePoint ∧
    [TracePointSet.IgnoreTracePoint, TracePointSet.LogTracePoint,
      TracePointSet.YieldBacktrace, TracePointSet.YieldVariables,
      TracePointSet.YieldBacktrace ||| TracePointSet.YieldVariables]
      = [0x0000, 0x0001, 0x0101, 0x0201, 0x0301] := by
  decide

/-- C25: a freshly constructed `TracePoint` holds the five values given to
the constructor, whatever they are, has a null `lastUsedConfiguration`, and
has `active`, `backtracesEnabled` and `variableSnapshotEnabled` all
false. -/
theorem TracePoint_init_unresolved {Configuration : Type} (type_ : TracePointType)
    (verbosity_ : Nat) (sourceFile_ : String) (lineno_ : Nat) (functionName_ : String) :
    let tp : TracePoint Configuration :=
      TracePoint.init type_ verbosity_ sourceFile_ lineno_ functionName_
    tp.type = type_ ∧ tp.verbosity = verbosity_ ∧ tp.sourceFile = sourceFile_ ∧
      tp.lineno = lineno_ ∧ tp.functionName = functionName_ ∧
      tp.lastUsedConfiguration = none ∧
      tp.active = false ∧ tp.backtracesEnabled = false ∧
      tp.variableSnapshotEnabled = false :=
  ⟨rfl, rfl, rfl, rfl, rfl, rfl, rfl, rfl, rfl⟩

/-- C24 as stated fails: with `TRACELIB_DISABLE_TRACE_CODE` defined,
`TRACELIB_TRACE` is `(void)0;` and creates no trace point, as is
`TRACELIB_WATCH_KEY_MSG`. -/
theorem TRACELIB_TRACE_disabled :
    TRACELIB_TRACE true helloSite = none ∧
    ¬ Creates (TRACELIB_TRACE true helloSite) helloSite TracePointType.Log none none ∧
    TRACELIB_WATCH_KEY_MSG true helloSite (some "io") ["name: ", "Max"] ["name"] = none := by
  refine ⟨rfl, ?_, rfl⟩
  rintro ⟨v, hv, _⟩
  cases hv

/-- C24, amended: unless `TRACELIB_DISABLE_TRACE_CODE` is defined, each
instrumentation macro creates, for the place of its use, a trace point of
the type that its name states, with verbosity 1: `Log` for the
`TRACELIB_TRACE` family, `Debug` for `TRACELIB_DEBUG`, `Error` for
`TRACELIB_ERROR`, `Watch` for `TRACELIB_WATCH` (which also hands over the
snapshot of `vars`). The variants without `_KEY` pass a null key, those
without `_MSG` a null message; the `_KEY` and `_MSG` variants pass the
given key and the message that `StringBuilder` builds from the given
expression. With `TRACELIB_DISABLE_TRACE_CODE` defined every macro expands
to an empty statement. -/
theorem macros_create (site : CallSite) (key : Option String) (msg : List String)
    (vars : List String) :
    (Creates (TRACELIB_TRACE false site) site TracePointType.Log none none ∧
      Creates (TRACELIB_TRACE_MSG false site msg) site TracePointType.Log none
        (some (StringBuilder msg)) ∧
      Creates (TRACELIB_TRACE_KEY false site key) site TracePointType.Log key none ∧
      Creates (TRACELIB_TRACE_KEY_MSG false site key msg) site TracePointType.Log key
        (some (StringBuilder msg))) ∧
    (Creates (TRACELIB_DEBUG false site) site TracePointType.Debug none none ∧
      Creates (TRACELIB_DEBUG_MSG false site msg) site TracePointType.Debug none
        (some (StringBuilder msg)) ∧
      Creates (TRACELIB_DEBUG_KEY false site key) site TracePointType.Debug key none ∧
      Creates (TRACELIB_DEBUG_KEY_MSG false site key msg) site TracePointType.Debug key
        (some (StringBuilder msg))) ∧
    (Creates (TRACELIB_ERROR false site) site TracePointType.Error none none ∧
      Creates (TRACELIB_ERROR_MSG false site msg) site TracePointType.Error none
        (some (StringBuilder msg)) ∧
      Creates (TRACELIB_ERROR_KEY false site key) site TracePointType.Error key none ∧
      Creates (TRACELIB_ERROR_KEY_MSG false site key msg) site TracePointType.Error key
        (some (StringBuilder msg))) ∧
    (Creates (TRACELIB_WATCH false site vars) site TracePointType.Watch none none ∧
      Creates (TRACELIB_WATCH_MSG false site msg vars) site TracePointType.Watch none
        (some (StringBuilder msg)) ∧
      Creates (TRACELIB_WATCH_KEY false site key vars) site TracePointType.Watch key none ∧
      Creates (TRACELIB_WATCH_KEY_MSG false site key msg vars) site TracePointType.Watch key
        (some (StringBuilder msg))) ∧
    ((TRACELIB_WATCH false site vars).bind (fun v => v.variableSnapshot) = some vars ∧
      (TRACELIB_WATCH_MSG false site msg vars).bind (fun v => v.variableSnapshot)
        = some vars ∧
      (TRACELIB_WATCH_KEY false site key vars).bind (fun v => v.variableSnapshot)
        = some vars ∧
      (TRACELIB_WATCH_KEY_MSG false site key msg vars).bind (fun v => v.variableSnapshot)
        = some vars) ∧
    [TRACELIB_TRACE true site, TRACELIB_TRACE_MSG true site msg,
      TRACELIB_TRACE_KEY true site key, TRACELIB_TRACE_KEY_MSG true site key msg,
      TRACELIB_DEBUG true site, TRACELIB_DEBUG_MSG true site msg,
      TRACELIB_DEBUG_KEY true site key, TRACELIB_DEBUG_KEY_MSG true site key msg,
      TRACELIB_ERROR true site, TRACELIB_ERROR_MSG true site msg,
      TRACELIB_ERROR_KEY true site key, TRACELIB_ERROR_KEY_MSG true site key msg,
      TRACELIB_WATCH true site vars, TRACELIB_WATCH_MSG true site msg vars,
      TRACELIB_WATCH_KEY true site key vars, TRACELIB_WATCH_KEY_MSG true site key msg vars]
      = List.replicate 16 none := by
  refine ⟨⟨?_, ?_, ?_, ?_⟩, ⟨?_, ?_, ?_, ?_⟩, ⟨?_, ?_, ?_, ?_⟩, ⟨?_, ?_, ?_, ?_⟩,
    ⟨rfl, rfl, rfl, rfl⟩, rfl⟩ <;>
  exact ⟨_, rfl, rfl, rfl, rfl, rfl, rfl, rfl, rfl⟩

/-- The macro `TRACELIB_TRACE_MSG("main() entered")` at the place
`hello_instrumented.cpp:8` of the header's example. -/
theorem TRACELIB_TRACE_MSG_example :
    TRACELIB_TRACE_MSG false helloSite ["main() entered"]
      = some { tracePoint := { type := TracePointType.Log, verbosity := 1,
                               sourceFile := "hello_instrumented.cpp", lineno := 8,
                               functionName := "int __cdecl main(void)", key := none },
               msg := some "main() entered",
               variableSnapshot := none } := by
  decide

/-! ## The filter of the GUI -/

theorem contains_iff (s str : String) :
    contains s str = true ↔ ∃ before after : String, s = before ++ str ++ after := by
  unfold contains
  rw [decide_eq_true_iff]
  constructor
  · rintro ⟨pre, post, h⟩
    refine ⟨⟨pre⟩, ⟨post⟩, ?_⟩
    apply String.ext
    simp [String.data_append, h]
  · rintro ⟨before, after, h⟩
    exact ⟨before.data, after.data, by rw [h]; simp [String.data_append]⟩

/-- C26: `EntryFilter::matches( e )` is true exactly when the application
string of the filter is empty or occurs in `e.processName` (in which
nothing but the empty string occurs when it is null); so the result
is the same for any two filters with the same application string and any
two entries with the same process name, whatever their other fields. -/
theorem matches_iff (f : EntryFilter) (e : TraceEntry) :
    (f.«matches» e = true ↔
      f.m_application = "" ∨
        ∃ before after : String,
          str e.processName = before ++ f.m_application ++ after) ∧
    (∀ (g : EntryFilter) (x : TraceEntry),
      EntryFilter.«matches» { g with m_application := f.m_application }
        { x with processName := e.processName } = f.«matches» e) := by
  refine ⟨?_, fun g x => rfl⟩
  unfold EntryFilter.«matches»
  rw [← contains_iff, ← String.isEmpty_iff]
  cases f.m_application.isEmpty <;>
    cases contains (str e.processName) f.m_application <;> simp

/-- The filter `ell` matches the process `hello`, the filter `Ell` does
not, and the empty filter matches every entry. -/
theorem matches_examples :
    EntryFilter.«matches» { emptyFilter with m_application := "ell", m_type := 3 }
      { scenario1Entry with processName := some "hello" } = true ∧
    EntryFilter.«matches» { emptyFilter with m_application := "Ell" }
      { scenario1Entry with processName := some "hello" } = false ∧
    emptyFilter.«matches» scenario1Entry = true := by
  decide

theorem StorageMap.get_nil (key : String) : StorageMap.get [] key = QVariant.invalid := rfl

theorem StorageMap.get_set_same (map : StorageMap) (key : String) (value : QVariant) :
    (map.set key value).get key = value := by
  simp [StorageMap.get, StorageMap.set, List.lookup]

theorem StorageMap.lookup_filter_ne (key other : String) (h : key ≠ other) :
    ∀ map : StorageMap,
      List.lookup key (map.filter (fun kv => kv.1 != other)) = List.lookup key map := by
  intro map
  induction map with
  | nil => rfl
  | cons kv rest ih =>
    obtain ⟨k, v⟩ := kv
    by_cases hk : k = other
    · subst hk
      have hne : (key == k) = false := by simpa using h
      simp [List.filter, List.lookup, hne, ih]
    · have hf : (k != other) = true := by simpa using hk
      simp only [List.filter, hf, List.lookup, ih]

theorem StorageMap.get_set_ne (map : StorageMap) (key other : String) (value : QVariant)
    (h : key ≠ other) : (map.set other value).get key = map.get key := by
  have hne : (key == other) = false := by simpa using h
  simp only [StorageMap.get, StorageMap.set, List.lookup, hne]
  rw [StorageMap.lookup_filter_ne key other h]

/-- What `restoreSessionState` makes of the state that `sessionState`
returns: every string is restored, and so is every type but -1, in whose
place 0 is read from the missing key. -/
theorem restoreSessionState_sessionState_eq (f g : EntryFilter) :
    g.restoreSessionState f.sessionState
      = (true, { f with m_type := if f.m_type = -1 then 0 else f.m_type }) := by
  obtain ⟨a, p, t, fn, m, ty⟩ := f
  obtain ⟨ga, gp, gt, gfn, gm, gty⟩ := g
  simp only [EntryFilter.restoreSessionState, EntryFilter.sessionState, Prod.mk.injEq,
    true_and, EntryFilter.mk.injEq]
  have e : ∀ s : String, (!s.isEmpty) = true ↔ s ≠ "" := by
    intro s
    rw [ne_eq, ← String.isEmpty_iff]
    cases s.isEmpty <;> simp
  refine ⟨?_, ?_, ?_, ?_, ?_, ?_⟩
  all_goals
    by_cases ha : a = "" <;> by_cases hp : p = "" <;> by_cases ht1 : t = "" <;>
    by_cases hfn : fn = "" <;> by_cases hm : m = "" <;> by_cases hty : ty = -1 <;>
    simp [e, ha, hp, ht1, hfn, hm, hty, StorageMap.get_set_same, StorageMap.get_set_ne,
      StorageMap.get_nil, QVariant.asString, QVariant.asInt]

/-- C27: the round trip through the session state does not keep a type of
-1. `restoreSessionState` returns true and restores the five strings, the
empty ones included, but `sessionState` stores no `Type` for -1 and
`restoreSessionState` reads 0 from the missing key: the filter comes back
as it was exactly when its type is not -1. For the filter in which nothing
is selected the state is the empty map and the type restored is 0. -/
theorem restoreSessionState_type_lost :
    (∀ f g : EntryFilter,
      (g.restoreSessionState f.sessionState).1 = true ∧
      (g.restoreSessionState f.sessionState).2
        = { f with m_type := if f.m_type = -1 then 0 else f.m_type } ∧
      ((g.restoreSessionState f.sessionState).2 = f ↔ f.m_type ≠ -1)) ∧
    emptyFilter.sessionState = [] ∧
    emptyFilter.restoreSessionState emptyFilter.sessionState
      = (true, { emptyFilter with m_type := 0 }) ∧
    (emptyFilter.restoreSessionState emptyFilter.sessionState).2 ≠ emptyFilter := by
  refine ⟨fun f g => ?_, by decide, by decide, by decide⟩
  rw [restoreSessionState_sessionState_eq]
  refine ⟨rfl, rfl, ?_⟩
  obtain ⟨a, p, t, fn, m, ty⟩ := f
  simp only [EntryFilter.mk.injEq, true_and, ne_eq]
  by_cases h : ty = -1
  · simp [h]
  · simp [h]

/-! ## The suspension of the model of the entries -/

theorem insertNewTraceEntries_zero (answer : Except String Int) (m : EntryItemModel)
    (h : m.m_numNewEntries = 0) : m.insertNewTraceEntries answer = m := by
  simp [EntryItemModel.insertNewTraceEntries, h]

theorem insertNewTraceEntries_spec (answer : Except String Int) (m : EntryItemModel) :
    (m.insertNewTraceEntries answer).m_suspended = m.m_suspended ∧
    (m.insertNewTraceEntries answer).timerActive = m.timerActive ∧
    (m.insertNewTraceEntries answer).m_numNewEntries = 0 ∧
    (m.insertNewTraceEntries answer).m_filter = m.m_filter ∧
    (m.insertNewTraceEntries answer).effects = m.effects ++
      (if m.m_numNewEntries = 0 then []
        else [ModelEffect.beginInsertRows m.m_querySize
                (m.m_querySize + m.m_numNewEntries - 1)]
          ++ (match answer with
              | .error text =>
                  [ModelEffect.qDebug ("EntryItemModel::insertNewTraceEntries: failed: "
                    ++ text)]
              | .ok _ => [])
          ++ [ModelEffect.endInsertRows]) := by
  by_cases h : m.m_numNewEntries = 0
  · rw [insertNewTraceEntries_zero answer m h]
    simp [h]
  · cases answer <;>
      simp [EntryItemModel.insertNewTraceEntries, EntryItemModel.queryForEntries, h]

theorem triggerUpdate_suspended (m : EntryItemModel) (h : m.m_suspended = true) :
    m.triggerUpdate = m := by
  simp [EntryItemModel.triggerUpdate, h]

/-- A call made on a suspended model leaves it suspended, starts no timer
(the effects it adds hold no `timerStart`) and makes no timer active. -/
theorem call_suspended (m : EntryItemModel) (c : ModelCall) (h : m.m_suspended = true) :
    (m.call c).m_suspended = true ∧
    ((m.call c).timerActive = true → m.timerActive = true) ∧
    ∃ added, (m.call c).effects = m.effects ++ added ∧
      ∀ msec, ModelEffect.timerStart msec ∉ added := by
  cases c with
  | handleNewTraceEntry e =>
    simp only [EntryItemModel.call, EntryItemModel.handleNewTraceEntry]
    split
    · exact ⟨h, id, [], by simp, by simp⟩
    · rw [triggerUpdate_suspended { m with m_numNewEntries := m.m_numNewEntries + 1 } h]
      exact ⟨h, id, [], by simp, by simp⟩
  | triggerUpdate =>
    simp only [EntryItemModel.call]
    rw [triggerUpdate_suspended _ h]
    exact ⟨h, id, [], by simp, by simp⟩
  | filterChanged filter =>
    simp only [EntryItemModel.call]
    rw [triggerUpdate_suspended { m with m_filter := filter } h]
    exact ⟨h, id, [], by simp, by simp⟩
  | suspend => exact ⟨rfl, id, [], by simp [EntryItemModel.call, EntryItemModel.suspend],
      by simp⟩
  | setDatabase answer =>
    cases answer <;>
      simp [EntryItemModel.call, EntryItemModel.setDatabase,
        EntryItemModel.queryForEntries, h]
  | reApplyFilter answer =>
    cases answer <;>
      simp [EntryItemModel.call, EntryItemModel.reApplyFilter,
        EntryItemModel.queryForEntries, h]
  | timeout answer =>
    simp only [EntryItemModel.call]
    split
    · rename_i ht
      obtain ⟨h1, h2, _, _, h5⟩ :=
        insertNewTraceEntries_spec answer { m with timerActive := false }
      refine ⟨by rw [h1]; exact h, fun _ => ht, _, h5, ?_⟩
      intro msec
      cases answer <;> split <;> simp
    · exact ⟨h, id, [], by simp, by simp⟩

theorem calls_suspended (calls : List ModelCall) :
    ∀ m : EntryItemModel, m.m_suspended = true →
      (calls.foldl EntryItemModel.call m).m_suspended = true ∧
      ((calls.foldl EntryItemModel.call m).timerActive = true → m.timerActive = true) ∧
      ∃ added, (calls.foldl EntryItemModel.call m).effects = m.effects ++ added ∧
        ∀ msec, ModelEffect.timerStart msec ∉ added := by
  induction calls with
  | nil => intro m h; exact ⟨h, id, [], by simp, by simp⟩
  | cons c cs ih =>
    intro m h
    obtain ⟨h1, h2, added1, h3, h4⟩ := call_suspended m c h
    obtain ⟨k1, k2, added2, k3, k4⟩ := ih (m.call c) h1
    refine ⟨k1, fun ht => h2 (k2 ht), added1 ++ added2, ?_, ?_⟩
    · rw [List.foldl_cons, k3, h3, List.append_assoc]
    · intro msec hm
      rcases List.mem_append.1 hm with hm | hm
      · exact h4 msec hm
      · exact k4 msec hm

/-- C30: in every state `s` that a model reaches after `suspend()` by
calls other than `resume()`, among them `handleNewTraceEntry`,
`triggerUpdate` and the timer running out, the model is still suspended,
no call has started the polling timer on the way, and neither
`triggerUpdate` nor `handleNewTraceEntry` starts it in `s`:
`triggerUpdate` changes nothing, and `handleNewTraceEntry` only adds one to
the count of new entries for an entry that the filter matches and nothing
for another one. `resume()` clears the flag and inserts the new entries,
announcing the rows from `m_querySize` on when there are any, and leaves
the count at 0; `insertNewTraceEntries` with a count of 0 changes
nothing. -/
theorem suspension_invariant (m : EntryItemModel) (calls : List ModelCall) :
    let s := calls.foldl EntryItemModel.call m.suspend
    s.m_suspended = true ∧
    (∃ added, s.effects = m.effects ++ added ∧
      ∀ msec, ModelEffect.timerStart msec ∉ added) ∧
    (s.timerActive = true → m.timerActive = true) ∧
    s.triggerUpdate = s ∧
    (∀ e : TraceEntry,
      s.handleNewTraceEntry e
        = { s with m_numNewEntries :=
              s.m_numNewEntries + (if s.m_filter.«matches» e then 1 else 0) }) ∧
    (∀ answer : Except String Int,
      (s.resume answer).m_suspended = false ∧
      (s.resume answer).m_numNewEntries = 0 ∧
      (s.resume answer).effects = s.effects ++
        (if s.m_numNewEntries = 0 then []
          else [ModelEffect.beginInsertRows s.m_querySize
                  (s.m_querySize + s.m_numNewEntries - 1)]
            ++ (match answer with
                | .error text =>
                    [ModelEffect.qDebug ("EntryItemModel::insertNewTraceEntries: failed: "
                      ++ text)]
                | .ok _ => [])
            ++ [ModelEffect.endInsertRows])) ∧
    (∀ (answer : Except String Int) (x : EntryItemModel),
      x.m_numNewEntries = 0 → x.insertNewTraceEntries answer = x) := by
  intro s
  obtain ⟨h1, h2, h3⟩ := calls_suspended calls m.suspend rfl
  refine ⟨h1, h3, h2, triggerUpdate_suspended s h1, ?_, ?_,
    fun answer x hx => insertNewTraceEntries_zero answer x hx⟩
  · intro e
    unfold EntryItemModel.handleNewTraceEntry
    cases hm : s.m_filter.«matches» e
    · simp
    · simp only [Bool.not_true, Bool.false_eq_true, if_false, if_true]
      exact triggerUpdate_suspended { s with m_numNewEntries := s.m_numNewEntries + 1 } h1
  · intro answer
    obtain ⟨k1, _, k3, _, k5⟩ :=
      insertNewTraceEntries_spec answer { s with m_suspended := false }
    exact ⟨k1, k3, k5⟩

/-- A model with the filter `hello` is suspended with no timer running; an
entry of the process `hello_instrumented` and one of the process `other`
arrive and the filter changes: one entry is pending and no timer was
started. `resume()` with a database that answers three rows announces the
row 2 and leaves nothing pending; without the suspension the first entry
starts the timer. -/
theorem suspension_example :
    [ModelCall.handleNewTraceEntry scenario1Entry,
      ModelCall.handleNewTraceEntry { scenario1Entry with processName := some "other" },
      ModelCall.triggerUpdate].foldl EntryItemModel.call helloModel.suspend
      = { helloModel with m_suspended := true, m_numNewEntries := 1 } ∧
    EntryItemModel.resume (.ok 3) { helloModel with m_suspended := true, m_numNewEntries := 1 }
      = { helloModel with
          m_querySize := 3,
          effects := [ModelEffect.beginInsertRows 2 2, ModelEffect.endInsertRows] } ∧
    helloModel.handleNewTraceEntry scenario1Entry
      = { helloModel with
          m_numNewEntries := 1, timerActive := true,
          effects := [ModelEffect.timerStart 200] } := by
  decide

end Tracer
